import Mathlib

/-!
# drt-go-sdk: nonce handling

Shallow embedding of `interactors/nonceHandlerV2/addressNonceHandler.go`.

Conventions of the embedding:

* `uint64` values are natural numbers; the two places where the Go code can
  overflow (`computedNonce++`, `gasPrice++`) reduce modulo `2 ^ 64`.
* The Go map `map[uint64]*FrontendTransaction` is an association list of
  `(key, transaction)` pairs.  The order of the list stands for the (unspecified)
  iteration order of the Go map.  Stored transactions are values: the draft handed
  to `ApplyNonceAndGasPrice` is assumed not to be a record the map holds.  The Go map holds
  pointers; the part `Pointers` models them and treats the draft that is a stored record.
* The proxy is an external collaborator.  Every operation receives the answers the
  proxy gives during that call, and reports the requests it made in `calls`.
  Errors produced by the proxy or by the address handler are wrapped in
  `Error.external`; they are never one of the sentinel errors of the package.
* The operations are modelled sequentially: each call runs atomically.  Concurrent calls of
  `getNonceUpdatingCurrent` are modelled separately by `race`, an interleaving of the
  account reads (made without the mutex) and the critical sections (made holding it).
-/

namespace NonceHandlerV2

/-- Number of values of a Go `uint64`. -/
def uint64Size : Nat := 2 ^ 64

/-- Sentinel errors of package `interactors` used by the handler, plus the errors
that come from the collaborators (proxy, address handler). -/
inductive Error where
  | ErrNilProxy
  | ErrNilAddress
  | ErrTxWithSameNonceAndGasPriceAlreadySent
  | ErrGapNonce
  | external (msg : String)
  deriving DecidableEq, Repr

/-- The fields of `transaction.FrontendTransaction` that the repository reads or writes. -/
structure FrontendTransaction where
  Nonce : Nat
  Value : String
  Receiver : String
  Sender : String
  GasPrice : Nat
  GasLimit : Nat
  Data : List Nat
  Signature : String
  ChainID : String
  Version : Nat
  Options : Nat
  deriving DecidableEq, Repr

/-- Fields of `data.Account` used by the handler. -/
structure Account where
  Address : String
  Nonce : Nat
  Balance : String
  deriving DecidableEq, Repr

/-- Fields of `data.NetworkConfig` used by the repository. -/
structure NetworkConfig where
  ChainID : String
  GasPerDataByte : Nat
  MinGasLimit : Nat
  MinGasPrice : Nat
  MinTransactionVersion : Nat
  deriving DecidableEq, Repr

/-- Answers of `interactors.Proxy` during one handler operation. -/
structure Proxy where
  GetAccount : Except String Account
  GetNetworkConfig : Except String NetworkConfig
  SendTransaction : FrontendTransaction → Except String String
  SendTransactions : List FrontendTransaction → Except String (List String)

/-- Requests made to the proxy. -/
inductive ProxyCall where
  | GetAccount
  | GetNetworkConfig
  | SendTransaction (tx : FrontendTransaction)
  | SendTransactions (txs : List FrontendTransaction)
  deriving DecidableEq, Repr

/-- The part of `core.AddressHandler` used by the handler. -/
structure AddressHandler where
  AddressAsBech32String : Except String String

/-- State of `addressNonceHandler` (the mutex and the proxy reference are left out). -/
structure addressNonceHandler where
  address : AddressHandler
  computedNonceWasSet : Bool
  computedNonce : Nat
  lowestNonce : Nat
  gasPrice : Nat
  nonceUntilGasIncreased : Nat
  transactions : List (Nat × FrontendTransaction)

/-- Helper `core.MaxUint64`. -/
def MaxUint64 (a b : Nat) : Nat := if a > b then a else b

/-- Helper `core.MinUint64`. -/
def MinUint64 (a b : Nat) : Nat := if a < b then a else b

/-- Go `m[k]` on the association list. -/
def mapGet (m : List (Nat × FrontendTransaction)) (k : Nat) : Option FrontendTransaction :=
  m.lookup k

/-- Go `delete(m, k)`. -/
def mapDelete (m : List (Nat × FrontendTransaction)) (k : Nat) :
    List (Nat × FrontendTransaction) :=
  m.filter (fun p => p.1 != k)

/-- Go `m[k] = v`. -/
def mapSet (m : List (Nat × FrontendTransaction)) (k : Nat) (v : FrontendTransaction) :
    List (Nat × FrontendTransaction) :=
  (k, v) :: mapDelete m k

/-- Constructor `NewAddressNonceHandler`; `none` stands for a nil argument. -/
def NewAddressNonceHandler (proxy : Option Proxy) (address : Option AddressHandler) :
    Except Error addressNonceHandler :=
  match proxy with
  | none => .error .ErrNilProxy
  | some _ =>
    match address with
    | none => .error .ErrNilAddress
    | some a =>
      .ok { address := a, computedNonceWasSet := false, computedNonce := 0, lowestNonce := 0,
            gasPrice := 0, nonceUntilGasIncreased := 0, transactions := [] }

/-- Method `getOlderTxWithSameNonce`. -/
def getOlderTxWithSameNonce (anh : addressNonceHandler) (tx : FrontendTransaction) :
    Option FrontendTransaction :=
  mapGet anh.transactions tx.Nonce

/-- Method `handleTxWithSameNonce`; `none` is the Go `nil` error. -/
def handleTxWithSameNonce (anh : addressNonceHandler) (oldTx tx : FrontendTransaction) :
    Option Error :=
  if oldTx.GasPrice < tx.GasPrice then none
  else if oldTx.GasPrice == tx.GasPrice && decide (oldTx.GasPrice < anh.gasPrice) then none
  else some .ErrTxWithSameNonceAndGasPriceAlreadySent

/-- Outcome of `fetchGasPriceIfRequired`. -/
structure FetchResult where
  anh : addressNonceHandler
  calls : List ProxyCall

/-- Method `fetchGasPriceIfRequired`. -/
def fetchGasPriceIfRequired (anh : addressNonceHandler) (proxy : Proxy) (nonce : Nat) :
    FetchResult :=
  if nonce == (anh.nonceUntilGasIncreased + 1) % uint64Size || anh.gasPrice == 0 then
    match proxy.GetNetworkConfig with
    | .error _ => { anh := { anh with gasPrice := 0 }, calls := [.GetNetworkConfig] }
    | .ok networkConfig =>
      { anh := { anh with gasPrice := networkConfig.MinGasPrice }, calls := [.GetNetworkConfig] }
  else { anh := anh, calls := [] }

/-- Outcome of `getNonceUpdatingCurrent`: new state, returned nonce, returned error. -/
structure NonceResult where
  anh : addressNonceHandler
  nonce : Nat
  err : Option Error

/-- Method `getNonceUpdatingCurrent`. -/
def getNonceUpdatingCurrent (anh : addressNonceHandler) (proxy : Proxy) : NonceResult :=
  match proxy.GetAccount with
  | .error e => { anh := anh, nonce := 0, err := some (.external e) }
  | .ok account =>
    if anh.lowestNonce > account.Nonce then
      { anh := anh, nonce := account.Nonce, err := some .ErrGapNonce }
    else if !anh.computedNonceWasSet then
      { anh := { anh with computedNonce := account.Nonce, computedNonceWasSet := true },
        nonce := account.Nonce, err := none }
    else
      let anh1 := { anh with computedNonce := (anh.computedNonce + 1) % uint64Size }
      { anh := anh1, nonce := MaxUint64 anh1.computedNonce account.Nonce, err := none }

/-- Outcome of `ApplyNonceAndGasPrice`: new state, the transaction behind the pointer
after the call, the returned error and the proxy requests made. -/
structure ApplyResult where
  anh : addressNonceHandler
  tx : FrontendTransaction
  err : Option Error
  calls : List ProxyCall

/-- Method `ApplyNonceAndGasPrice`, called on a draft that is not a record the map holds
(`Pointers.ApplyNonceAndGasPrice` has the general case, `Pointers.apply_view` relates the
two); `tx` is the transaction behind the pointer at the call. -/
def ApplyNonceAndGasPrice (anh : addressNonceHandler) (proxy : Proxy)
    (tx : FrontendTransaction) : ApplyResult :=
  let sameNonceErr : Option Error :=
    match getOlderTxWithSameNonce anh tx with
    | some oldTx => handleTxWithSameNonce anh oldTx tx
    | none => none
  match sameNonceErr with
  | some err => { anh := anh, tx := tx, err := some err, calls := [] }
  | none =>
    let r := getNonceUpdatingCurrent anh proxy
    let tx1 := { tx with Nonce := r.nonce }
    match r.err with
    | some err => { anh := r.anh, tx := tx1, err := some err, calls := [.GetAccount] }
    | none =>
      let f := fetchGasPriceIfRequired r.anh proxy r.nonce
      { anh := f.anh,
        tx := { tx1 with GasPrice := MaxUint64 f.anh.gasPrice tx1.GasPrice },
        err := none,
        calls := .GetAccount :: f.calls }

/-- Loop variables of the sweep in `ReSendTransactionsIfRequired`. -/
structure SweepState where
  transactions : List (Nat × FrontendTransaction)
  minNonce : Nat
  resendableTxs : List FrontendTransaction

/-- One iteration of `for txNonce, tx := range anh.transactions`. -/
def sweepStep (accountNonce : Nat) (st : SweepState) (entry : Nat × FrontendTransaction) :
    SweepState :=
  if entry.1 ≤ accountNonce then
    { st with transactions := mapDelete st.transactions entry.1 }
  else
    { st with minNonce := MinUint64 entry.1 st.minNonce,
              resendableTxs := st.resendableTxs ++ [entry.2] }

/-- Outcome of `ReSendTransactionsIfRequired`. -/
structure ReSendResult where
  anh : addressNonceHandler
  err : Option Error
  calls : List ProxyCall

/-- Method `ReSendTransactionsIfRequired`. -/
def ReSendTransactionsIfRequired (anh : addressNonceHandler) (proxy : Proxy) : ReSendResult :=
  match proxy.GetAccount with
  | .error e => { anh := anh, err := some (.external e), calls := [.GetAccount] }
  | .ok account =>
    if account.Nonce == anh.computedNonce then
      { anh := { anh with lowestNonce := anh.computedNonce, transactions := [] },
        err := none, calls := [.GetAccount] }
    else
      let st := anh.transactions.foldl (sweepStep account.Nonce)
        { transactions := anh.transactions, minNonce := anh.computedNonce, resendableTxs := [] }
      let anh1 := { anh with transactions := st.transactions, lowestNonce := st.minNonce }
      if st.resendableTxs.length == 0 then
        { anh := anh1, err := none, calls := [.GetAccount] }
      else
        let calls := [ProxyCall.GetAccount, ProxyCall.SendTransactions st.resendableTxs]
        match proxy.SendTransactions st.resendableTxs with
        | .error e => { anh := anh1, err := some (.external e), calls := calls }
        | .ok _ =>
          match anh.address.AddressAsBech32String with
          | .error e => { anh := anh1, err := some (.external e), calls := calls }
          | .ok _ => { anh := anh1, err := none, calls := calls }

/-- Outcome of `SendTransaction`. -/
structure SendResult where
  anh : addressNonceHandler
  hash : String
  err : Option Error
  calls : List ProxyCall

/-- Method `SendTransaction`. -/
def SendTransaction (anh : addressNonceHandler) (proxy : Proxy) (tx : FrontendTransaction) :
    SendResult :=
  let anh1 := { anh with transactions := mapSet anh.transactions tx.Nonce tx }
  match proxy.SendTransaction tx with
  | .error e =>
    { anh := anh1, hash := "", err := some (.external e), calls := [.SendTransaction tx] }
  | .ok h => { anh := anh1, hash := h, err := none, calls := [.SendTransaction tx] }

/-- Method `DropTransactions`. -/
def DropTransactions (anh : addressNonceHandler) : addressNonceHandler :=
  { anh with transactions := [],
             computedNonceWasSet := false,
             gasPrice := (anh.gasPrice + 1) % uint64Size,
             nonceUntilGasIncreased := anh.computedNonce }

/-- One call on the public surface of the handler, with the proxy answers of that call. -/
inductive Op where
  | ApplyNonceAndGasPrice (proxy : Proxy) (tx : FrontendTransaction)
  | SendTransaction (proxy : Proxy) (tx : FrontendTransaction)
  | ReSendTransactionsIfRequired (proxy : Proxy)
  | DropTransactions

/-- Recognises `DropTransactions`. -/
def Op.isDrop : Op → Bool
  | .DropTransactions => true
  | _ => false

/-- Recognises `ApplyNonceAndGasPrice`. -/
def Op.isApply : Op → Bool
  | .ApplyNonceAndGasPrice _ _ => true
  | _ => false

/-- Runs one call; the second component is the nonce written to the transaction when
the call is a successful `ApplyNonceAndGasPrice`. -/
def step (anh : addressNonceHandler) : Op → addressNonceHandler × Option Nat
  | .ApplyNonceAndGasPrice proxy tx =>
    let r := ApplyNonceAndGasPrice anh proxy tx
    match r.err with
    | none => (r.anh, some r.tx.Nonce)
    | some _ => (r.anh, none)
  | .SendTransaction proxy tx => ((SendTransaction anh proxy tx).anh, none)
  | .ReSendTransactionsIfRequired proxy => ((ReSendTransactionsIfRequired anh proxy).anh, none)
  | .DropTransactions => (DropTransactions anh, none)

/-- Runs a sequence of calls; the second component lists, in order, the nonces written by
the successful `ApplyNonceAndGasPrice` calls. -/
def run : addressNonceHandler → List Op → addressNonceHandler × List Nat
  | anh, [] => (anh, [])
  | anh, op :: ops =>
    let r := step anh op
    let rest := run r.1 ops
    (rest.1, match r.2 with
             | some n => n :: rest.2
             | none => rest.2)

/-- Test fixture: a proxy whose account read reports `nonce` and whose network
configuration reports `minGasPrice`; every send is accepted. -/
def stubProxy (nonce minGasPrice : Nat) : Proxy :=
  { GetAccount := .ok { Address := "drt1test", Nonce := nonce, Balance := "0" },
    GetNetworkConfig := .ok { ChainID := "T", GasPerDataByte := 1500, MinGasLimit := 50000,
                              MinGasPrice := minGasPrice, MinTransactionVersion := 1 },
    SendTransaction := fun tx => .ok (toString tx.Nonce),
    SendTransactions := fun txs => .ok (txs.map fun tx => toString tx.Nonce) }

/-- Test fixture: a draft transaction with the given nonce and gas price. -/
def draftTx (nonce gasPrice : Nat) : FrontendTransaction :=
  { Nonce := nonce, Value := "5000000000000000000", Receiver := "drt1test", Sender := "drt1test",
    GasPrice := gasPrice, GasLimit := 50000, Data := [], Signature := "", ChainID := "T",
    Version := 2, Options := 0 }

/-- Test fixture: the handler `NewAddressNonceHandler` builds. -/
def freshHandler : addressNonceHandler :=
  { address := { AddressAsBech32String := .ok "drt1test" }, computedNonceWasSet := false,
    computedNonce := 0, lowestNonce := 0, gasPrice := 0, nonceUntilGasIncreased := 0,
    transactions := [] }

/-- Test fixture: a handler that stores one transaction with gas price 5 under nonce 3. -/
def handlerWithStoredTx : addressNonceHandler :=
  { freshHandler with transactions := [(3, draftTx 3 5)] }

/-- Test fixture: a bootstrapped handler whose `lowestNonce` is 13. -/
def handlerLowest13 : addressNonceHandler :=
  { freshHandler with computedNonceWasSet := true, computedNonce := 14, lowestNonce := 13,
                      gasPrice := 9 }

/-- Test fixture: a bootstrapped handler whose counter stands at 10. -/
def handlerAt10 : addressNonceHandler :=
  { freshHandler with computedNonceWasSet := true, computedNonce := 10, gasPrice := 5 }

/-- Test fixture: the handler after nonces 10, 11 and 12 were assigned (ledger nonce 10,
network gas price 5) and only the first transaction was sent. -/
def handlerAfterThree : addressNonceHandler :=
  (run freshHandler
    [.ApplyNonceAndGasPrice (stubProxy 10 5) (draftTx 0 0),
     .SendTransaction (stubProxy 10 5) (draftTx 10 5),
     .ApplyNonceAndGasPrice (stubProxy 10 5) (draftTx 0 0),
     .ApplyNonceAndGasPrice (stubProxy 10 5) (draftTx 0 0)]).1

/-- Test fixture: a handler holding the sent transactions with nonces 10 to 14. -/
def handlerTenToFourteen : addressNonceHandler :=
  { freshHandler with
      computedNonceWasSet := true, computedNonce := 14, lowestNonce := 10, gasPrice := 5,
      transactions := [(10, draftTx 10 5), (11, draftTx 11 5), (12, draftTx 12 5),
                       (13, draftTx 13 5), (14, draftTx 14 5)] }

/-- Condition on one call made in state `anh`: if the call is an `ApplyNonceAndGasPrice`
that succeeds on a handler whose `computedNonceWasSet` is already true, then the account
nonce it read is at most `computedNonce + 1`, and `computedNonce + 1` fits in a `uint64`. -/
def callLedgerNotAhead (anh : addressNonceHandler) : Op → Bool
  | .ApplyNonceAndGasPrice proxy tx =>
    match proxy.GetAccount with
    | .ok account =>
      !anh.computedNonceWasSet || (ApplyNonceAndGasPrice anh proxy tx).err.isSome ||
        (decide (account.Nonce ≤ anh.computedNonce + 1) &&
          decide (anh.computedNonce + 1 < uint64Size))
    | .error _ => true
  | _ => true

/-- The condition `callLedgerNotAhead` holds at every call of the run, each call being
judged in the state it is made in. -/
def ledgerNotAhead : addressNonceHandler → List Op → Bool
  | _, [] => true
  | anh, op :: ops => callLedgerNotAhead anh op && ledgerNotAhead (step anh op).1 ops

/-- The ledger answers the account read of the call with nonce `L`. -/
def ledgerReports (L : Nat) : Op → Bool
  | .ApplyNonceAndGasPrice proxy _ | .SendTransaction proxy _
  | .ReSendTransactionsIfRequired proxy =>
    match proxy.GetAccount with
    | .ok account => account.Nonce == L
    | .error _ => false
  | .DropTransactions => true

/-- Test fixture: three assignments; the ledger reports 10, then 20 twice. -/
def opsLedgerJumps : List Op :=
  [.ApplyNonceAndGasPrice (stubProxy 10 5) (draftTx 0 0),
   .ApplyNonceAndGasPrice (stubProxy 20 5) (draftTx 0 0),
   .ApplyNonceAndGasPrice (stubProxy 20 5) (draftTx 0 0)]

/-- Test fixture: five assignments with the ledger reporting 10 throughout, the first two
transactions being sent in between. -/
def opsFiveAtTen : List Op :=
  [.ApplyNonceAndGasPrice (stubProxy 10 5) (draftTx 0 0),
   .SendTransaction (stubProxy 10 5) (draftTx 10 5),
   .ApplyNonceAndGasPrice (stubProxy 10 5) (draftTx 0 0),
   .SendTransaction (stubProxy 10 5) (draftTx 11 5),
   .ApplyNonceAndGasPrice (stubProxy 10 5) (draftTx 3 0),
   .ApplyNonceAndGasPrice (stubProxy 10 5) (draftTx 3 0),
   .ApplyNonceAndGasPrice (stubProxy 10 5) (draftTx 3 0)]

/-- Test fixture: `n` assignments in a row with the ledger reporting `L` throughout. -/
def opsApplyOnly (L n : Nat) : List Op :=
  List.replicate n (.ApplyNonceAndGasPrice (stubProxy L 5) (draftTx 0 0))

/-- Test fixture: the handler after the ledger jumped ahead of the counter: nonce 10 was
assigned at ledger nonce 10, then nonce 20 at ledger nonce 20 (the counter moving to 11),
and the transaction with nonce 20 was sent. -/
def handlerLedgerAhead : addressNonceHandler :=
  (run freshHandler
    [.ApplyNonceAndGasPrice (stubProxy 10 5) (draftTx 0 0),
     .ApplyNonceAndGasPrice (stubProxy 20 5) (draftTx 0 0),
     .SendTransaction (stubProxy 20 5) (draftTx 20 5)]).1

/-- Condition on one call made in state `anh`: a successful `ApplyNonceAndGasPrice` on a
handler whose `computedNonceWasSet` is already true does not wrap the counter, that is
`computedNonce` is below `2 ^ 64 - 1` when it is incremented. -/
def callNoWrap (anh : addressNonceHandler) : Op → Bool
  | .ApplyNonceAndGasPrice proxy tx =>
    !anh.computedNonceWasSet || (ApplyNonceAndGasPrice anh proxy tx).err.isSome ||
      decide (anh.computedNonce + 1 < uint64Size)
  | _ => true

/-- The counter does not wrap during the run: `callNoWrap` holds at every call, each call
being judged in the state it is made in. -/
def noWrap : addressNonceHandler → List Op → Bool
  | _, [] => true
  | anh, op :: ops => callNoWrap anh op && noWrap (step anh op).1 ops

/-- Test fixture: a run that uses all four operations, with the ledger moving. -/
def opsMixed : List Op :=
  [.ApplyNonceAndGasPrice (stubProxy 10 5) (draftTx 0 0),
   .SendTransaction (stubProxy 10 5) (draftTx 10 5),
   .ApplyNonceAndGasPrice (stubProxy 10 5) (draftTx 0 0),
   .SendTransaction (stubProxy 10 5) (draftTx 11 5),
   .ReSendTransactionsIfRequired (stubProxy 10 5),
   .DropTransactions,
   .ApplyNonceAndGasPrice (stubProxy 11 5) (draftTx 0 0),
   .ApplyNonceAndGasPrice (stubProxy 30 5) (draftTx 0 0),
   .SendTransaction (stubProxy 30 5) (draftTx 30 5),
   .ReSendTransactionsIfRequired (stubProxy 20 5)]

/-- Test fixture: a handler whose gas price floor is 9 and which stores a transaction with
gas price 5 under nonce 3. -/
def handlerStoredBelowFloor : addressNonceHandler :=
  { freshHandler with gasPrice := 9, transactions := [(3, draftTx 3 5)] }

/-- Test fixture: the handler after one assignment for an account whose ledger nonce is
the largest `uint64`. -/
def handlerMaxNonce : addressNonceHandler :=
  (ApplyNonceAndGasPrice freshHandler (stubProxy 18446744073709551615 5) (draftTx 0 0)).anh

/-- Test fixture: a proxy whose requests all fail. -/
def failingProxy : Proxy :=
  { GetAccount := .error "context canceled",
    GetNetworkConfig := .error "context canceled",
    SendTransaction := fun _ => .error "context canceled",
    SendTransactions := fun _ => .error "context canceled" }

/-- The critical section of `getNonceUpdatingCurrent` (from `anh.mut.Lock()` to the
return), run with the account nonce that was read before the lock was taken.  It yields
the new state and the nonce returned to the caller. -/
def lockedNonceUpdate (anh : addressNonceHandler) (accountNonce : Nat) :
    addressNonceHandler × Nat :=
  if !anh.computedNonceWasSet then
    ({ anh with computedNonce := accountNonce, computedNonceWasSet := true }, accountNonce)
  else
    let anh1 := { anh with computedNonce := (anh.computedNonce + 1) % uint64Size }
    (anh1, MaxUint64 anh1.computedNonce accountNonce)

/-- Test fixture: a proxy whose account read reports `nonce` and whose network
configuration request fails. -/
def proxyWithoutConfig (nonce : Nat) : Proxy :=
  { GetAccount := .ok { Address := "drt1test", Nonce := nonce, Balance := "0" },
    GetNetworkConfig := .error "network config unavailable",
    SendTransaction := fun tx => .ok (toString tx.Nonce),
    SendTransactions := fun txs => .ok (txs.map fun tx => toString tx.Nonce) }

/-- The ledger answers the account read of the call with a nonce below `bound` (or with
an error). -/
def ledgerBelow (bound : Nat) : Op → Bool
  | .ApplyNonceAndGasPrice proxy _ | .SendTransaction proxy _
  | .ReSendTransactionsIfRequired proxy =>
    match proxy.GetAccount with
    | .ok account => decide (account.Nonce < bound)
    | .error _ => true
  | .DropTransactions => true

/-- Test fixture: an assignment and a sweep with the ledger at 5, a drop, and three
assignments with the ledger at `2 ^ 64 - 2`. -/
def opsWrapAfterDrop : List Op :=
  [.ApplyNonceAndGasPrice (stubProxy 5 5) (draftTx 0 0),
   .ReSendTransactionsIfRequired (stubProxy 5 5),
   .DropTransactions,
   .ApplyNonceAndGasPrice (stubProxy 18446744073709551614 5) (draftTx 0 0),
   .ApplyNonceAndGasPrice (stubProxy 18446744073709551614 5) (draftTx 0 0),
   .ApplyNonceAndGasPrice (stubProxy 18446744073709551614 5) (draftTx 0 0)]

/-- Test fixture: the handler after one assignment on a network whose minimum gas price is
the largest `uint64`. -/
def handlerMaxGasPrice : addressNonceHandler :=
  (ApplyNonceAndGasPrice freshHandler (stubProxy 10 18446744073709551615) (draftTx 0 0)).anh

/-! ## The handler with transactions behind pointers

`ApplyNonceAndGasPrice` and `SendTransaction` receive a `*FrontendTransaction` and the map
`transactions` holds such pointers, so the draft written by `ApplyNonceAndGasPrice` can be
a record the map holds.  In this part a pointer is a number, a memory gives the
transaction behind each pointer, and the map goes from nonces to pointers.  The
definitions above are the case in which the draft is not a stored record (`view` and the
theorems on it below). -/

namespace Pointers

/-- The transaction behind each `*FrontendTransaction`. -/
def Memory : Type := Nat → FrontendTransaction

/-- Assignment through the pointer `p`. -/
def write (mem : Memory) (p : Nat) (tx : FrontendTransaction) : Memory :=
  fun q => if q = p then tx else mem q

/-- State of `addressNonceHandler`; `transactions` maps a nonce to a pointer. -/
structure addressNonceHandler where
  address : AddressHandler
  computedNonceWasSet : Bool
  computedNonce : Nat
  lowestNonce : Nat
  gasPrice : Nat
  nonceUntilGasIncreased : Nat
  transactions : List (Nat × Nat)

/-- The handler with each stored pointer replaced by the transaction behind it. -/
def view (anh : addressNonceHandler) (mem : Memory) : NonceHandlerV2.addressNonceHandler :=
  { address := anh.address, computedNonceWasSet := anh.computedNonceWasSet,
    computedNonce := anh.computedNonce, lowestNonce := anh.lowestNonce,
    gasPrice := anh.gasPrice, nonceUntilGasIncreased := anh.nonceUntilGasIncreased,
    transactions := anh.transactions.map (fun entry => (entry.1, mem entry.2)) }

/-- Method `getOlderTxWithSameNonce`; the result is the stored pointer. -/
def getOlderTxWithSameNonce (anh : addressNonceHandler) (mem : Memory) (tx : Nat) :
    Option Nat :=
  anh.transactions.lookup (mem tx).Nonce

/-- Method `handleTxWithSameNonce`; `none` is the Go `nil` error. -/
def handleTxWithSameNonce (anh : addressNonceHandler) (mem : Memory) (oldTx tx : Nat) :
    Option Error :=
  if (mem oldTx).GasPrice < (mem tx).GasPrice then none
  else if (mem oldTx).GasPrice == (mem tx).GasPrice &&
      decide ((mem oldTx).GasPrice < anh.gasPrice) then none
  else some .ErrTxWithSameNonceAndGasPriceAlreadySent

/-- Outcome of `fetchGasPriceIfRequired`. -/
structure FetchResult where
  anh : addressNonceHandler
  calls : List ProxyCall

/-- Method `fetchGasPriceIfRequired`. -/
def fetchGasPriceIfRequired (anh : addressNonceHandler) (proxy : Proxy) (nonce : Nat) :
    FetchResult :=
  if nonce == (anh.nonceUntilGasIncreased + 1) % uint64Size || anh.gasPrice == 0 then
    match proxy.GetNetworkConfig with
    | .error _ => { anh := { anh with gasPrice := 0 }, calls := [.GetNetworkConfig] }
    | .ok networkConfig =>
      { anh := { anh with gasPrice := networkConfig.MinGasPrice }, calls := [.GetNetworkConfig] }
  else { anh := anh, calls := [] }

/-- Outcome of `getNonceUpdatingCurrent`: new state, returned nonce, returned error. -/
structure NonceResult where
  anh : addressNonceHandler
  nonce : Nat
  err : Option Error

/-- Method `getNonceUpdatingCurrent`. -/
def getNonceUpdatingCurrent (anh : addressNonceHandler) (proxy : Proxy) : NonceResult :=
  match proxy.GetAccount with
  | .error e => { anh := anh, nonce := 0, err := some (.external e) }
  | .ok account =>
    if anh.lowestNonce > account.Nonce then
      { anh := anh, nonce := account.Nonce, err := some .ErrGapNonce }
    else if !anh.computedNonceWasSet then
      { anh := { anh with computedNonce := account.Nonce, computedNonceWasSet := true },
        nonce := account.Nonce, err := none }
    else
      let anh1 := { anh with computedNonce := (anh.computedNonce + 1) % uint64Size }
      { anh := anh1, nonce := MaxUint64 anh1.computedNonce account.Nonce, err := none }

/-- Outcome of `ApplyNonceAndGasPrice`: new state, the memory after the call, the returned
error and the proxy requests made. -/
structure ApplyResult where
  anh : addressNonceHandler
  mem : Memory
  err : Option Error
  calls : List ProxyCall

/-- Method `ApplyNonceAndGasPrice`; `tx` is the pointer it receives. -/
def ApplyNonceAndGasPrice (anh : addressNonceHandler) (mem : Memory) (proxy : Proxy)
    (tx : Nat) : ApplyResult :=
  let sameNonceErr : Option Error :=
    match getOlderTxWithSameNonce anh mem tx with
    | some oldTx => handleTxWithSameNonce anh mem oldTx tx
    | none => none
  match sameNonceErr with
  | some err => { anh := anh, mem := mem, err := some err, calls := [] }
  | none =>
    let r := getNonceUpdatingCurrent anh proxy
    let mem1 := write mem tx { mem tx with Nonce := r.nonce }
    match r.err with
    | some err => { anh := r.anh, mem := mem1, err := some err, calls := [.GetAccount] }
    | none =>
      let f := fetchGasPriceIfRequired r.anh proxy r.nonce
      { anh := f.anh,
        mem := write mem1 tx
          { mem1 tx with GasPrice := MaxUint64 f.anh.gasPrice (mem1 tx).GasPrice },
        err := none,
        calls := .GetAccount :: f.calls }

/-- Outcome of `SendTransaction`. -/
structure SendResult where
  anh : addressNonceHandler
  hash : String
  err : Option Error
  calls : List ProxyCall

/-- Method `SendTransaction`; the map stores the pointer `tx` it receives. -/
def SendTransaction (anh : addressNonceHandler) (mem : Memory) (proxy : Proxy) (tx : Nat) :
    SendResult :=
  let anh1 :=
    { anh with
        transactions :=
          ((mem tx).Nonce, tx) :: anh.transactions.filter (fun p => p.1 != (mem tx).Nonce) }
  match proxy.SendTransaction (mem tx) with
  | .error e =>
    { anh := anh1, hash := "", err := some (.external e), calls := [.SendTransaction (mem tx)] }
  | .ok h => { anh := anh1, hash := h, err := none, calls := [.SendTransaction (mem tx)] }

/-- Loop variables of the sweep in `ReSendTransactionsIfRequired`. -/
structure SweepState where
  transactions : List (Nat × Nat)
  minNonce : Nat
  resendableTxs : List Nat

/-- One iteration of `for txNonce, tx := range anh.transactions`. -/
def sweepStep (accountNonce : Nat) (st : SweepState) (entry : Nat × Nat) : SweepState :=
  if entry.1 ≤ accountNonce then
    { st with transactions := st.transactions.filter (fun p => p.1 != entry.1) }
  else
    { st with minNonce := MinUint64 entry.1 st.minNonce,
              resendableTxs := st.resendableTxs ++ [entry.2] }

/-- Outcome of `ReSendTransactionsIfRequired`. -/
structure ReSendResult where
  anh : addressNonceHandler
  err : Option Error
  calls : List ProxyCall

/-- Method `ReSendTransactionsIfRequired`; it writes through no pointer. -/
def ReSendTransactionsIfRequired (anh : addressNonceHandler) (mem : Memory) (proxy : Proxy) :
    ReSendResult :=
  match proxy.GetAccount with
  | .error e => { anh := anh, err := some (.external e), calls := [.GetAccount] }
  | .ok account =>
    if account.Nonce == anh.computedNonce then
      { anh := { anh with lowestNonce := anh.computedNonce, transactions := [] },
        err := none, calls := [.GetAccount] }
    else
      let st := anh.transactions.foldl (sweepStep account.Nonce)
        { transactions := anh.transactions, minNonce := anh.computedNonce, resendableTxs := [] }
      let anh1 := { anh with transactions := st.transactions, lowestNonce := st.minNonce }
      if st.resendableTxs.length == 0 then
        { anh := anh1, err := none, calls := [.GetAccount] }
      else
        let sent := st.resendableTxs.map mem
        let calls := [ProxyCall.GetAccount, ProxyCall.SendTransactions sent]
        match proxy.SendTransactions sent with
        | .error e => { anh := anh1, err := some (.external e), calls := calls }
        | .ok _ =>
          match anh.address.AddressAsBech32String with
          | .error e => { anh := anh1, err := some (.external e), calls := calls }
          | .ok _ => { anh := anh1, err := none, calls := calls }

/-- Method `DropTransactions`. -/
def DropTransactions (anh : addressNonceHandler) : addressNonceHandler :=
  { anh with transactions := [],
             computedNonceWasSet := false,
             gasPrice := (anh.gasPrice + 1) % uint64Size,
             nonceUntilGasIncreased := anh.computedNonce }

/-- Test fixture: the handler `NewAddressNonceHandler` builds. -/
def freshHandler : addressNonceHandler :=
  { address := { AddressAsBech32String := .ok "drt1test" }, computedNonceWasSet := false,
    computedNonce := 0, lowestNonce := 0, gasPrice := 0, nonceUntilGasIncreased := 0,
    transactions := [] }

/-- Test fixture: a memory in which every pointer holds a draft with nonce 0 and gas
price 0. -/
def draftMemory : Memory := fun _ => draftTx 0 0

/-- Test fixture: the handler of `storedDraftRun` at its end: the counter stands at 11,
`lowestNonce` is 10, the floor is 5 and the map holds pointer 1 under nonce 10. -/
def handlerStoringDraft : addressNonceHandler :=
  { freshHandler with
      computedNonceWasSet := true, computedNonce := 11, lowestNonce := 10, gasPrice := 5,
      transactions := [(10, 1)] }

/-- Test fixture: the memory of `storedDraftRun` at its end: pointer 1 holds the sent
transaction with nonce 10 and gas price 0, pointer 2 the one with nonce 11 and gas price
5. -/
def memoryStoringDraft : Memory :=
  write (write draftMemory 1 (draftTx 10 0)) 2 (draftTx 11 5)

/-- Test fixture: four calls on a fresh handler.  The draft behind pointer 1 gets nonce 10
while the network configuration cannot be fetched (floor 0) and is sent; the draft behind
pointer 2 gets nonce 11 and the floor becomes 5; then the ledger is seen at 9 by
`ReSendTransactionsIfRequired`. -/
def storedDraftRun : addressNonceHandler × Memory :=
  let a1 := ApplyNonceAndGasPrice freshHandler draftMemory (proxyWithoutConfig 10) 1
  let s1 := SendTransaction a1.anh a1.mem (stubProxy 10 5) 1
  let a2 := ApplyNonceAndGasPrice s1.anh a1.mem (stubProxy 10 5) 2
  let r := ReSendTransactionsIfRequired a2.anh a2.mem (stubProxy 9 5)
  (r.anh, a2.mem)

end Pointers
end NonceHandlerV2

/-! # Version 1 of the address nonce handler

Shallow embedding of `interactors/nonceHandlerV1/addressNonceHandler.go`, with the
conventions used for version 2. -/

namespace NonceHandlerV1

open NonceHandlerV2 (FrontendTransaction Account Proxy Error AddressHandler MaxUint64 uint64Size
  stubProxy draftTx)

/-- State of the version 1 `addressNonceHandler` (mutex and proxy reference left out). -/
structure addressNonceHandler where
  address : AddressHandler
  computedNonceWasSet : Bool
  computedNonce : Nat
  transactions : List (Nat × FrontendTransaction)

/-- Constructor `newAddressNonceHandler`. -/
def newAddressNonceHandler (address : AddressHandler) : addressNonceHandler :=
  { address := address, computedNonceWasSet := false, computedNonce := 0, transactions := [] }

/-- Outcome of `getNonceUpdatingCurrent`: new state, returned nonce, returned error. -/
structure NonceResult where
  anh : addressNonceHandler
  nonce : Nat
  err : Option Error

/-- Method `getNonceUpdatingCurrent` of version 1. -/
def getNonceUpdatingCurrent (anh : addressNonceHandler) (proxy : Proxy) : NonceResult :=
  match proxy.GetAccount with
  | .error e => { anh := anh, nonce := 0, err := some (.external e) }
  | .ok account =>
    if !anh.computedNonceWasSet then
      { anh := { anh with computedNonce := account.Nonce, computedNonceWasSet := true },
        nonce := account.Nonce, err := none }
    else
      let anh1 := { anh with computedNonce := (anh.computedNonce + 1) % uint64Size }
      { anh := anh1, nonce := MaxUint64 anh1.computedNonce account.Nonce, err := none }

/-- Method `markReFetchNonce`. -/
def markReFetchNonce (anh : addressNonceHandler) : addressNonceHandler :=
  { anh with computedNonceWasSet := false }

/-- Method `decrementComputedNonce`. -/
def decrementComputedNonce (anh : addressNonceHandler) : addressNonceHandler :=
  if anh.computedNonce > 0 then { anh with computedNonce := anh.computedNonce - 1 } else anh

/-- Test fixture: a version 1 handler whose counter stands at 40 and which stores one
transaction. -/
def handlerAt40 : addressNonceHandler :=
  { address := { AddressAsBech32String := .ok "drt1test" }, computedNonceWasSet := true,
    computedNonce := 40, transactions := [(40, draftTx 40 5)] }

/-- Test fixture: a fresh version 1 handler. -/
def freshHandlerV1 : addressNonceHandler :=
  newAddressNonceHandler { AddressAsBech32String := .ok "drt1test" }

end NonceHandlerV1

/-! # Endpoint providers

Shallow embedding of `blockchain/endpointProviders/proxyEndpointProvider.go` and
`nodeEndpointProvider.go`.  Shard identifiers, nonces and epochs are unsigned integers,
modelled as natural numbers. -/

namespace EndpointProviders

/-- An argument handed to `fmt.Sprintf`. -/
inductive Arg where
  | uint (n : Nat)
  | str (s : String)

/-- Go's `fmt.Sprintf` on the characters of the format, for the two verbs the package
uses: `%d` prints an unsigned integer in decimal, `%s` prints a string as it is. -/
def sprintfChars : List Char → List Arg → List Char
  | [], _ => []
  | '%' :: 'd' :: rest, .uint n :: args => (toString n).toList ++ sprintfChars rest args
  | '%' :: 's' :: rest, .str s :: args => s.toList ++ sprintfChars rest args
  | c :: rest, args => c :: sprintfChars rest args

/-- Go's `fmt.Sprintf`. -/
def Sprintf (format : String) (args : List Arg) : String :=
  String.mk (sprintfChars format.toList args)

/-- Constant `proxyGetNodeStatus`. -/
def proxyGetNodeStatus : String := "network/status/%d"

/-- Constant `proxyRawBlockByHash`. -/
def proxyRawBlockByHash : String := "internal/%d/raw/block/by-hash/%s"

/-- Constant `proxyRawBlockByNonce`. -/
def proxyRawBlockByNonce : String := "internal/%d/raw/block/by-nonce/%d"

/-- Constant `proxyRawMiniBlockByHash`. -/
def proxyRawMiniBlockByHash : String := "internal/%d/raw/miniblock/by-hash/%s/epoch/%d"

/-- Constant `proxyBlockByNonce`. -/
def proxyBlockByNonce : String := "block/%d/by-nonce/%d"

/-- Constant `proxyBlockByHash`. -/
def proxyBlockByHash : String := "block/%d/by-hash/%s"

/-- Constant `nodeGetNodeStatusEndpoint`. -/
def nodeGetNodeStatusEndpoint : String := "node/status"

/-- Constant `nodeRawBlockByHashEndpoint`. -/
def nodeRawBlockByHashEndpoint : String := "internal/raw/block/by-hash/%s"

/-- Constant `nodeRawBlockByNonceEndpoint`. -/
def nodeRawBlockByNonceEndpoint : String := "internal/raw/block/by-nonce/%d"

/-- Constant `nodeRawMiniBlockByHashEndpoint`. -/
def nodeRawMiniBlockByHashEndpoint : String := "internal/raw/miniblock/by-hash/%s/epoch/%d"

/-- Constant `nodeBlockByNonceEndpoint`. -/
def nodeBlockByNonceEndpoint : String := "block/by-nonce/%d"

/-- Constant `nodeGetBlockByHashEndpoint`. -/
def nodeGetBlockByHashEndpoint : String := "block/by-hash/%s"

/-- Method `GetNodeStatus` of `proxyEndpointProvider`. -/
def proxyEndpointProvider.GetNodeStatus (shardID : Nat) : String :=
  Sprintf proxyGetNodeStatus [.uint shardID]

/-- Method `GetRawBlockByHash` of `proxyEndpointProvider`. -/
def proxyEndpointProvider.GetRawBlockByHash (shardID : Nat) (hexHash : String) : String :=
  Sprintf proxyRawBlockByHash [.uint shardID, .str hexHash]

/-- Method `GetRawBlockByNonce` of `proxyEndpointProvider`. -/
def proxyEndpointProvider.GetRawBlockByNonce (shardID nonce : Nat) : String :=
  Sprintf proxyRawBlockByNonce [.uint shardID, .uint nonce]

/-- Method `GetRawMiniBlockByHash` of `proxyEndpointProvider`. -/
def proxyEndpointProvider.GetRawMiniBlockByHash (shardID : Nat) (hexHash : String)
    (epoch : Nat) : String :=
  Sprintf proxyRawMiniBlockByHash [.uint shardID, .str hexHash, .uint epoch]

/-- Method `GetBlockByNonce` of `proxyEndpointProvider`. -/
def proxyEndpointProvider.GetBlockByNonce (shardID nonce : Nat) : String :=
  Sprintf proxyBlockByNonce [.uint shardID, .uint nonce]

/-- Method `GetBlockByHash` of `proxyEndpointProvider`. -/
def proxyEndpointProvider.GetBlockByHash (shardID : Nat) (hash : String) : String :=
  Sprintf proxyBlockByHash [.uint shardID, .str hash]

/-- Method `GetNodeStatus` of `nodeEndpointProvider`; the shard is ignored. -/
def nodeEndpointProvider.GetNodeStatus (_ : Nat) : String :=
  nodeGetNodeStatusEndpoint

/-- Method `GetRawBlockByHash` of `nodeEndpointProvider`. -/
def nodeEndpointProvider.GetRawBlockByHash (_ : Nat) (hexHash : String) : String :=
  Sprintf nodeRawBlockByHashEndpoint [.str hexHash]

/-- Method `GetRawBlockByNonce` of `nodeEndpointProvider`. -/
def nodeEndpointProvider.GetRawBlockByNonce (_ : Nat) (nonce : Nat) : String :=
  Sprintf nodeRawBlockByNonceEndpoint [.uint nonce]

/-- Method `GetRawMiniBlockByHash` of `nodeEndpointProvider`. -/
def nodeEndpointProvider.GetRawMiniBlockByHash (_ : Nat) (hexHash : String) (epoch : Nat) :
    String :=
  Sprintf nodeRawMiniBlockByHashEndpoint [.str hexHash, .uint epoch]

/-- Method `GetBlockByNonce` of `nodeEndpointProvider`. -/
def nodeEndpointProvider.GetBlockByNonce (_ : Nat) (nonce : Nat) : String :=
  Sprintf nodeBlockByNonceEndpoint [.uint nonce]

/-- Method `GetBlockByHash` of `nodeEndpointProvider`. -/
def nodeEndpointProvider.GetBlockByHash (_ : Nat) (hash : String) : String :=
  Sprintf nodeGetBlockByHashEndpoint [.str hash]

end EndpointProviders

/-! # Move-balance workflow

Shallow embedding of `workflows/moveBalanceHandler.go`.  `big.Int` values are integers.
The address parser, the proxy, the decimal parser `big.Int.SetString`, the key provider and
the transaction interactor are collaborators whose answers are inputs. -/

namespace Workflows

open NonceHandlerV2 (FrontendTransaction NetworkConfig uint64Size)

/-- Errors returned by `generateTransaction`: the package's own, and those of the
collaborators. -/
inductive Error where
  | ErrInvalidAvailableBalanceValue
  | nilCachedConfigs
  | external (msg : String)
  deriving DecidableEq, Repr

/-- Go conversion `int64(x)` of a `uint64` value: values from `2 ^ 63` on come out
negative. -/
def toInt64 (x : Nat) : Int :=
  if x % uint64Size < 2 ^ 63 then ((x % uint64Size : Nat) : Int)
  else ((x % uint64Size : Nat) : Int) - 2 ^ 64

/-- The fields of `moveBalanceHandler` that `generateTransaction` reads. -/
structure moveBalanceHandler where
  cachedNetConfigs : Option NetworkConfig
  receiverAddress : String
  minimumBalance : Int

/-- Answers of the collaborators of `generateTransaction`. -/
structure Collaborators where
  NewAddressFromBech32String : String → Except String Unit
  GetDefaultTransactionArguments :
    String → NetworkConfig → Except String (FrontendTransaction × String)
  SetString : String → Option Int
  PrivateKeyOfBech32Address : String → List Nat
  NewCryptoComponentsHolder : List Nat → Except String Unit
  ApplyUserSignature : FrontendTransaction → Except String FrontendTransaction

/-- Method `computeTxFee`. -/
def computeTxFee (networkConfigs : NetworkConfig) (tx : FrontendTransaction) : Int :=
  let gasLimit :=
    (networkConfigs.MinGasLimit +
      (tx.Data.length * networkConfigs.GasPerDataByte) % uint64Size) % uint64Size
  toInt64 tx.GasPrice * toInt64 gasLimit

/-- Outcome of `generateTransaction`: the returned error and the transactions handed to
`AddTransaction`. -/
structure GenerateResult where
  err : Option Error
  added : List FrontendTransaction

/-- Method `generateTransaction`. -/
def generateTransaction (mbh : moveBalanceHandler) (env : Collaborators) (address : String) :
    GenerateResult :=
  match env.NewAddressFromBech32String address with
  | .error e => { err := some (.external e), added := [] }
  | .ok _ =>
    match mbh.cachedNetConfigs with
    | none => { err := some .nilCachedConfigs, added := [] }
    | some networkConfigs =>
      match env.GetDefaultTransactionArguments address networkConfigs with
      | .error e => { err := some (.external e), added := [] }
      | .ok (tx, availableBalanceString) =>
        match env.SetString availableBalanceString with
        | none => { err := some .ErrInvalidAvailableBalanceValue, added := [] }
        | some availableBalance =>
          if availableBalance < mbh.minimumBalance then { err := none, added := [] }
          else
            let tx1 := { tx with Data := [], Receiver := mbh.receiverAddress }
            let value := availableBalance - computeTxFee networkConfigs tx1
            let tx2 := { tx1 with Value := toString value }
            match env.NewCryptoComponentsHolder (env.PrivateKeyOfBech32Address address) with
            | .error e => { err := some (.external e), added := [] }
            | .ok _ =>
              match env.ApplyUserSignature tx2 with
              | .error e => { err := some (.external e), added := [] }
              | .ok signedTx => { err := none, added := [signedTx] }

/-- Test fixture: a network configuration with minimum gas limit 50000. -/
def testConfig : NetworkConfig :=
  { ChainID := "T", GasPerDataByte := 1500, MinGasLimit := 50000, MinGasPrice := 1000000000,
    MinTransactionVersion := 1 }

/-- Test fixture: the default transaction the proxy proposes, with the given gas price. -/
def defaultTx (gasPrice : Nat) : FrontendTransaction :=
  { Nonce := 7, Value := "", Receiver := "", Sender := "drt1tracked", GasPrice := gasPrice,
    GasLimit := 50000, Data := [1, 2, 3], Signature := "", ChainID := "T", Version := 1,
    Options := 0 }

/-- Test fixture: collaborators that all succeed; the proxy proposes `defaultTx gasPrice`
and reports the available balance `balance` in decimal; signing fills in the signature. -/
def testEnv (gasPrice : Nat) (balance : Int) : Collaborators :=
  { NewAddressFromBech32String := fun _ => .ok (),
    GetDefaultTransactionArguments := fun _ _ => .ok (defaultTx gasPrice, toString balance),
    SetString := fun s => if s = toString balance then some balance else none,
    PrivateKeyOfBech32Address := fun _ => [1],
    NewCryptoComponentsHolder := fun _ => .ok (),
    ApplyUserSignature := fun tx => .ok { tx with Signature := "sig" } }

/-- Test fixture: a handler with the configuration cached and the given threshold. -/
def testHandler (minimumBalance : Int) : moveBalanceHandler :=
  { cachedNetConfigs := some testConfig, receiverAddress := "drt1hot",
    minimumBalance := minimumBalance }

end Workflows

/-! # Price notifee

Shallow embedding of `aggregator/notifees/drtNotifee.go`.  The data builder, the proxy, the
nonce handler and the transaction builder are collaborators; the nonce handler and the
transaction builder receive a pointer to the transaction, so they are modelled as
functions that return the transaction as they left it. -/

namespace Notifees

open NonceHandlerV2 (FrontendTransaction NetworkConfig uint64Size AddressHandler)

/-- Constant `zeroString`. -/
def zeroString : String := "0"

/-- Constant `txVersion`. -/
def txVersion : Nat := 1

/-- Type `aggregator.ArgsPriceChanged`. -/
structure ArgsPriceChanged where
  Base : String
  Quote : String
  DenominatedPrice : Nat
  Decimals : Nat
  Timestamp : Int
  deriving DecidableEq, Repr

/-- The fields of `drtNotifee` that `PriceChanged` reads itself. -/
structure drtNotifee where
  contractAddress : AddressHandler
  baseGasLimit : Nat
  gasLimitForEach : Nat

/-- Answers of the collaborators of `PriceChanged`; `prepareTxData` stands for the data
builder of package `builders`. -/
structure Collaborators where
  prepareTxData : List ArgsPriceChanged → Except String (List Nat)
  GetNetworkConfig : Except String NetworkConfig
  ApplyNonceAndGasPrice : FrontendTransaction → FrontendTransaction × Option String
  ApplyUserSignature : FrontendTransaction → FrontendTransaction × Option String
  SendTransaction : FrontendTransaction → Except String String

/-- Requests made by `PriceChanged` to its collaborators, with the transaction as it
was when handed over. -/
inductive Call where
  | GetNetworkConfig
  | ApplyNonceAndGasPrice (tx : FrontendTransaction)
  | ApplyUserSignature (tx : FrontendTransaction)
  | SendTransaction (tx : FrontendTransaction)
  deriving DecidableEq, Repr

/-- Outcome of `PriceChanged`. -/
structure PriceChangedResult where
  err : Option String
  calls : List Call

/-- Method `PriceChanged`. -/
def PriceChanged (en : drtNotifee) (env : Collaborators) (priceChanges : List ArgsPriceChanged) :
    PriceChangedResult :=
  match env.prepareTxData priceChanges with
  | .error e => { err := some e, calls := [] }
  | .ok txData =>
    match env.GetNetworkConfig with
    | .error e => { err := some e, calls := [.GetNetworkConfig] }
    | .ok networkConfigs =>
      match en.contractAddress.AddressAsBech32String with
      | .error e => { err := some e, calls := [.GetNetworkConfig] }
      | .ok receiverAddressAsBech32 =>
        let gasLimit :=
          (en.baseGasLimit + (priceChanges.length * en.gasLimitForEach) % uint64Size) %
            uint64Size
        let tx : FrontendTransaction :=
          { Nonce := 0, Value := zeroString, Receiver := receiverAddressAsBech32, Sender := "",
            GasPrice := networkConfigs.MinGasPrice, GasLimit := gasLimit, Data := txData,
            Signature := "", ChainID := networkConfigs.ChainID, Version := txVersion,
            Options := 0 }
        let afterNonce := env.ApplyNonceAndGasPrice tx
        match afterNonce.2 with
        | some e => { err := some e, calls := [.GetNetworkConfig, .ApplyNonceAndGasPrice tx] }
        | none =>
          let afterSign := env.ApplyUserSignature afterNonce.1
          match afterSign.2 with
          | some e =>
            { err := some e,
              calls := [.GetNetworkConfig, .ApplyNonceAndGasPrice tx,
                        .ApplyUserSignature afterNonce.1] }
          | none =>
            let calls := [Call.GetNetworkConfig, .ApplyNonceAndGasPrice tx,
                          .ApplyUserSignature afterNonce.1, .SendTransaction afterSign.1]
            match env.SendTransaction afterSign.1 with
            | .error e => { err := some e, calls := calls }
            | .ok _ => { err := none, calls := calls }

/-- Test fixture: two price changes. -/
def twoPriceChanges : List ArgsPriceChanged :=
  [{ Base := "USD", Quote := "ETH", DenominatedPrice := 380000, Decimals := 2, Timestamp := 200 },
   { Base := "USD", Quote := "BTC", DenominatedPrice := 47000000000, Decimals := 6,
     Timestamp := 300 }]

/-- Test fixture: the notifee of the package's tests (base gas limit 2000, 30 per price
change). -/
def testNotifee : drtNotifee :=
  { contractAddress := { AddressAsBech32String := .ok "drt1contract" }, baseGasLimit := 2000,
    gasLimitForEach := 30 }

/-- Test fixture: collaborators that all succeed; the nonce handler sets nonce 43 and the
transaction builder sets the sender and the signature. -/
def testCollaborators : Collaborators :=
  { prepareTxData := fun _ => .ok [115, 117, 98],
    GetNetworkConfig := .ok { ChainID := "test", GasPerDataByte := 1500, MinGasLimit := 50000,
                              MinGasPrice := 10, MinTransactionVersion := 1 },
    ApplyNonceAndGasPrice := fun tx => ({ tx with Nonce := 43 }, none),
    ApplyUserSignature := fun tx => ({ tx with Sender := "drt1sender", Signature := "sig" }, none),
    SendTransaction := fun _ => .ok "hash" }

/-- Test fixture: the text of an error of the nonce handler. -/
def errorText : NonceHandlerV2.Error → String
  | .ErrNilProxy => "nil proxy"
  | .ErrNilAddress => "nil address"
  | .ErrTxWithSameNonceAndGasPriceAlreadySent => "transaction already sent"
  | .ErrGapNonce => "nonce gap"
  | .external msg => msg

/-- Test fixture: a version 2 nonce handler whose floor stood at the network's minimum gas
price 10 and was raised to 11 by `DropTransactions`. -/
def raisedFloorHandler : NonceHandlerV2.addressNonceHandler :=
  NonceHandlerV2.DropTransactions
    { NonceHandlerV2.freshHandler with
        computedNonceWasSet := true, computedNonce := 42, gasPrice := 10 }

/-- Test fixture: the collaborators of `testCollaborators` with the version 2 nonce handler
`raisedFloorHandler` as nonce handler, the ledger reporting nonce 50 and minimum gas
price 10. -/
def handlerCollaborators : Collaborators :=
  { testCollaborators with
      ApplyNonceAndGasPrice := fun tx =>
        ((NonceHandlerV2.ApplyNonceAndGasPrice raisedFloorHandler
            (NonceHandlerV2.stubProxy 50 10) tx).tx,
         (NonceHandlerV2.ApplyNonceAndGasPrice raisedFloorHandler
            (NonceHandlerV2.stubProxy 50 10) tx).err.map errorText) }

/-- Test fixture: a notifee whose base gas limit is the largest `uint64`. -/
def maxBaseNotifee : drtNotifee :=
  { contractAddress := { AddressAsBech32String := .ok "drt1contract" },
    baseGasLimit := 18446744073709551615, gasLimitForEach := 30 }

end Notifees


/-! # Native authentication client

Shallow embedding of `authentication/native/client.go`.  The clock is an explicit input:
an instant is an integer number of nanoseconds counted from the zero value of `time.Time`,
so that `IsZero` is equality with 0, `After` is the strict order and `Add` is addition; a
`time.Duration` is a number of nanoseconds.  The proxy, the token handler and the signer
are collaborators whose answers are inputs. -/

namespace NativeAuth

/-- Constant `time.Second` as a `time.Duration`. -/
def Second : Int := 1000000000

/-- Type `AuthToken`, with the fields `createNewToken` fills. -/
structure AuthToken where
  ttl : Int
  host : String
  extraInfo : String
  blockHash : String
  address : String
  signature : List Nat
  deriving DecidableEq, Repr

/-- State of `authClient` (the collaborators are passed to the methods). -/
structure authClient where
  extraInfo : String
  tokenExpiryInSeconds : Int
  host : String
  token : String
  tokenExpire : Int
  deriving DecidableEq, Repr

/-- Answers of the collaborators of the client: the proxy, the crypto components holder,
the token handler and the signer.  `Encode` returns a string together with its error. -/
structure Collaborators where
  GetLatestHyperBlockNonce : Except String Nat
  GetHyperBlockByNonce : Nat → Except String String
  GetBech32 : String
  GetUnsignedToken : AuthToken → List Nat
  GetSignableMessage : String → List Nat → List Nat
  SignMessage : List Nat → Except String (List Nat)
  Encode : AuthToken → String × Option String

/-- Requests made to the proxy and to the signer. -/
inductive Call where
  | GetLatestHyperBlockNonce
  | GetHyperBlockByNonce (nonce : Nat)
  | SignMessage (msg : List Nat)
  deriving DecidableEq, Repr

/-- Outcome of `createNewToken`. -/
structure CreateResult where
  nac : authClient
  err : Option String
  calls : List Call

/-- Method `createNewToken`; `clock` is what `getTimeHandler` returns when the expiry
instant is computed. -/
def createNewToken (nac : authClient) (env : Collaborators) (clock : Int) : CreateResult :=
  match env.GetLatestHyperBlockNonce with
  | .error e => { nac := nac, err := some e, calls := [.GetLatestHyperBlockNonce] }
  | .ok nonce =>
    match env.GetHyperBlockByNonce nonce with
    | .error e =>
      { nac := nac, err := some e,
        calls := [.GetLatestHyperBlockNonce, .GetHyperBlockByNonce nonce] }
    | .ok lastHyperblockHash =>
      let token : AuthToken :=
        { ttl := nac.tokenExpiryInSeconds, host := nac.host, extraInfo := nac.extraInfo,
          blockHash := lastHyperblockHash, address := env.GetBech32, signature := [] }
      let unsignedToken := env.GetUnsignedToken token
      let signableMessage := env.GetSignableMessage token.address unsignedToken
      let calls := [Call.GetLatestHyperBlockNonce, .GetHyperBlockByNonce nonce,
                    .SignMessage signableMessage]
      match env.SignMessage signableMessage with
      | .error e => { nac := nac, err := some e, calls := calls }
      | .ok signature =>
        let encoded := env.Encode { token with signature := signature }
        let nac1 := { nac with token := encoded.1 }
        match encoded.2 with
        | some e => { nac := nac1, err := some e, calls := calls }
        | none =>
          { nac := { nac1 with tokenExpire := clock + nac.tokenExpiryInSeconds },
            err := none, calls := calls }

/-- Outcome of `GetAccessToken`. -/
structure AccessResult where
  nac : authClient
  token : String
  err : Option String
  calls : List Call

/-- Method `GetAccessToken`; `now` is the first reading of the clock and `clock` the one
made by `createNewToken`. -/
def GetAccessToken (nac : authClient) (env : Collaborators) (now clock : Int) : AccessResult :=
  let noToken := decide (nac.tokenExpire = 0)
  let tokenExpired := decide (now > nac.tokenExpire)
  if noToken || tokenExpired then
    let created := createNewToken nac env clock
    match created.err with
    | some e => { nac := created.nac, token := "", err := some e, calls := created.calls }
    | none =>
      { nac := created.nac, token := created.nac.token, err := none, calls := created.calls }
  else { nac := nac, token := nac.token, err := none, calls := [] }

/-- Test fixture: a client as `NewNativeAuthClient` returns it, with
`TokenExpiryInSeconds` 3600. -/
def hourClient : authClient :=
  { extraInfo := "\x7b\x7d", tokenExpiryInSeconds := 3600, host := "test.host", token := "",
    tokenExpire := 0 }

/-- Test fixture: collaborators that all succeed while the latest hyperblock has the
given nonce; the encoded token shows the block hash. -/
def envAtBlock (nonce : Nat) : Collaborators :=
  { GetLatestHyperBlockNonce := .ok nonce,
    GetHyperBlockByNonce := fun n => .ok ("hash" ++ toString n),
    GetBech32 := "drt1user",
    GetUnsignedToken := fun _ => [1, 2, 3],
    GetSignableMessage := fun _ unsignedToken => unsignedToken,
    SignMessage := fun msg => .ok msg,
    Encode := fun token => (token.address ++ "." ++ token.blockHash, none) }

/-- Test fixture: an instant, 1700000000 seconds after the zero instant. -/
def creationInstant : Int := 1700000000 * Second

end NativeAuth

/-! # Price fetcher of the exchange

Shallow embedding of `aggregator/fetchers/dharitrix.go`.  A finite `float64` is a rational
number and `json.Unmarshal` yields no other, so a price is a rational.  The helper
`hasPair` of the embedded `baseFetcher`, the GraphQL getter and the JSON encoder and
decoder are inputs.  Indexing a slice outside its length stops the Go program with a
run-time error; the outcome type has a value of its own for that. -/

namespace Fetchers

/-- Errors that `FetchPrice` returns; `external` carries an error of a collaborator. -/
inductive Error where
  | ErrPairNotSupported
  | errInvalidPair
  | errInvalidGraphqlResponse
  | errInvalidResponseData
  | external (msg : String)
  deriving DecidableEq, Repr

/-- Constant `dataApiUrl`. -/
def dataApiUrl : String := "https://tools.dharitri.org/data-api/graphql"

/-- Constant `query`. -/
def query : String :=
  "query DurianPriceUrl($base: String!, $quote: String!) \x7b trading \x7b pair(first_token: $base, second_token: $quote) \x7b price \x7b last time \x7d \x7d \x7d \x7d"

/-- Type `DharitriXTokensPair`. -/
structure DharitriXTokensPair where
  Base : String
  Quote : String
  deriving DecidableEq, Repr

/-- Type `variables` of the source (the lower-case name is a keyword here). -/
structure Variables where
  BasePrice : String
  QuotePrice : String
  deriving DecidableEq, Repr

/-- Type `priceResponse`; `Time` is an instant in nanoseconds. -/
structure priceResponse where
  Last : ℚ
  Time : Int
  deriving DecidableEq

/-- Type `graphqlResponse`: the nested structures `Data`, `Trading` and `Pair` have one
field each, so the decoded value is the list `Data.Trading.Pair.Price`. -/
structure graphqlResponse where
  Price : List priceResponse
  deriving DecidableEq

/-- Type `DharitriX` with its collaborators: `hasPair` of the embedded `baseFetcher`,
`Query` of the GraphQL getter, `json.Marshal` and `json.Unmarshal`. -/
structure DharitriX where
  hasPair : String → String → Bool
  DharitriXTokensMap : List (String × DharitriXTokensPair)
  Marshal : Variables → Except String String
  Query : String → String → String → Except String String
  Unmarshal : String → Option graphqlResponse

/-- What a call of `FetchPrice` ends in: a price, an error, or the run-time error
"index out of range" that stops the program. -/
inductive Outcome where
  | ok (price : ℚ)
  | error (err : Error)
  | indexOutOfRange
  deriving DecidableEq

/-- Method `fetchDharitriXTokensPair`. -/
def fetchDharitriXTokensPair (x : DharitriX) (base quote : String) :
    Option DharitriXTokensPair :=
  let pair := EndpointProviders.Sprintf "%s-%s" [.str base, .str quote]
  (x.DharitriXTokensMap.find? (fun entry => entry.1 == pair)).map (fun entry => entry.2)

/-- Method `FetchPrice`. -/
def FetchPrice (x : DharitriX) (base quote : String) : Outcome :=
  if !x.hasPair base quote then .error .ErrPairNotSupported
  else
    match fetchDharitriXTokensPair x base quote with
    | none => .error .errInvalidPair
    | some pair =>
      match x.Marshal { BasePrice := pair.Base, QuotePrice := pair.Quote } with
      | .error e => .error (.external e)
      | .ok vars =>
        match x.Query dataApiUrl query vars with
        | .error e => .error (.external e)
        | .ok resp =>
          match x.Unmarshal resp with
          | none => .error .errInvalidGraphqlResponse
          | some graphqlResp =>
            match graphqlResp.Price[0]? with
            | none => .indexOutOfRange
            | some first =>
              let price := first.Last
              if price ≤ 0 then .error .errInvalidResponseData else .ok price

/-- Test fixture: a response body that is well-formed and has an empty price list. -/
def emptyPriceBody : String :=
  "\x7b\"data\":\x7b\"trading\":\x7b\"pair\":\x7b\"price\":[]\x7d\x7d\x7d\x7d"

/-- Test fixture: a fetcher that supports the pair DRT-USDC and whose getter answers with
the given body; the decoder knows the body with the empty price list and rejects the
others. -/
def fetcherAnswering (body : String) : DharitriX :=
  { hasPair := fun base quote => base == "DRT" && quote == "USDC",
    DharitriXTokensMap := [("DRT-USDC", { Base := "WREWA-abcdef", Quote := "USDC-abcdef" })],
    Marshal := fun vars => .ok (vars.BasePrice ++ "," ++ vars.QuotePrice),
    Query := fun _ _ _ => .ok body,
    Unmarshal := fun resp => if resp = emptyPriceBody then some { Price := [] } else none }

end Fetchers

/-! # Transaction signature check

Shallow embedding of `txcheck/sigcheck.go`.  An argument that may be nil is an `Option`.
The function `builders.TransactionToUnsignedTx` and the constant
`transaction.MaskSignedWithHash` are declared outside this package and are parameters;
byte slices are lists of numbers. -/

namespace TxCheck

open NonceHandlerV2 (FrontendTransaction)

/-- The sentinel errors of `checkParams`; `external` carries an error of the marshaller or
of the verifier. -/
inductive Error where
  | ErrNilTransaction
  | ErrNilSignature
  | ErrNilPubKey
  | ErrNilSignatureVerifier
  | ErrNilMarshaller
  | ErrNilHasher
  | external (msg : String)
  deriving DecidableEq, Repr

/-- Type `crypto.PublicKey`. -/
structure PublicKey where
  bytes : List Nat
  deriving DecidableEq, Repr

/-- The method of `builders.Signer` that the check uses. -/
structure Signer where
  VerifyByteSlice : List Nat → PublicKey → List Nat → Option String

/-- Type `coreData.Marshaller`. -/
structure Marshaller where
  Marshal : FrontendTransaction → Except String (List Nat)

/-- Type `coreData.Hasher`. -/
structure Hasher where
  Compute : List Nat → List Nat

/-- Requests made by `VerifyTransactionSignature` to its collaborators. -/
inductive Call where
  | Marshal (tx : FrontendTransaction)
  | Compute (msg : List Nat)
  | VerifyByteSlice (msg : List Nat) (pk : PublicKey) (sig : List Nat)
  deriving DecidableEq, Repr

/-- Outcome of `VerifyTransactionSignature`. -/
structure VerifyResult where
  err : Option Error
  calls : List Call
  deriving DecidableEq, Repr

/-- Function `checkParams`. -/
def checkParams (tx : Option FrontendTransaction) (pk : Option PublicKey) (signature : List Nat)
    (verifier : Option Signer) (marshaller : Option Marshaller) (hasher : Option Hasher) :
    Option Error :=
  if tx.isNone then some .ErrNilTransaction
  else if signature.length = 0 then some .ErrNilSignature
  else if pk.isNone then some .ErrNilPubKey
  else if verifier.isNone then some .ErrNilSignatureVerifier
  else if marshaller.isNone then some .ErrNilMarshaller
  else if hasher.isNone then some .ErrNilHasher
  else none

/-- Function `VerifyTransactionSignature`.  The last branch is never taken: `checkParams`
returns an error when one of the five arguments is nil. -/
def VerifyTransactionSignature (TransactionToUnsignedTx : FrontendTransaction → FrontendTransaction)
    (MaskSignedWithHash : Nat) (tx : Option FrontendTransaction) (pk : Option PublicKey)
    (signature : List Nat) (verifier : Option Signer) (marshaller : Option Marshaller)
    (hasher : Option Hasher) : VerifyResult :=
  match checkParams tx pk signature verifier marshaller hasher with
  | some err => { err := some err, calls := [] }
  | none =>
    match tx, pk, verifier, marshaller, hasher with
    | some tx, some pk, some verifier, some marshaller, some hasher =>
      let unsignedTx := TransactionToUnsignedTx tx
      match marshaller.Marshal unsignedTx with
      | .error e => { err := some (.external e), calls := [.Marshal unsignedTx] }
      | .ok unsignedMessage =>
        let shouldVerifyOnTxHash :=
          decide (unsignedTx.Version ≥ 2) && decide (unsignedTx.Options &&& MaskSignedWithHash > 0)
        if shouldVerifyOnTxHash then
          let hashed := hasher.Compute unsignedMessage
          { err := (verifier.VerifyByteSlice hashed pk signature).map .external,
            calls := [.Marshal unsignedTx, .Compute unsignedMessage,
                      .VerifyByteSlice hashed pk signature] }
        else
          { err := (verifier.VerifyByteSlice unsignedMessage pk signature).map .external,
            calls := [.Marshal unsignedTx, .VerifyByteSlice unsignedMessage pk signature] }
    | _, _, _, _, _ => { err := none, calls := [] }

/-- Test fixture: the unsigned copy of a transaction has an empty signature. -/
def clearSignature (tx : FrontendTransaction) : FrontendTransaction :=
  { tx with Signature := "" }

/-- Test fixture: a transaction with the given version and options. -/
def signedTx (version options : Nat) : FrontendTransaction :=
  { Nonce := 7, Value := "10", Receiver := "drt1receiver", Sender := "drt1sender",
    GasPrice := 1000000000, GasLimit := 50000, Data := [], Signature := "c0ffee",
    ChainID := "T", Version := version, Options := options }

/-- Test fixture: a public key. -/
def testKey : PublicKey := { bytes := [4, 2] }

/-- Test fixture: a verifier that accepts a signature equal to the message. -/
def testVerifier : Signer :=
  { VerifyByteSlice := fun msg _ sig => if msg = sig then none else some "invalid signature" }

/-- Test fixture: a marshaller that writes nonce, version and options. -/
def testMarshaller : Marshaller :=
  { Marshal := fun tx => .ok [tx.Nonce, tx.Version, tx.Options] }

/-- Test fixture: a hasher that returns the sum of the bytes. -/
def testHasher : Hasher := { Compute := fun msg => [msg.sum % 256] }

end TxCheck
namespace NonceHandlerV2

/-! ## Auxiliary lemmas -/

theorem maxUint64_eq_max (a b : Nat) : MaxUint64 a b = max a b := by
  unfold MaxUint64
  split <;> omega

theorem minUint64_eq_min (a b : Nat) : MinUint64 a b = min a b := by
  unfold MinUint64
  split <;> omega

theorem mapGet_mapSet_same (m : List (Nat × FrontendTransaction)) (k : Nat)
    (v : FrontendTransaction) : mapGet (mapSet m k v) k = some v := by
  simp [mapGet, mapSet, List.lookup]

theorem mapGet_mapDelete_other (m : List (Nat × FrontendTransaction)) (k j : Nat)
    (h : j ≠ k) : mapGet (mapDelete m k) j = mapGet m j := by
  induction m with
  | nil => rfl
  | cons p m ih =>
    obtain ⟨a, b⟩ := p
    unfold mapGet mapDelete at *
    by_cases hak : a = k
    · subst hak
      have hja : (j == a) = false := by simpa using h
      simp [List.filter, List.lookup, hja, ih]
    · have : (a != k) = true := by simpa using hak
      simp only [List.filter, this, List.lookup]
      cases hj : (j == a) <;> simp [ih]

theorem mapGet_mapSet_other (m : List (Nat × FrontendTransaction)) (k j : Nat)
    (v : FrontendTransaction) (h : j ≠ k) : mapGet (mapSet m k v) j = mapGet m j := by
  have hjk : (j == k) = false := by simpa using h
  have := mapGet_mapDelete_other m k j h
  unfold mapGet at *
  simp [mapSet, List.lookup, hjk, this]

@[simp] theorem fetch_computedNonceWasSet (anh : addressNonceHandler) (proxy : Proxy) (nonce : Nat) :
    (fetchGasPriceIfRequired anh proxy nonce).anh.computedNonceWasSet =
      anh.computedNonceWasSet := by
  unfold fetchGasPriceIfRequired
  split
  · split <;> rfl
  · rfl

@[simp] theorem fetch_computedNonce (anh : addressNonceHandler) (proxy : Proxy) (nonce : Nat) :
    (fetchGasPriceIfRequired anh proxy nonce).anh.computedNonce = anh.computedNonce := by
  unfold fetchGasPriceIfRequired
  split
  · split <;> rfl
  · rfl

@[simp] theorem fetch_lowestNonce (anh : addressNonceHandler) (proxy : Proxy) (nonce : Nat) :
    (fetchGasPriceIfRequired anh proxy nonce).anh.lowestNonce = anh.lowestNonce := by
  unfold fetchGasPriceIfRequired
  split
  · split <;> rfl
  · rfl

@[simp] theorem fetch_transactions (anh : addressNonceHandler) (proxy : Proxy) (nonce : Nat) :
    (fetchGasPriceIfRequired anh proxy nonce).anh.transactions = anh.transactions := by
  unfold fetchGasPriceIfRequired
  split
  · split <;> rfl
  · rfl

@[simp] theorem fetch_address (anh : addressNonceHandler) (proxy : Proxy) (nonce : Nat) :
    (fetchGasPriceIfRequired anh proxy nonce).anh.address = anh.address := by
  unfold fetchGasPriceIfRequired
  split
  · split <;> rfl
  · rfl

theorem getNonce_error (anh : addressNonceHandler) (proxy : Proxy) (e : String)
    (h : proxy.GetAccount = .error e) :
    getNonceUpdatingCurrent anh proxy = { anh := anh, nonce := 0, err := some (.external e) } := by
  simp [getNonceUpdatingCurrent, h]

theorem getNonce_gap (anh : addressNonceHandler) (proxy : Proxy) (account : Account)
    (h : proxy.GetAccount = .ok account) (hgap : account.Nonce < anh.lowestNonce) :
    getNonceUpdatingCurrent anh proxy =
      { anh := anh, nonce := account.Nonce, err := some .ErrGapNonce } := by
  simp [getNonceUpdatingCurrent, h, hgap]

theorem getNonce_first (anh : addressNonceHandler) (proxy : Proxy) (account : Account)
    (h : proxy.GetAccount = .ok account) (hgap : anh.lowestNonce ≤ account.Nonce)
    (hset : anh.computedNonceWasSet = false) :
    getNonceUpdatingCurrent anh proxy =
      { anh := { anh with computedNonce := account.Nonce, computedNonceWasSet := true },
        nonce := account.Nonce, err := none } := by
  have : ¬ account.Nonce < anh.lowestNonce := by omega
  simp [getNonceUpdatingCurrent, h, this, hset]

theorem getNonce_next (anh : addressNonceHandler) (proxy : Proxy) (account : Account)
    (h : proxy.GetAccount = .ok account) (hgap : anh.lowestNonce ≤ account.Nonce)
    (hset : anh.computedNonceWasSet = true) :
    getNonceUpdatingCurrent anh proxy =
      { anh := { anh with computedNonce := (anh.computedNonce + 1) % uint64Size },
        nonce := max ((anh.computedNonce + 1) % uint64Size) account.Nonce, err := none } := by
  have : ¬ account.Nonce < anh.lowestNonce := by omega
  simp [getNonceUpdatingCurrent, h, this, hset, maxUint64_eq_max]

theorem apply_reject (anh : addressNonceHandler) (proxy : Proxy) (tx oldTx : FrontendTransaction)
    (e : Error) (hold : getOlderTxWithSameNonce anh tx = some oldTx)
    (hrej : handleTxWithSameNonce anh oldTx tx = some e) :
    ApplyNonceAndGasPrice anh proxy tx = { anh := anh, tx := tx, err := some e, calls := [] } := by
  simp [ApplyNonceAndGasPrice, hold, hrej]

theorem apply_pass (anh : addressNonceHandler) (proxy : Proxy) (tx : FrontendTransaction)
    (hdup : ∀ oldTx, getOlderTxWithSameNonce anh tx = some oldTx →
      handleTxWithSameNonce anh oldTx tx = none) :
    ApplyNonceAndGasPrice anh proxy tx =
      match (getNonceUpdatingCurrent anh proxy).err with
      | some err =>
        { anh := (getNonceUpdatingCurrent anh proxy).anh,
          tx := { tx with Nonce := (getNonceUpdatingCurrent anh proxy).nonce },
          err := some err, calls := [.GetAccount] }
      | none =>
        { anh := (fetchGasPriceIfRequired (getNonceUpdatingCurrent anh proxy).anh proxy
                    (getNonceUpdatingCurrent anh proxy).nonce).anh,
          tx := { tx with
                  Nonce := (getNonceUpdatingCurrent anh proxy).nonce,
                  GasPrice := max (fetchGasPriceIfRequired (getNonceUpdatingCurrent anh proxy).anh
                    proxy (getNonceUpdatingCurrent anh proxy).nonce).anh.gasPrice tx.GasPrice },
          err := none,
          calls := .GetAccount :: (fetchGasPriceIfRequired (getNonceUpdatingCurrent anh proxy).anh
                    proxy (getNonceUpdatingCurrent anh proxy).nonce).calls } := by
  unfold ApplyNonceAndGasPrice
  cases hold : getOlderTxWithSameNonce anh tx with
  | none => simp [maxUint64_eq_max]
  | some oldTx => simp [hdup oldTx hold, maxUint64_eq_max]

/-- The duplicate-nonce rule either rejects the draft or lets it through. -/
theorem sameNonce_cases (anh : addressNonceHandler) (tx : FrontendTransaction) :
    (∃ oldTx, getOlderTxWithSameNonce anh tx = some oldTx ∧
      handleTxWithSameNonce anh oldTx tx = some .ErrTxWithSameNonceAndGasPriceAlreadySent) ∨
    (∀ oldTx, getOlderTxWithSameNonce anh tx = some oldTx →
      handleTxWithSameNonce anh oldTx tx = none) := by
  cases hold : getOlderTxWithSameNonce anh tx with
  | none => right; intro o h; cases h
  | some oldTx =>
    cases hh : handleTxWithSameNonce anh oldTx tx with
    | none => right; intro o h; cases h; exact hh
    | some e =>
      left
      refine ⟨oldTx, rfl, ?_⟩
      unfold handleTxWithSameNonce at hh ⊢
      split at hh
      · cases hh
      · split at hh
        · cases hh
        · rename_i h1 h2; simp [h1, h2]

/-- What a successful `ApplyNonceAndGasPrice` did. -/
theorem apply_success_spec (anh : addressNonceHandler) (proxy : Proxy) (tx : FrontendTransaction)
    (h : (ApplyNonceAndGasPrice anh proxy tx).err = none) :
    ∃ account, proxy.GetAccount = .ok account ∧ anh.lowestNonce ≤ account.Nonce ∧
      (ApplyNonceAndGasPrice anh proxy tx).anh.computedNonceWasSet = true ∧
      (ApplyNonceAndGasPrice anh proxy tx).anh.computedNonce =
        (if anh.computedNonceWasSet then (anh.computedNonce + 1) % uint64Size
         else account.Nonce) ∧
      (ApplyNonceAndGasPrice anh proxy tx).tx.Nonce =
        (if anh.computedNonceWasSet then max ((anh.computedNonce + 1) % uint64Size) account.Nonce
         else account.Nonce) ∧
      (ApplyNonceAndGasPrice anh proxy tx).tx.GasPrice =
        max (ApplyNonceAndGasPrice anh proxy tx).anh.gasPrice tx.GasPrice ∧
      (ApplyNonceAndGasPrice anh proxy tx).anh.lowestNonce = anh.lowestNonce ∧
      (ApplyNonceAndGasPrice anh proxy tx).anh.transactions = anh.transactions := by
  rcases sameNonce_cases anh tx with ⟨oldTx, hold, hrej⟩ | hpass
  · rw [apply_reject anh proxy tx oldTx _ hold hrej] at h
    cases h
  · rw [apply_pass anh proxy tx hpass] at h ⊢
    cases hacc : proxy.GetAccount with
    | error e =>
      rw [getNonce_error anh proxy e hacc] at h
      cases h
    | ok account =>
      refine ⟨account, rfl, ?_⟩
      by_cases hgap : account.Nonce < anh.lowestNonce
      · rw [getNonce_gap anh proxy account hacc hgap] at h
        cases h
      · have hle : anh.lowestNonce ≤ account.Nonce := by omega
        cases hset : anh.computedNonceWasSet
        · rw [getNonce_first anh proxy account hacc hle hset]
          simp [hle, hset]
        · rw [getNonce_next anh proxy account hacc hle hset]
          simp [hle, hset]

/-- A failed `ApplyNonceAndGasPrice` leaves the handler as it was. -/
theorem apply_failure_frame (anh : addressNonceHandler) (proxy : Proxy) (tx : FrontendTransaction)
    (h : (ApplyNonceAndGasPrice anh proxy tx).err ≠ none) :
    (ApplyNonceAndGasPrice anh proxy tx).anh = anh := by
  rcases sameNonce_cases anh tx with ⟨oldTx, hold, hrej⟩ | hpass
  · rw [apply_reject anh proxy tx oldTx _ hold hrej]
  · rw [apply_pass anh proxy tx hpass] at h ⊢
    cases hacc : proxy.GetAccount with
    | error e => rw [getNonce_error anh proxy e hacc]
    | ok account =>
      by_cases hgap : account.Nonce < anh.lowestNonce
      · rw [getNonce_gap anh proxy account hacc hgap]
      · have hle : anh.lowestNonce ≤ account.Nonce := by omega
        cases hset : anh.computedNonceWasSet
        · rw [getNonce_first anh proxy account hacc hle hset] at h
          simp at h
        · rw [getNonce_next anh proxy account hacc hle hset] at h
          simp at h

/-- The call succeeds when the duplicate-nonce rule lets the draft through and the ledger
read reports a nonce that is not below `lowestNonce`. -/
theorem apply_succeeds (anh : addressNonceHandler) (proxy : Proxy) (tx : FrontendTransaction)
    (account : Account)
    (hdup : ∀ oldTx, getOlderTxWithSameNonce anh tx = some oldTx →
      handleTxWithSameNonce anh oldTx tx = none)
    (hacc : proxy.GetAccount = .ok account) (hle : anh.lowestNonce ≤ account.Nonce) :
    (ApplyNonceAndGasPrice anh proxy tx).err = none := by
  rw [apply_pass anh proxy tx hdup]
  cases hset : anh.computedNonceWasSet
  · rw [getNonce_first anh proxy account hacc hle hset]
  · rw [getNonce_next anh proxy account hacc hle hset]

theorem send_transactions (anh : addressNonceHandler) (proxy : Proxy) (tx : FrontendTransaction) :
    (SendTransaction anh proxy tx).anh.transactions = mapSet anh.transactions tx.Nonce tx := by
  unfold SendTransaction
  cases proxy.SendTransaction tx <;> rfl

/-- Closed form of the sweep loop of `ReSendTransactionsIfRequired`, started in any loop
state `st` and run over the entries `es`. -/
theorem sweep_foldl (accountNonce : Nat) (es : List (Nat × FrontendTransaction)) :
    ∀ st : SweepState,
      (es.foldl (sweepStep accountNonce) st).transactions =
        st.transactions.filter
          (fun p => !(decide (p.1 ≤ accountNonce) && es.any (fun e => e.1 == p.1))) ∧
      (es.foldl (sweepStep accountNonce) st).resendableTxs =
        st.resendableTxs ++
          (es.filter (fun e => decide (accountNonce < e.1))).map Prod.snd ∧
      (es.foldl (sweepStep accountNonce) st).minNonce =
        (es.filter (fun e => decide (accountNonce < e.1))).foldl
          (fun m e => min e.1 m) st.minNonce := by
  induction es with
  | nil => intro st; simp
  | cons e es ih =>
    intro st
    simp only [List.foldl_cons]
    obtain ⟨h1, h2, h3⟩ := ih (sweepStep accountNonce st e)
    rw [h1, h2, h3]
    by_cases he : e.1 ≤ accountNonce
    · have hlt : ¬ accountNonce < e.1 := by omega
      simp only [sweepStep, he, if_true, mapDelete, List.filter_filter, List.any_cons]
      refine ⟨?_, ?_, ?_⟩
      · apply List.filter_congr
        intro p _
        by_cases hpe : e.1 = p.1
        · have hp : p.1 ≤ accountNonce := hpe ▸ he
          simp [hpe, hp]
        · have hb : (e.1 == p.1) = false := by simpa using hpe
          have hb2 : (p.1 != e.1) = true := by simpa using fun h : p.1 = e.1 => hpe h.symm
          rw [hb, hb2]
          simp
      · simp [List.filter, hlt]
      · simp [List.filter, hlt]
    · have hlt : accountNonce < e.1 := by omega
      simp only [sweepStep, he, if_false, List.any_cons]
      refine ⟨?_, ?_, ?_⟩
      · apply List.filter_congr
        intro p _
        by_cases hpe : e.1 = p.1
        · have hp : ¬ p.1 ≤ accountNonce := by omega
          simp [hp]
        · have hb : (e.1 == p.1) = false := by simpa using hpe
          rw [hb]
          simp
      · simp [List.filter, hlt]
      · simp [List.filter, hlt, minUint64_eq_min]

/-- The sweep run over the stored transactions themselves. -/
theorem sweep_self (accountNonce minNonce : Nat) (m : List (Nat × FrontendTransaction)) :
    (m.foldl (sweepStep accountNonce)
        { transactions := m, minNonce := minNonce, resendableTxs := [] }).transactions =
      m.filter (fun p => decide (accountNonce < p.1)) ∧
    (m.foldl (sweepStep accountNonce)
        { transactions := m, minNonce := minNonce, resendableTxs := [] }).resendableTxs =
      (m.filter (fun p => decide (accountNonce < p.1))).map Prod.snd ∧
    (m.foldl (sweepStep accountNonce)
        { transactions := m, minNonce := minNonce, resendableTxs := [] }).minNonce =
      (m.filter (fun p => decide (accountNonce < p.1))).foldl (fun a e => min e.1 a) minNonce := by
  obtain ⟨h1, h2, h3⟩ := sweep_foldl accountNonce m
    { transactions := m, minNonce := minNonce, resendableTxs := [] }
  refine ⟨?_, ?_, h3⟩
  · rw [h1]
    apply List.filter_congr
    intro p hp
    have hany : m.any (fun e => e.1 == p.1) = true := by
      rw [List.any_eq_true]
      exact ⟨p, hp, by simp⟩
    rw [hany]
    by_cases hle : p.1 ≤ accountNonce
    · have : ¬ accountNonce < p.1 := by omega
      simp [hle, this]
    · have : accountNonce < p.1 := by omega
      simp [hle, this]
  · rw [h2]
    simp

theorem run_nil (anh : addressNonceHandler) : run anh [] = (anh, []) := rfl

theorem run_cons (anh : addressNonceHandler) (op : Op) (ops : List Op) :
    run anh (op :: ops) =
      ((run (step anh op).1 ops).1,
       match (step anh op).2 with
       | some n => n :: (run (step anh op).1 ops).2
       | none => (run (step anh op).1 ops).2) := rfl

theorem step_apply (anh : addressNonceHandler) (proxy : Proxy) (tx : FrontendTransaction) :
    step anh (.ApplyNonceAndGasPrice proxy tx) =
      match (ApplyNonceAndGasPrice anh proxy tx).err with
      | none => ((ApplyNonceAndGasPrice anh proxy tx).anh,
                 some (ApplyNonceAndGasPrice anh proxy tx).tx.Nonce)
      | some _ => ((ApplyNonceAndGasPrice anh proxy tx).anh, none) := rfl

theorem step_send (anh : addressNonceHandler) (proxy : Proxy) (tx : FrontendTransaction) :
    step anh (.SendTransaction proxy tx) = ((SendTransaction anh proxy tx).anh, none) := rfl

theorem step_resend (anh : addressNonceHandler) (proxy : Proxy) :
    step anh (.ReSendTransactionsIfRequired proxy) =
      ((ReSendTransactionsIfRequired anh proxy).anh, none) := rfl

theorem step_drop (anh : addressNonceHandler) :
    step anh .DropTransactions = (DropTransactions anh, none) := rfl

/-- `SendTransaction` touches nothing but the stored transactions. -/
theorem send_frame (anh : addressNonceHandler) (proxy : Proxy) (tx : FrontendTransaction) :
    (SendTransaction anh proxy tx).anh =
      { anh with transactions := mapSet anh.transactions tx.Nonce tx } := by
  unfold SendTransaction
  cases proxy.SendTransaction tx <;> rfl

/-- `ReSendTransactionsIfRequired` touches nothing but the stored transactions and
`lowestNonce`. -/
theorem resend_frame (anh : addressNonceHandler) (proxy : Proxy) :
    (ReSendTransactionsIfRequired anh proxy).anh =
      { anh with
          transactions := (ReSendTransactionsIfRequired anh proxy).anh.transactions,
          lowestNonce := (ReSendTransactionsIfRequired anh proxy).anh.lowestNonce } := by
  unfold ReSendTransactionsIfRequired
  cases proxy.GetAccount with
  | error e => rfl
  | ok account =>
    simp only
    split
    · rfl
    · split
      · rfl
      · cases proxy.SendTransactions _ with
        | error e => rfl
        | ok hs => cases anh.address.AddressAsBech32String <;> rfl

/-- Calls other than `DropTransactions` that assign no nonce keep the counter and its flag. -/
theorem step_none_frame (anh : addressNonceHandler) (op : Op) (hnd : op.isDrop = false)
    (hnone : (step anh op).2 = none) :
    (step anh op).1.computedNonceWasSet = anh.computedNonceWasSet ∧
    (step anh op).1.computedNonce = anh.computedNonce := by
  cases op with
  | ApplyNonceAndGasPrice proxy tx =>
    rw [step_apply] at hnone ⊢
    cases herr : (ApplyNonceAndGasPrice anh proxy tx).err with
    | none => simp [herr] at hnone
    | some e =>
      have hfr := apply_failure_frame anh proxy tx (by simp [herr])
      simp [hfr]
  | SendTransaction proxy tx =>
    rw [step_send, send_frame]
    exact ⟨rfl, rfl⟩
  | ReSendTransactionsIfRequired proxy =>
    rw [step_resend, resend_frame]
    exact ⟨rfl, rfl⟩
  | DropTransactions => simp [Op.isDrop] at hnd

/-- A call that assigns a nonce is a successful `ApplyNonceAndGasPrice`. -/
theorem step_some_inv (anh : addressNonceHandler) (op : Op) (n : Nat)
    (hsome : (step anh op).2 = some n) :
    ∃ proxy tx, op = .ApplyNonceAndGasPrice proxy tx ∧
      (ApplyNonceAndGasPrice anh proxy tx).err = none ∧
      (ApplyNonceAndGasPrice anh proxy tx).tx.Nonce = n ∧
      (step anh op).1 = (ApplyNonceAndGasPrice anh proxy tx).anh := by
  cases op with
  | ApplyNonceAndGasPrice proxy tx =>
    refine ⟨proxy, tx, rfl, ?_⟩
    rw [step_apply] at hsome ⊢
    cases herr : (ApplyNonceAndGasPrice anh proxy tx).err with
    | none =>
      simp only [herr] at hsome ⊢
      simp only [Option.some.injEq] at hsome
      exact ⟨trivial, hsome, trivial⟩
    | some e => simp [herr] at hsome
  | SendTransaction proxy tx => simp [step] at hsome
  | ReSendTransactionsIfRequired proxy => simp [step] at hsome
  | DropTransactions => simp [step] at hsome

/-- From a bootstrapped handler, a run without `DropTransactions` in which the ledger never
runs ahead of the counter assigns `computedNonce + 1`, `computedNonce + 2`, ... -/
theorem run_chain_of_set (ops : List Op) :
    ∀ anh : addressNonceHandler, ops.all (fun op => !op.isDrop) = true →
      ledgerNotAhead anh ops = true → anh.computedNonceWasSet = true →
      List.Chain (fun a b => b = a + 1) anh.computedNonce (run anh ops).2 := by
  induction ops with
  | nil => intro anh _ _ _; exact List.Chain.nil
  | cons op ops ih =>
    intro anh hnd hled hset
    simp only [List.all_cons, Bool.and_eq_true, Bool.not_eq_true'] at hnd
    simp only [ledgerNotAhead, Bool.and_eq_true] at hled
    rw [run_cons]
    cases hstep : (step anh op).2 with
    | none =>
      obtain ⟨hf, hc⟩ := step_none_frame anh op hnd.1 hstep
      have := ih (step anh op).1 hnd.2 hled.2 (hf.trans hset)
      rw [hc] at this
      exact this
    | some n =>
      obtain ⟨proxy, tx, hop, hok, hn, hst⟩ := step_some_inv anh op n hstep
      obtain ⟨account, hacc, -, hflag, hc, hnonce, -, -, -⟩ :=
        apply_success_spec anh proxy tx hok
      have hcall := hled.1
      rw [hop] at hcall
      simp only [callLedgerNotAhead, hacc, hset, hok, Bool.not_true, Option.isSome_none,
        Bool.or_self, Bool.false_or, Bool.and_eq_true, decide_eq_true_eq] at hcall
      rw [hset] at hc hnonce
      simp only [if_true] at hc hnonce
      have hmod : (anh.computedNonce + 1) % uint64Size = anh.computedNonce + 1 :=
        Nat.mod_eq_of_lt hcall.2
      rw [hmod] at hc hnonce
      have hn1 : n = anh.computedNonce + 1 := by
        rw [← hn, hnonce]
        exact Nat.max_eq_left hcall.1
      have hih := ih (step anh op).1 hnd.2 hled.2 (by rw [hst]; exact hflag)
      rw [hst, hc, ← hn1] at hih
      rw [hst]
      exact List.Chain.cons hn1 hih

/-- With the ledger reporting `L` at every read, a bootstrapped handler whose counter is at
least `L - 1` assigns `computedNonce + 1`, `computedNonce + 2`, ... -/
theorem run_constant_of_set (L : Nat) (ops : List Op) :
    ∀ anh : addressNonceHandler, ops.all (fun op => !op.isDrop) = true →
      ops.all (ledgerReports L) = true → anh.computedNonceWasSet = true →
      L ≤ anh.computedNonce + 1 →
      anh.computedNonce + (run anh ops).2.length < uint64Size →
      (run anh ops).2 = List.range' (anh.computedNonce + 1) (run anh ops).2.length := by
  induction ops with
  | nil => intro anh _ _ _ _ _; rfl
  | cons op ops ih =>
    intro anh hnd hrep hset hL hbound
    simp only [List.all_cons, Bool.and_eq_true, Bool.not_eq_true'] at hnd hrep
    rw [run_cons] at hbound ⊢
    cases hstep : (step anh op).2 with
    | none =>
      obtain ⟨hf, hc⟩ := step_none_frame anh op hnd.1 hstep
      simp only [hstep] at hbound ⊢
      have := ih (step anh op).1 hnd.2 hrep.2 (hf.trans hset) (by rw [hc]; exact hL)
        (by rw [hc]; exact hbound)
      rw [hc] at this
      exact this
    | some n =>
      obtain ⟨proxy, tx, hop, hok, hn, hst⟩ := step_some_inv anh op n hstep
      obtain ⟨account, hacc, -, hflag, hc, hnonce, -, -, -⟩ :=
        apply_success_spec anh proxy tx hok
      have hcall := hrep.1
      rw [hop] at hcall
      simp only [ledgerReports, hacc, beq_iff_eq] at hcall
      simp only [hstep, List.length_cons] at hbound ⊢
      rw [hset] at hc hnonce
      simp only [if_true] at hc hnonce
      have hmod : (anh.computedNonce + 1) % uint64Size = anh.computedNonce + 1 :=
        Nat.mod_eq_of_lt (by omega)
      rw [hmod] at hc hnonce
      have hn1 : n = anh.computedNonce + 1 := by
        rw [← hn, hnonce]
        exact Nat.max_eq_left (by omega)
      rw [hst] at hbound ⊢
      have hih := ih (ApplyNonceAndGasPrice anh proxy tx).anh hnd.2 hrep.2 hflag
        (by rw [hc]; omega) (by rw [hc]; omega)
      rw [hc] at hih
      rw [hih, List.length_range', hn1]
      rfl

/-- With the ledger reporting `L` at every read, a handler that is not bootstrapped assigns
`L`, `L + 1`, ... -/
theorem run_constant_of_unset (L : Nat) (ops : List Op) :
    ∀ anh : addressNonceHandler, ops.all (fun op => !op.isDrop) = true →
      ops.all (ledgerReports L) = true → anh.computedNonceWasSet = false →
      L + (run anh ops).2.length < uint64Size →
      (run anh ops).2 = List.range' L (run anh ops).2.length := by
  induction ops with
  | nil => intro anh _ _ _ _; rfl
  | cons op ops ih =>
    intro anh hnd hrep hset hbound
    simp only [List.all_cons, Bool.and_eq_true, Bool.not_eq_true'] at hnd hrep
    rw [run_cons] at hbound ⊢
    cases hstep : (step anh op).2 with
    | none =>
      obtain ⟨hf, -⟩ := step_none_frame anh op hnd.1 hstep
      simp only [hstep] at hbound ⊢
      exact ih (step anh op).1 hnd.2 hrep.2 (hf.trans hset) hbound
    | some n =>
      obtain ⟨proxy, tx, hop, hok, hn, hst⟩ := step_some_inv anh op n hstep
      obtain ⟨account, hacc, -, hflag, hc, hnonce, -, -, -⟩ :=
        apply_success_spec anh proxy tx hok
      have hcall := hrep.1
      rw [hop] at hcall
      simp only [ledgerReports, hacc, beq_iff_eq] at hcall
      simp only [hstep, List.length_cons] at hbound ⊢
      rw [hset] at hc hnonce
      simp only [Bool.false_eq_true, if_false] at hc hnonce
      have hn1 : n = L := by rw [← hn, hnonce, hcall]
      rw [hst] at hbound ⊢
      have hih := run_constant_of_set L ops (ApplyNonceAndGasPrice anh proxy tx).anh hnd.2
        hrep.2 hflag (by rw [hc]; omega) (by rw [hc]; omega)
      rw [hc, hcall] at hih
      rw [hih, List.length_range', hn1]
      rfl

/-- On a handler that stores no transaction, with the ledger reporting a nonce `L` that is
not below `lowestNonce`, every `ApplyNonceAndGasPrice` of an assignment-only run succeeds. -/
theorem run_apply_only_all_succeed (L : Nat) (ops : List Op) :
    ∀ anh : addressNonceHandler, ops.all Op.isApply = true →
      ops.all (ledgerReports L) = true → anh.transactions = [] → anh.lowestNonce ≤ L →
      (run anh ops).2.length = ops.length := by
  induction ops with
  | nil => intro anh _ _ _ _; rfl
  | cons op ops ih =>
    intro anh happ hrep htx hlow
    simp only [List.all_cons, Bool.and_eq_true] at happ hrep
    cases op with
    | ApplyNonceAndGasPrice proxy tx =>
      have hcall := hrep.1
      cases hacc : proxy.GetAccount with
      | error e => simp [ledgerReports, hacc] at hcall
      | ok account =>
        simp only [ledgerReports, hacc, beq_iff_eq] at hcall
        have hdup : ∀ oldTx, getOlderTxWithSameNonce anh tx = some oldTx →
            handleTxWithSameNonce anh oldTx tx = none := by
          intro o ho
          simp [getOlderTxWithSameNonce, mapGet, htx] at ho
        have hok := apply_succeeds anh proxy tx account hdup hacc (by omega)
        obtain ⟨account1, -, -, -, -, -, -, hl, ht⟩ := apply_success_spec anh proxy tx hok
        have hst : step anh (.ApplyNonceAndGasPrice proxy tx) =
            ((ApplyNonceAndGasPrice anh proxy tx).anh,
             some (ApplyNonceAndGasPrice anh proxy tx).tx.Nonce) := by
          rw [step_apply, hok]
        rw [run_cons, hst]
        simp only [List.length_cons]
        rw [ih (ApplyNonceAndGasPrice anh proxy tx).anh happ.2 hrep.2 (ht.trans htx)
          (by rw [hl]; exact hlow)]
    | SendTransaction proxy tx => simp [Op.isApply] at happ
    | ReSendTransactionsIfRequired proxy => simp [Op.isApply] at happ
    | DropTransactions => simp [Op.isApply] at happ

/-- State left by `ReSendTransactionsIfRequired` when the ledger nonce equals
`computedNonce`. -/
theorem resend_anh_of_eq (anh : addressNonceHandler) (proxy : Proxy) (account : Account)
    (hacc : proxy.GetAccount = .ok account) (heq : account.Nonce = anh.computedNonce) :
    ReSendTransactionsIfRequired anh proxy =
      { anh := { anh with lowestNonce := anh.computedNonce, transactions := [] },
        err := none, calls := [.GetAccount] } := by
  unfold ReSendTransactionsIfRequired
  simp [hacc, heq]

/-- State left by `ReSendTransactionsIfRequired` when the ledger nonce differs from
`computedNonce`. -/
theorem resend_anh_of_ne (anh : addressNonceHandler) (proxy : Proxy) (account : Account)
    (hacc : proxy.GetAccount = .ok account) (hne : account.Nonce ≠ anh.computedNonce) :
    (ReSendTransactionsIfRequired anh proxy).anh =
      { anh with
          transactions := anh.transactions.filter (fun p => decide (account.Nonce < p.1)),
          lowestNonce :=
            (anh.transactions.filter (fun p => decide (account.Nonce < p.1))).foldl
              (fun a e => min e.1 a) anh.computedNonce } := by
  obtain ⟨h1, h2, h3⟩ := sweep_self account.Nonce anh.computedNonce anh.transactions
  have hb : (account.Nonce == anh.computedNonce) = false := by simpa using hne
  unfold ReSendTransactionsIfRequired
  simp only [hacc, hb, h1, h2, h3, Bool.false_eq_true, if_false]
  split
  · rfl
  · split
    · rfl
    · split <;> rfl

/-- State left by `ReSendTransactionsIfRequired` when the account read fails. -/
theorem resend_of_error (anh : addressNonceHandler) (proxy : Proxy) (e : String)
    (hacc : proxy.GetAccount = .error e) :
    ReSendTransactionsIfRequired anh proxy =
      { anh := anh, err := some (.external e), calls := [.GetAccount] } := by
  unfold ReSendTransactionsIfRequired
  simp [hacc]

/-- The running minimum computed by the sweep: it is below the start value, below every
key met, and it is the start value or one of the keys. -/
theorem foldl_min_spec (l : List (Nat × FrontendTransaction)) :
    ∀ c : Nat,
      l.foldl (fun a e => min e.1 a) c ≤ c ∧
      (∀ p ∈ l, l.foldl (fun a e => min e.1 a) c ≤ p.1) ∧
      (l.foldl (fun a e => min e.1 a) c = c ∨
        ∃ p ∈ l, p.1 = l.foldl (fun a e => min e.1 a) c) := by
  induction l with
  | nil => intro c; simp
  | cons e l ih =>
    intro c
    obtain ⟨h1, h2, h3⟩ := ih (min e.1 c)
    simp only [List.foldl_cons]
    refine ⟨?_, ?_, ?_⟩
    · exact Nat.le_trans h1 (Nat.min_le_right _ _)
    · intro p hp
      rcases List.mem_cons.mp hp with rfl | hp
      · exact Nat.le_trans h1 (Nat.min_le_left _ _)
      · exact h2 p hp
    · rcases h3 with h3 | ⟨p, hp, hpe⟩
      · by_cases hle : e.1 ≤ c
        · right
          exact ⟨e, List.mem_cons_self _ _, by rw [h3, Nat.min_eq_left hle]⟩
        · left
          rw [h3, Nat.min_eq_right (by omega)]
      · right
        exact ⟨p, List.mem_cons_of_mem _ hp, hpe⟩

/-- `ReSendTransactionsIfRequired` keeps `lowestNonce ≤ computedNonce`. -/
theorem resend_lowest_le (anh : addressNonceHandler) (proxy : Proxy)
    (hinv : anh.lowestNonce ≤ anh.computedNonce) :
    (ReSendTransactionsIfRequired anh proxy).anh.lowestNonce ≤
      (ReSendTransactionsIfRequired anh proxy).anh.computedNonce := by
  cases hacc : proxy.GetAccount with
  | error e => rw [resend_of_error anh proxy e hacc]; exact hinv
  | ok account =>
    by_cases heq : account.Nonce = anh.computedNonce
    · rw [resend_anh_of_eq anh proxy account hacc heq]
    · rw [resend_anh_of_ne anh proxy account hacc heq]
      exact (foldl_min_spec _ anh.computedNonce).1

/-- Every call keeps `lowestNonce ≤ computedNonce`, provided it does not wrap the counter. -/
theorem step_lowest_le (anh : addressNonceHandler) (op : Op)
    (hinv : anh.lowestNonce ≤ anh.computedNonce) (hnw : callNoWrap anh op = true) :
    (step anh op).1.lowestNonce ≤ (step anh op).1.computedNonce := by
  cases op with
  | ApplyNonceAndGasPrice proxy tx =>
    rw [step_apply]
    cases herr : (ApplyNonceAndGasPrice anh proxy tx).err with
    | some e =>
      have hfr := apply_failure_frame anh proxy tx (by simp [herr])
      simpa [hfr] using hinv
    | none =>
      obtain ⟨account, -, hle, -, hc, -, -, hl, -⟩ := apply_success_spec anh proxy tx herr
      simp only
      rw [hl, hc]
      cases hset : anh.computedNonceWasSet with
      | false => simpa using hle
      | true =>
        simp only [callNoWrap, hset, herr, Bool.not_true, Option.isSome_none, Bool.or_self,
          Bool.false_or, decide_eq_true_eq] at hnw
        simp only [if_true]
        rw [Nat.mod_eq_of_lt hnw]
        omega
  | SendTransaction proxy tx =>
    rw [step_send, send_frame]
    exact hinv
  | ReSendTransactionsIfRequired proxy =>
    rw [step_resend]
    exact resend_lowest_le anh proxy hinv
  | DropTransactions =>
    rw [step_drop]
    exact hinv

theorem run_lowest_le (ops : List Op) :
    ∀ anh : addressNonceHandler, anh.lowestNonce ≤ anh.computedNonce →
      noWrap anh ops = true →
      (run anh ops).1.lowestNonce ≤ (run anh ops).1.computedNonce := by
  induction ops with
  | nil => intro anh hinv _; exact hinv
  | cons op ops ih =>
    intro anh hinv hnw
    simp only [noWrap, Bool.and_eq_true] at hnw
    rw [run_cons]
    exact ih (step anh op).1 (step_lowest_le anh op hinv hnw.1) hnw.2

/-- The sequential `getNonceUpdatingCurrent` is the account read and gap check followed by
the critical section. -/
theorem getNonce_eq_locked (anh : addressNonceHandler) (proxy : Proxy) (account : Account)
    (hacc : proxy.GetAccount = .ok account) (hle : anh.lowestNonce ≤ account.Nonce) :
    getNonceUpdatingCurrent anh proxy =
      { anh := (lockedNonceUpdate anh account.Nonce).1,
        nonce := (lockedNonceUpdate anh account.Nonce).2, err := none } := by
  have : ¬ account.Nonce < anh.lowestNonce := by omega
  unfold getNonceUpdatingCurrent lockedNonceUpdate
  cases hset : anh.computedNonceWasSet <;> simp [hacc, this]

/-- The three outcomes of `fetchGasPriceIfRequired`. -/
theorem fetch_cases (anh : addressNonceHandler) (proxy : Proxy) (nonce : Nat) :
    ((nonce = (anh.nonceUntilGasIncreased + 1) % uint64Size ∨ anh.gasPrice = 0) →
      (fetchGasPriceIfRequired anh proxy nonce).calls = [.GetNetworkConfig] ∧
      (∀ cfg, proxy.GetNetworkConfig = .ok cfg →
        (fetchGasPriceIfRequired anh proxy nonce).anh.gasPrice = cfg.MinGasPrice) ∧
      (∀ e, proxy.GetNetworkConfig = .error e →
        (fetchGasPriceIfRequired anh proxy nonce).anh.gasPrice = 0)) ∧
    (¬ (nonce = (anh.nonceUntilGasIncreased + 1) % uint64Size ∨ anh.gasPrice = 0) →
      (fetchGasPriceIfRequired anh proxy nonce).calls = [] ∧
      (fetchGasPriceIfRequired anh proxy nonce).anh.gasPrice = anh.gasPrice) := by
  constructor
  · intro h
    have hc : (nonce == (anh.nonceUntilGasIncreased + 1) % uint64Size || anh.gasPrice == 0) =
        true := by
      simpa using h
    unfold fetchGasPriceIfRequired
    simp only [hc, if_true]
    cases hcfg : proxy.GetNetworkConfig with
    | error e => simp
    | ok cfg => simp
  · intro h
    have hc : (nonce == (anh.nonceUntilGasIncreased + 1) % uint64Size || anh.gasPrice == 0) =
        false := by
      simpa using h
    unfold fetchGasPriceIfRequired
    simp [hc]

/-- Result of `ApplyNonceAndGasPrice` when the duplicate-nonce rule lets the draft through
and the ledger read reports no gap. -/
theorem apply_ok_eq (anh : addressNonceHandler) (proxy : Proxy) (tx : FrontendTransaction)
    (account : Account)
    (hdup : ∀ oldTx, getOlderTxWithSameNonce anh tx = some oldTx →
      handleTxWithSameNonce anh oldTx tx = none)
    (hacc : proxy.GetAccount = .ok account) (hle : anh.lowestNonce ≤ account.Nonce) :
    ∃ anh1 n, anh1.gasPrice = anh.gasPrice ∧
      anh1.nonceUntilGasIncreased = anh.nonceUntilGasIncreased ∧
      ApplyNonceAndGasPrice anh proxy tx =
        { anh := (fetchGasPriceIfRequired anh1 proxy n).anh,
          tx := { tx with
                  Nonce := n,
                  GasPrice := max (fetchGasPriceIfRequired anh1 proxy n).anh.gasPrice
                    tx.GasPrice },
          err := none,
          calls := .GetAccount :: (fetchGasPriceIfRequired anh1 proxy n).calls } := by
  rw [apply_pass anh proxy tx hdup]
  cases hset : anh.computedNonceWasSet
  · rw [getNonce_first anh proxy account hacc hle hset]
    exact ⟨{ anh with computedNonce := account.Nonce, computedNonceWasSet := true },
      account.Nonce, rfl, rfl, rfl⟩
  · rw [getNonce_next anh proxy account hacc hle hset]
    exact ⟨{ anh with computedNonce := (anh.computedNonce + 1) % uint64Size },
      max ((anh.computedNonce + 1) % uint64Size) account.Nonce, rfl, rfl, rfl⟩

/-! ## Claims -/

/-- C3: when a transaction `oldTx` is recorded under the draft's nonce,
`ApplyNonceAndGasPrice` fails with `ErrTxWithSameNonceAndGasPriceAlreadySent` exactly when
neither `tx.GasPrice > oldTx.GasPrice` nor (`tx.GasPrice = oldTx.GasPrice` and
`oldTx.GasPrice` below the handler's gas price floor) holds; and when it fails this way the
handler state and the draft are unchanged and no request was made to the proxy. -/
theorem apply_sameNonce_rejected_iff (anh : addressNonceHandler) (proxy : Proxy)
    (tx oldTx : FrontendTransaction)
    (hold : mapGet anh.transactions tx.Nonce = some oldTx) :
    ((ApplyNonceAndGasPrice anh proxy tx).err =
        some .ErrTxWithSameNonceAndGasPriceAlreadySent ↔
      (¬ tx.GasPrice > oldTx.GasPrice ∧
        ¬ (tx.GasPrice = oldTx.GasPrice ∧ oldTx.GasPrice < anh.gasPrice))) ∧
    ((ApplyNonceAndGasPrice anh proxy tx).err =
        some .ErrTxWithSameNonceAndGasPriceAlreadySent →
      (ApplyNonceAndGasPrice anh proxy tx).anh = anh ∧
      (ApplyNonceAndGasPrice anh proxy tx).tx = tx ∧
      (ApplyNonceAndGasPrice anh proxy tx).calls = []) := by
  have hold1 : getOlderTxWithSameNonce anh tx = some oldTx := hold
  by_cases hrule : tx.GasPrice > oldTx.GasPrice ∨
      (tx.GasPrice = oldTx.GasPrice ∧ oldTx.GasPrice < anh.gasPrice)
  · -- the rule lets the draft through: the sentinel error cannot be returned
    have hpass : handleTxWithSameNonce anh oldTx tx = none := by
      unfold handleTxWithSameNonce
      rcases hrule with h | ⟨h1, h2⟩
      · simp [h]
      · simp [h1, h2]
    have hne : (ApplyNonceAndGasPrice anh proxy tx).err ≠
        some .ErrTxWithSameNonceAndGasPriceAlreadySent := by
      rw [apply_pass anh proxy tx (fun o ho => by rw [hold1] at ho; cases ho; exact hpass)]
      cases hacc : proxy.GetAccount with
      | error e => rw [getNonce_error anh proxy e hacc]; simp
      | ok account =>
        by_cases hgap : account.Nonce < anh.lowestNonce
        · rw [getNonce_gap anh proxy account hacc hgap]; simp
        · have hle : anh.lowestNonce ≤ account.Nonce := by omega
          cases hset : anh.computedNonceWasSet
          · rw [getNonce_first anh proxy account hacc hle hset]; simp
          · rw [getNonce_next anh proxy account hacc hle hset]; simp
    refine ⟨⟨fun h => absurd h hne, fun h => ?_⟩, fun h => absurd h hne⟩
    rcases hrule with h1 | h2
    · exact absurd h1 h.1
    · exact absurd h2 h.2
  · have hrej : handleTxWithSameNonce anh oldTx tx =
        some .ErrTxWithSameNonceAndGasPriceAlreadySent := by
      unfold handleTxWithSameNonce
      have h1 : ¬ oldTx.GasPrice < tx.GasPrice := fun h => hrule (Or.inl h)
      have h2 : ¬ (oldTx.GasPrice = tx.GasPrice ∧ oldTx.GasPrice < anh.gasPrice) :=
        fun h => hrule (Or.inr ⟨h.1.symm, h.2⟩)
      simp only [h1, if_false]
      split
      · rename_i h3
        simp at h3
        exact absurd h3 h2
      · rfl
    rw [apply_reject anh proxy tx oldTx _ hold1 hrej]
    refine ⟨⟨fun _ => ⟨fun h => hrule (Or.inl h), fun h => hrule (Or.inr h)⟩, fun _ => rfl⟩,
      fun _ => ⟨rfl, rfl, rfl⟩⟩

/-- Witness for C3: a record with gas price 5 is stored under nonce 3 and the draft
carries nonce 3 with the same gas price, the floor being 0. -/
theorem apply_sameNonce_rejected_iff_witness :
    mapGet [(3, draftTx 3 5)] (draftTx 3 5).Nonce = some (draftTx 3 5) ∧
    (ApplyNonceAndGasPrice handlerWithStoredTx
        (stubProxy 7 1) (draftTx 3 5)).err = some .ErrTxWithSameNonceAndGasPriceAlreadySent ∧
    (ApplyNonceAndGasPrice handlerWithStoredTx
        (stubProxy 7 1) (draftTx 3 5)).calls = [] :=
  ⟨by decide,
   ((apply_sameNonce_rejected_iff handlerWithStoredTx
      (stubProxy 7 1) (draftTx 3 5) (draftTx 3 5) (by decide)).1).2 (by decide),
   ((apply_sameNonce_rejected_iff handlerWithStoredTx
      (stubProxy 7 1) (draftTx 3 5) (draftTx 3 5) (by decide)).2
        (by decide)).2.2⟩

/-- For a draft that is not a record the map holds: when the account nonce read from the
ledger is strictly below `lowestNonce` and the duplicate-nonce rule does not reject the
draft, `ApplyNonceAndGasPrice` fails with `ErrGapNonce` and the handler with its stored
transactions is what it was before the call. -/
theorem apply_gap_fails_state_unchanged (anh : addressNonceHandler) (proxy : Proxy)
    (tx : FrontendTransaction) (account : Account)
    (hacc : proxy.GetAccount = .ok account)
    (hgap : account.Nonce < anh.lowestNonce)
    (hdup : ∀ oldTx, getOlderTxWithSameNonce anh tx = some oldTx →
      handleTxWithSameNonce anh oldTx tx = none) :
    (ApplyNonceAndGasPrice anh proxy tx).err = some .ErrGapNonce ∧
    (ApplyNonceAndGasPrice anh proxy tx).anh = anh := by
  rw [apply_pass anh proxy tx hdup, getNonce_gap anh proxy account hacc hgap]
  exact ⟨rfl, rfl⟩

/-- C8: after a successful `ApplyNonceAndGasPrice` the transaction's gas price is the
maximum of the handler's gas price floor as stored after the call and the gas price the
draft carried on entry; in particular it is not below the draft's own gas price. -/
theorem apply_gasPrice_is_max (anh : addressNonceHandler) (proxy : Proxy)
    (tx : FrontendTransaction)
    (hok : (ApplyNonceAndGasPrice anh proxy tx).err = none) :
    (ApplyNonceAndGasPrice anh proxy tx).tx.GasPrice =
      max (ApplyNonceAndGasPrice anh proxy tx).anh.gasPrice tx.GasPrice ∧
    tx.GasPrice ≤ (ApplyNonceAndGasPrice anh proxy tx).tx.GasPrice := by
  obtain ⟨account, -, -, -, -, -, hgp, -, -⟩ := apply_success_spec anh proxy tx hok
  refine ⟨hgp, ?_⟩
  rw [hgp]
  exact Nat.le_max_right _ _

/-- Witness for C8: floor 1000000000 fetched from the network, draft gas price 7. -/
theorem apply_gasPrice_is_max_witness :
    (ApplyNonceAndGasPrice freshHandler (stubProxy 10 1000000000) (draftTx 0 7)).err = none ∧
    (ApplyNonceAndGasPrice freshHandler (stubProxy 10 1000000000) (draftTx 0 7)).tx.GasPrice =
      1000000000 :=
  ⟨by decide,
   (apply_gasPrice_is_max freshHandler (stubProxy 10 1000000000) (draftTx 0 7)
      (by decide)).1.trans (by decide)⟩

/-- C6 (counterexample): the counter stands at 10 and the ledger reports 20.  The call
succeeds and writes nonce 20 to the transaction, but the stored `computedNonce` becomes 11,
which is not `max (10 + 1) 20`. -/
theorem apply_storedNonce_is_not_max :
    handlerAt10.computedNonceWasSet = true ∧
    handlerAt10.computedNonce = 10 ∧
    (ApplyNonceAndGasPrice handlerAt10 (stubProxy 20 5) (draftTx 0 0)).err = none ∧
    (ApplyNonceAndGasPrice handlerAt10 (stubProxy 20 5) (draftTx 0 0)).tx.Nonce = 20 ∧
    (ApplyNonceAndGasPrice handlerAt10 (stubProxy 20 5) (draftTx 0 0)).anh.computedNonce = 11 ∧
    (ApplyNonceAndGasPrice handlerAt10 (stubProxy 20 5) (draftTx 0 0)).anh.computedNonce ≠
      max (handlerAt10.computedNonce + 1) 20 := by
  decide

/-- C6 (amended): after a successful `ApplyNonceAndGasPrice` on a handler whose
`computedNonceWasSet` was already true, the stored `computedNonce` is the old value plus one
(wrapping at `2 ^ 64`), the nonce written to the transaction is the maximum of that stored
value and the ledger nonce, and the two coincide exactly when the ledger nonce is not above
the stored value. -/
theorem apply_storedNonce_incremented (anh : addressNonceHandler) (proxy : Proxy)
    (tx : FrontendTransaction) (account : Account)
    (hset : anh.computedNonceWasSet = true)
    (hacc : proxy.GetAccount = .ok account)
    (hok : (ApplyNonceAndGasPrice anh proxy tx).err = none) :
    (ApplyNonceAndGasPrice anh proxy tx).anh.computedNonce =
      (anh.computedNonce + 1) % uint64Size ∧
    (ApplyNonceAndGasPrice anh proxy tx).tx.Nonce =
      max ((anh.computedNonce + 1) % uint64Size) account.Nonce ∧
    ((ApplyNonceAndGasPrice anh proxy tx).anh.computedNonce =
        (ApplyNonceAndGasPrice anh proxy tx).tx.Nonce ↔
      account.Nonce ≤ (anh.computedNonce + 1) % uint64Size) := by
  obtain ⟨account1, hacc1, -, -, hc, hn, -, -, -⟩ := apply_success_spec anh proxy tx hok
  rw [hacc] at hacc1
  cases hacc1
  rw [hset] at hc hn
  simp only [if_true] at hc hn
  rw [hc, hn]
  refine ⟨rfl, rfl, ?_⟩
  constructor
  · intro h
    have := Nat.le_max_right ((anh.computedNonce + 1) % uint64Size) account.Nonce
    omega
  · intro h
    exact (Nat.max_eq_left h).symm

/-- Witness for C6 (amended): counter at 10, ledger nonce 20. -/
theorem apply_storedNonce_incremented_witness :
    (ApplyNonceAndGasPrice handlerAt10 (stubProxy 20 5) (draftTx 0 0)).anh.computedNonce =
      (10 + 1) % uint64Size ∧
    (ApplyNonceAndGasPrice handlerAt10 (stubProxy 20 5) (draftTx 0 0)).tx.Nonce =
      max ((10 + 1) % uint64Size) 20 :=
  ⟨(apply_storedNonce_incremented handlerAt10 (stubProxy 20 5) (draftTx 0 0)
      { Address := "drt1test", Nonce := 20, Balance := "0" } rfl rfl (by decide)).1,
   (apply_storedNonce_incremented handlerAt10 (stubProxy 20 5) (draftTx 0 0)
      { Address := "drt1test", Nonce := 20, Balance := "0" } rfl rfl (by decide)).2.1⟩

/-- C7 (counterexample): `computedNonceWasSet` is false, `lowestNonce` is 0 and the ledger
reports 7, but nonce 3 already holds a transaction with the draft's gas price.  The call is
rejected by the duplicate-nonce rule: nothing is assigned and the handler stays
un-bootstrapped. -/
theorem apply_first_call_can_be_rejected :
    handlerWithStoredTx.computedNonceWasSet = false ∧
    handlerWithStoredTx.lowestNonce ≤ 7 ∧
    (stubProxy 7 1).GetAccount = .ok { Address := "drt1test", Nonce := 7, Balance := "0" } ∧
    (ApplyNonceAndGasPrice handlerWithStoredTx (stubProxy 7 1) (draftTx 3 5)).err =
      some .ErrTxWithSameNonceAndGasPriceAlreadySent ∧
    (ApplyNonceAndGasPrice handlerWithStoredTx (stubProxy 7 1) (draftTx 3 5)).tx.Nonce = 3 ∧
    (ApplyNonceAndGasPrice handlerWithStoredTx (stubProxy 7 1)
      (draftTx 3 5)).anh.computedNonce = 0 ∧
    (ApplyNonceAndGasPrice handlerWithStoredTx (stubProxy 7 1)
      (draftTx 3 5)).anh.computedNonceWasSet = false :=
  ⟨by decide, by decide, rfl, by decide, by decide, by decide, by decide⟩

/-- C7 (amended): when `computedNonceWasSet` is false, the duplicate-nonce rule does not
reject the draft and the ledger reports an account nonce `L` that is not below
`lowestNonce`, `ApplyNonceAndGasPrice` succeeds, writes exactly `L` to the transaction, sets
`computedNonce` to `L` and sets `computedNonceWasSet`, whatever `computedNonce` was. -/
theorem apply_first_call_bootstraps (anh : addressNonceHandler) (proxy : Proxy)
    (tx : FrontendTransaction) (account : Account)
    (hset : anh.computedNonceWasSet = false)
    (hacc : proxy.GetAccount = .ok account)
    (hle : anh.lowestNonce ≤ account.Nonce)
    (hdup : ∀ oldTx, getOlderTxWithSameNonce anh tx = some oldTx →
      handleTxWithSameNonce anh oldTx tx = none) :
    (ApplyNonceAndGasPrice anh proxy tx).err = none ∧
    (ApplyNonceAndGasPrice anh proxy tx).tx.Nonce = account.Nonce ∧
    (ApplyNonceAndGasPrice anh proxy tx).anh.computedNonce = account.Nonce ∧
    (ApplyNonceAndGasPrice anh proxy tx).anh.computedNonceWasSet = true := by
  have hok := apply_succeeds anh proxy tx account hdup hacc hle
  obtain ⟨account1, hacc1, -, hflag, hc, hn, -, -, -⟩ := apply_success_spec anh proxy tx hok
  rw [hacc] at hacc1
  cases hacc1
  rw [hset] at hc hn
  exact ⟨hok, hn, hc, hflag⟩

/-- Witness for C7 (amended): a handler that was reset while its counter stood at 10
re-bootstraps at ledger nonce 4. -/
theorem apply_first_call_bootstraps_witness :
    (ApplyNonceAndGasPrice (DropTransactions handlerAt10) (stubProxy 4 5) (draftTx 0 0)).err =
      none ∧
    (ApplyNonceAndGasPrice (DropTransactions handlerAt10) (stubProxy 4 5)
      (draftTx 0 0)).tx.Nonce = 4 ∧
    (ApplyNonceAndGasPrice (DropTransactions handlerAt10) (stubProxy 4 5)
      (draftTx 0 0)).anh.computedNonce = 4 ∧
    (ApplyNonceAndGasPrice (DropTransactions handlerAt10) (stubProxy 4 5)
      (draftTx 0 0)).anh.computedNonceWasSet = true :=
  apply_first_call_bootstraps (DropTransactions handlerAt10) (stubProxy 4 5) (draftTx 0 0)
    { Address := "drt1test", Nonce := 4, Balance := "0" } rfl rfl (by decide)
    (by intro oldTx h; cases h)

/-- For a draft that is not a record the map holds: on a fresh handler with ledger nonce
10 the call succeeds and assigns nonce 10, yet nothing is stored under 10 afterwards. -/
theorem apply_does_not_record :
    (ApplyNonceAndGasPrice freshHandler (stubProxy 10 5) (draftTx 0 0)).err = none ∧
    (ApplyNonceAndGasPrice freshHandler (stubProxy 10 5) (draftTx 0 0)).tx.Nonce = 10 ∧
    mapGet (ApplyNonceAndGasPrice freshHandler (stubProxy 10 5)
      (draftTx 0 0)).anh.transactions 10 = none := by
  decide

/-- For a draft that is not a record the map holds: a successful `ApplyNonceAndGasPrice`
leaves the stored transactions as they were; the resulting transaction is stored under its
nonce by a later `SendTransaction` of it (whatever the proxy answers to the send). -/
theorem apply_then_send_records (anh : addressNonceHandler) (proxy sendProxy : Proxy)
    (tx : FrontendTransaction)
    (hok : (ApplyNonceAndGasPrice anh proxy tx).err = none) :
    (ApplyNonceAndGasPrice anh proxy tx).anh.transactions = anh.transactions ∧
    mapGet (SendTransaction (ApplyNonceAndGasPrice anh proxy tx).anh sendProxy
      (ApplyNonceAndGasPrice anh proxy tx).tx).anh.transactions
      (ApplyNonceAndGasPrice anh proxy tx).tx.Nonce =
        some (ApplyNonceAndGasPrice anh proxy tx).tx := by
  obtain ⟨account1, -, -, -, -, -, -, -, htx⟩ := apply_success_spec anh proxy tx hok
  refine ⟨htx, ?_⟩
  rw [send_transactions]
  exact mapGet_mapSet_same _ _ _

/-- C4 (counterexample): nonces 10, 11 and 12 were assigned and the transaction with nonce
10 (gas price 5) was sent.  A draft carrying nonce 10 with gas price 6 is accepted, but it
leaves the call with nonce 13, and after it is sent the record under 10 is still the old
transaction while the new one sits under 13. -/
theorem apply_higher_gas_does_not_keep_nonce :
    mapGet handlerAfterThree.transactions (draftTx 10 6).Nonce = some (draftTx 10 5) ∧
    (draftTx 10 5).GasPrice < (draftTx 10 6).GasPrice ∧
    (ApplyNonceAndGasPrice handlerAfterThree (stubProxy 10 5) (draftTx 10 6)).err = none ∧
    (ApplyNonceAndGasPrice handlerAfterThree (stubProxy 10 5) (draftTx 10 6)).tx.Nonce = 13 ∧
    mapGet (SendTransaction
      (ApplyNonceAndGasPrice handlerAfterThree (stubProxy 10 5) (draftTx 10 6)).anh
      (stubProxy 10 5)
      (ApplyNonceAndGasPrice handlerAfterThree (stubProxy 10 5)
        (draftTx 10 6)).tx).anh.transactions 10 = some (draftTx 10 5) ∧
    mapGet (SendTransaction
      (ApplyNonceAndGasPrice handlerAfterThree (stubProxy 10 5) (draftTx 10 6)).anh
      (stubProxy 10 5)
      (ApplyNonceAndGasPrice handlerAfterThree (stubProxy 10 5)
        (draftTx 10 6)).tx).anh.transactions 13 = some (draftTx 13 6) := by
  decide

/-- C4 (amended): when a transaction is stored under the draft's nonce `n` and the draft
has a strictly higher gas price (ledger read succeeding without gap), the call succeeds and
the resulting transaction carries the nonce computed by `getNonceUpdatingCurrent` (the
ledger nonce when `computedNonceWasSet` is false, otherwise the maximum of the incremented
counter and the ledger nonce), not necessarily `n`.  After the new transaction is sent it
is the record stored under that computed nonce; when the computed nonce differs from `n`
the prior record stays under `n`. -/
theorem apply_higher_gas_gets_computed_nonce (anh : addressNonceHandler)
    (proxy sendProxy : Proxy) (tx oldTx : FrontendTransaction) (account : Account)
    (hold : mapGet anh.transactions tx.Nonce = some oldTx)
    (hgas : oldTx.GasPrice < tx.GasPrice)
    (hacc : proxy.GetAccount = .ok account)
    (hle : anh.lowestNonce ≤ account.Nonce) :
    (ApplyNonceAndGasPrice anh proxy tx).err = none ∧
    (ApplyNonceAndGasPrice anh proxy tx).tx.Nonce =
      (if anh.computedNonceWasSet then max ((anh.computedNonce + 1) % uint64Size) account.Nonce
       else account.Nonce) ∧
    mapGet (SendTransaction (ApplyNonceAndGasPrice anh proxy tx).anh sendProxy
      (ApplyNonceAndGasPrice anh proxy tx).tx).anh.transactions
      (ApplyNonceAndGasPrice anh proxy tx).tx.Nonce =
        some (ApplyNonceAndGasPrice anh proxy tx).tx ∧
    ((ApplyNonceAndGasPrice anh proxy tx).tx.Nonce ≠ tx.Nonce →
      mapGet (SendTransaction (ApplyNonceAndGasPrice anh proxy tx).anh sendProxy
        (ApplyNonceAndGasPrice anh proxy tx).tx).anh.transactions tx.Nonce = some oldTx) := by
  have hdup : ∀ o, getOlderTxWithSameNonce anh tx = some o →
      handleTxWithSameNonce anh o tx = none := by
    intro o ho
    have : o = oldTx := by
      unfold getOlderTxWithSameNonce at ho
      rw [hold] at ho
      cases ho
      rfl
    subst this
    simp [handleTxWithSameNonce, hgas]
  have hok := apply_succeeds anh proxy tx account hdup hacc hle
  obtain ⟨account1, hacc1, -, -, -, hn, -, -, htx⟩ := apply_success_spec anh proxy tx hok
  rw [hacc] at hacc1
  cases hacc1
  refine ⟨hok, hn, ?_, ?_⟩
  · rw [send_transactions]
    exact mapGet_mapSet_same _ _ _
  · intro hne
    rw [send_transactions, mapGet_mapSet_other _ _ _ _ (Ne.symm hne), htx]
    exact hold

/-- Witness for C4 (amended): the draft re-uses nonce 10 with gas price 6 after nonces 10
to 12 were assigned; it gets nonce 13. -/
theorem apply_higher_gas_gets_computed_nonce_witness :
    (ApplyNonceAndGasPrice handlerAfterThree (stubProxy 10 5) (draftTx 10 6)).err = none ∧
    (ApplyNonceAndGasPrice handlerAfterThree (stubProxy 10 5) (draftTx 10 6)).tx.Nonce =
      (if handlerAfterThree.computedNonceWasSet then
        max ((handlerAfterThree.computedNonce + 1) % uint64Size) 10
       else 10) :=
  ⟨(apply_higher_gas_gets_computed_nonce handlerAfterThree (stubProxy 10 5) (stubProxy 10 5)
      (draftTx 10 6) (draftTx 10 5) { Address := "drt1test", Nonce := 10, Balance := "0" }
      (by decide) (by decide) rfl (by decide)).1,
   (apply_higher_gas_gets_computed_nonce handlerAfterThree (stubProxy 10 5) (stubProxy 10 5)
      (draftTx 10 6) (draftTx 10 5) { Address := "drt1test", Nonce := 10, Balance := "0" }
      (by decide) (by decide) rfl (by decide)).2.1⟩

/-- C10: when the ledger reports an account nonce `L` different from `computedNonce`,
`ReSendTransactionsIfRequired` leaves in the stored map exactly the previously stored
entries whose nonce is strictly greater than `L` (all entries with nonce at most `L` are
evicted, nothing is added or altered), and it hands exactly the retained transactions to
the proxy's `SendTransactions`, making no such request when nothing is retained. -/
theorem resend_retains_and_resends_pending (anh : addressNonceHandler) (proxy : Proxy)
    (account : Account)
    (hacc : proxy.GetAccount = .ok account)
    (hne : account.Nonce ≠ anh.computedNonce) :
    (ReSendTransactionsIfRequired anh proxy).anh.transactions =
      anh.transactions.filter (fun p => decide (account.Nonce < p.1)) ∧
    (ReSendTransactionsIfRequired anh proxy).calls =
      (if (anh.transactions.filter (fun p => decide (account.Nonce < p.1))).isEmpty then
        [ProxyCall.GetAccount]
       else
        [ProxyCall.GetAccount,
         ProxyCall.SendTransactions
          ((anh.transactions.filter (fun p => decide (account.Nonce < p.1))).map Prod.snd)]) := by
  obtain ⟨h1, h2, -⟩ := sweep_self account.Nonce anh.computedNonce anh.transactions
  have hb : (account.Nonce == anh.computedNonce) = false := by simpa using hne
  unfold ReSendTransactionsIfRequired
  simp only [hacc, hb, h1, h2]
  cases hf : anh.transactions.filter (fun p => decide (account.Nonce < p.1)) with
  | nil => simp
  | cons p rest =>
    simp only [List.map_cons, List.length_cons, List.isEmpty_cons]
    cases proxy.SendTransactions (p.2 :: rest.map Prod.snd) with
    | error e => simp
    | ok hashes =>
      cases anh.address.AddressAsBech32String <;> simp

/-- Witness for C10: stored nonces 10 to 14 and ledger nonce 12 retain and resend exactly
the transactions with nonces 13 and 14. -/
theorem resend_retains_and_resends_pending_witness :
    (ReSendTransactionsIfRequired handlerTenToFourteen (stubProxy 12 5)).anh.transactions =
      [(13, draftTx 13 5), (14, draftTx 14 5)] ∧
    (ReSendTransactionsIfRequired handlerTenToFourteen (stubProxy 12 5)).calls =
      [ProxyCall.GetAccount, ProxyCall.SendTransactions [draftTx 13 5, draftTx 14 5]] :=
  ⟨(resend_retains_and_resends_pending handlerTenToFourteen (stubProxy 12 5)
      { Address := "drt1test", Nonce := 12, Balance := "0" } rfl (by decide)).1.trans
        (by decide),
   (resend_retains_and_resends_pending handlerTenToFourteen (stubProxy 12 5)
      { Address := "drt1test", Nonce := 12, Balance := "0" } rfl (by decide)).2.trans
        (by decide)⟩

/-- C1 (counterexample): three successful assignments on a fresh handler, no
`DropTransactions`; the ledger reports 10, then 20, then 20 again.  The nonces written are
10, 20, 20: a gap and a duplicate. -/
theorem run_nonces_not_consecutive :
    opsLedgerJumps.all (fun op => !op.isDrop) = true ∧
    (run freshHandler opsLedgerJumps).2 = [10, 20, 20] ∧
    ¬ List.Chain' (fun a b => b = a + 1) (run freshHandler opsLedgerJumps).2 ∧
    ¬ List.Pairwise (fun a b => a < b) (run freshHandler opsLedgerJumps).2 := by
  have h : (run freshHandler opsLedgerJumps).2 = [10, 20, 20] := by decide
  refine ⟨by decide, h, ?_, ?_⟩
  · rw [h]
    simp
  · rw [h]
    simp

/-- C1 (amended): in every run of handler calls without `DropTransactions`, if each
successful `ApplyNonceAndGasPrice` made while `computedNonceWasSet` is already true reads
an account nonce that is at most `computedNonce + 1` (the ledger is not ahead of the
handler's counter, and the counter does not wrap), then the nonces written by the
successful `ApplyNonceAndGasPrice` calls are consecutive (each is the previous one plus 1)
and strictly increasing. -/
theorem run_nonces_consecutive (anh : addressNonceHandler) (ops : List Op)
    (hnd : ops.all (fun op => !op.isDrop) = true)
    (hled : ledgerNotAhead anh ops = true) :
    List.Chain' (fun a b => b = a + 1) (run anh ops).2 ∧
    List.Pairwise (fun a b => a < b) (run anh ops).2 := by
  have hchain : List.Chain' (fun a b => b = a + 1) (run anh ops).2 := by
    induction ops generalizing anh with
    | nil => exact List.chain'_nil
    | cons op ops ih =>
      simp only [List.all_cons, Bool.and_eq_true, Bool.not_eq_true'] at hnd
      simp only [ledgerNotAhead, Bool.and_eq_true] at hled
      rw [run_cons]
      cases hstep : (step anh op).2 with
      | none => exact ih (step anh op).1 hnd.2 hled.2
      | some n =>
        obtain ⟨proxy, tx, hop, hok, hn, hst⟩ := step_some_inv anh op n hstep
        obtain ⟨account, hacc, -, hflag, hc, hnonce, -, -, -⟩ :=
          apply_success_spec anh proxy tx hok
        have hcn : (ApplyNonceAndGasPrice anh proxy tx).anh.computedNonce = n := by
          cases hset : anh.computedNonceWasSet with
          | false =>
            rw [hset] at hc hnonce
            simp only [Bool.false_eq_true, if_false] at hc hnonce
            rw [hc, ← hn, hnonce]
          | true =>
            have hcall := hled.1
            rw [hop] at hcall
            simp only [callLedgerNotAhead, hacc, hset, hok, Bool.not_true, Option.isSome_none,
              Bool.or_self, Bool.false_or, Bool.and_eq_true, decide_eq_true_eq] at hcall
            rw [hset] at hc hnonce
            simp only [if_true] at hc hnonce
            rw [Nat.mod_eq_of_lt hcall.2] at hc hnonce
            rw [hc, ← hn, hnonce]
            exact (Nat.max_eq_left hcall.1).symm
        have hrest := run_chain_of_set ops (step anh op).1 hnd.2 hled.2
          (by rw [hst]; exact hflag)
        rw [hst, hcn] at hrest
        rw [hst]
        exact hrest
  refine ⟨hchain, ?_⟩
  have hlt : List.Chain' (fun a b => a < b) (run anh ops).2 :=
    hchain.imp (fun a b h => by omega)
  exact List.chain'_iff_pairwise.mp hlt

/-- Witness for C1 (amended): five assignments with the ledger at 10 throughout and two
sends in between give 10, 11, 12, 13, 14. -/
theorem run_nonces_consecutive_witness :
    (run freshHandler opsFiveAtTen).2 = [10, 11, 12, 13, 14] ∧
    List.Chain' (fun a b => b = a + 1) (run freshHandler opsFiveAtTen).2 :=
  ⟨by decide,
   (run_nonces_consecutive freshHandler opsFiveAtTen (by decide) (by decide)).1⟩

/-- C2: starting from a freshly constructed handler, with the ledger reporting the same
account nonce `L` at every read and no `DropTransactions`, the successful
`ApplyNonceAndGasPrice` calls of a run assign `L`, `L + 1`, ..., `L + N - 1` in this order
(`N` being their number, with `L + N` below `2 ^ 64`); and in a run made of
`ApplyNonceAndGasPrice` calls only, every call succeeds. -/
theorem fresh_run_assigns_from_ledger_nonce (proxy : Proxy) (address : AddressHandler)
    (anh : addressNonceHandler) (ops : List Op) (L : Nat)
    (hnew : NewAddressNonceHandler (some proxy) (some address) = .ok anh)
    (hnd : ops.all (fun op => !op.isDrop) = true)
    (hrep : ops.all (ledgerReports L) = true)
    (hbound : L + (run anh ops).2.length < uint64Size) :
    (run anh ops).2 = List.range' L (run anh ops).2.length ∧
    (ops.all Op.isApply = true → (run anh ops).2.length = ops.length) := by
  simp only [NewAddressNonceHandler, Except.ok.injEq] at hnew
  subst hnew
  refine ⟨run_constant_of_unset L ops _ hnd hrep rfl hbound, fun happ => ?_⟩
  exact run_apply_only_all_succeed L ops _ happ hrep rfl (Nat.zero_le L)

/-- Witness for C2: ledger nonce 10 and five assignments give 10, 11, 12, 13, 14. -/
theorem fresh_run_assigns_from_ledger_nonce_witness :
    (run freshHandler (opsApplyOnly 10 5)).2 = [10, 11, 12, 13, 14] :=
  ((fresh_run_assigns_from_ledger_nonce (stubProxy 10 5) freshHandler.address freshHandler
      (opsApplyOnly 10 5) 10 rfl (by decide) (by decide) (by decide)).1).trans (by decide)

/-- C11 (counterexample): the counter stands at 11 while the only stored transaction has
nonce 20 (the ledger ran ahead of the counter when it was assigned).  With the ledger
reporting 15 the transaction is retained, so the minimum pending nonce is 20, but
`lowestNonce` becomes 11. -/
theorem resend_lowestNonce_is_not_min_pending :
    handlerLedgerAhead.computedNonce = 11 ∧
    handlerLedgerAhead.transactions = [(20, draftTx 20 5)] ∧
    (ReSendTransactionsIfRequired handlerLedgerAhead (stubProxy 15 5)).anh.transactions =
      [(20, draftTx 20 5)] ∧
    (ReSendTransactionsIfRequired handlerLedgerAhead (stubProxy 15 5)).anh.lowestNonce = 11 ∧
    (ReSendTransactionsIfRequired handlerLedgerAhead (stubProxy 15 5)).anh.lowestNonce ≠ 20 := by
  decide

/-- C11 (amended): when the ledger nonce `L` differs from `computedNonce`,
`ReSendTransactionsIfRequired` sets `lowestNonce` to the minimum of `computedNonce` and the
nonces of the retained transactions (those stored above `L`): the new `lowestNonce` is at
most `computedNonce`, at most every retained nonce, and equal to `computedNonce` or to a
retained nonce.  Hence it is the minimum retained nonce as soon as some retained nonce is
not above `computedNonce`, and it is `computedNonce` when every retained nonce is above. -/
theorem resend_lowestNonce_min_with_counter (anh : addressNonceHandler) (proxy : Proxy)
    (account : Account)
    (hacc : proxy.GetAccount = .ok account)
    (hne : account.Nonce ≠ anh.computedNonce) :
    (ReSendTransactionsIfRequired anh proxy).anh.lowestNonce ≤ anh.computedNonce ∧
    (∀ p ∈ anh.transactions, account.Nonce < p.1 →
      (ReSendTransactionsIfRequired anh proxy).anh.lowestNonce ≤ p.1) ∧
    ((ReSendTransactionsIfRequired anh proxy).anh.lowestNonce = anh.computedNonce ∨
      ∃ p ∈ anh.transactions, account.Nonce < p.1 ∧
        p.1 = (ReSendTransactionsIfRequired anh proxy).anh.lowestNonce) ∧
    ((∃ p ∈ anh.transactions, account.Nonce < p.1 ∧ p.1 ≤ anh.computedNonce) →
      ∃ p ∈ anh.transactions, account.Nonce < p.1 ∧
        p.1 = (ReSendTransactionsIfRequired anh proxy).anh.lowestNonce) ∧
    ((∀ p ∈ anh.transactions, account.Nonce < p.1 → anh.computedNonce < p.1) →
      (ReSendTransactionsIfRequired anh proxy).anh.lowestNonce = anh.computedNonce) := by
  rw [resend_anh_of_ne anh proxy account hacc hne]
  simp only
  obtain ⟨h1, h2, h3⟩ := foldl_min_spec
    (anh.transactions.filter (fun p => decide (account.Nonce < p.1))) anh.computedNonce
  have h2' : ∀ p ∈ anh.transactions, account.Nonce < p.1 →
      (anh.transactions.filter (fun p => decide (account.Nonce < p.1))).foldl
        (fun a e => min e.1 a) anh.computedNonce ≤ p.1 := by
    intro p hp hlt
    exact h2 p (List.mem_filter.mpr ⟨hp, by simpa using hlt⟩)
  have h3' : (anh.transactions.filter (fun p => decide (account.Nonce < p.1))).foldl
        (fun a e => min e.1 a) anh.computedNonce = anh.computedNonce ∨
      ∃ p ∈ anh.transactions, account.Nonce < p.1 ∧
        p.1 = (anh.transactions.filter (fun p => decide (account.Nonce < p.1))).foldl
          (fun a e => min e.1 a) anh.computedNonce := by
    rcases h3 with h3 | ⟨p, hp, hpe⟩
    · exact Or.inl h3
    · obtain ⟨hp1, hp2⟩ := List.mem_filter.mp hp
      exact Or.inr ⟨p, hp1, by simpa using hp2, hpe⟩
  refine ⟨h1, h2', h3', ?_, ?_⟩
  · rintro ⟨p, hp, hlt, hle⟩
    rcases h3' with h3c | h3p
    · have := h2' p hp hlt
      exact ⟨p, hp, hlt, by omega⟩
    · exact h3p
  · intro hall
    rcases h3' with h3c | ⟨p, hp, hlt, hpe⟩
    · exact h3c
    · have := hall p hp hlt
      omega

/-- Witness for C11 (amended): stored nonces 10 to 14, counter 14, ledger nonce 12: the
new `lowestNonce` is 13. -/
theorem resend_lowestNonce_min_with_counter_witness :
    (ReSendTransactionsIfRequired handlerTenToFourteen (stubProxy 12 5)).anh.lowestNonce = 13 ∧
    (ReSendTransactionsIfRequired handlerTenToFourteen (stubProxy 12 5)).anh.lowestNonce ≤
      handlerTenToFourteen.computedNonce :=
  ⟨by decide,
   (resend_lowestNonce_min_with_counter handlerTenToFourteen (stubProxy 12 5)
      { Address := "drt1test", Nonce := 12, Balance := "0" } rfl (by decide)).1⟩

/-- C12: when the ledger nonce equals `computedNonce`, `ReSendTransactionsIfRequired`
empties the stored transactions, sets `lowestNonce` to `computedNonce`, returns no error,
asks the proxy for the account only (no `SendTransactions`), and leaves `computedNonce`,
`computedNonceWasSet`, `gasPrice` and `nonceUntilGasIncreased` as they were. -/
theorem resend_all_consumed (anh : addressNonceHandler) (proxy : Proxy) (account : Account)
    (hacc : proxy.GetAccount = .ok account)
    (heq : account.Nonce = anh.computedNonce) :
    (ReSendTransactionsIfRequired anh proxy).anh.transactions = [] ∧
    (ReSendTransactionsIfRequired anh proxy).anh.lowestNonce = anh.computedNonce ∧
    (ReSendTransactionsIfRequired anh proxy).err = none ∧
    (ReSendTransactionsIfRequired anh proxy).calls = [ProxyCall.GetAccount] ∧
    (ReSendTransactionsIfRequired anh proxy).anh.computedNonce = anh.computedNonce ∧
    (ReSendTransactionsIfRequired anh proxy).anh.computedNonceWasSet =
      anh.computedNonceWasSet ∧
    (ReSendTransactionsIfRequired anh proxy).anh.gasPrice = anh.gasPrice ∧
    (ReSendTransactionsIfRequired anh proxy).anh.nonceUntilGasIncreased =
      anh.nonceUntilGasIncreased := by
  rw [resend_anh_of_eq anh proxy account hacc heq]
  exact ⟨rfl, rfl, rfl, rfl, rfl, rfl, rfl, rfl⟩

/-- Witness for C12: stored nonces 10 to 14, counter 14, ledger nonce 14. -/
theorem resend_all_consumed_witness :
    (ReSendTransactionsIfRequired handlerTenToFourteen (stubProxy 14 5)).anh.transactions =
      [] ∧
    (ReSendTransactionsIfRequired handlerTenToFourteen (stubProxy 14 5)).anh.lowestNonce =
      handlerTenToFourteen.computedNonce :=
  ⟨(resend_all_consumed handlerTenToFourteen (stubProxy 14 5)
      { Address := "drt1test", Nonce := 14, Balance := "0" } rfl (by decide)).1,
   (resend_all_consumed handlerTenToFourteen (stubProxy 14 5)
      { Address := "drt1test", Nonce := 14, Balance := "0" } rfl (by decide)).2.1⟩

/-- C13: running `ReSendTransactionsIfRequired` twice in a row, the ledger reporting the
same account nonce both times (whatever the proxy answers to the resends), leaves after the
second run exactly the handler state reached after the first run. -/
theorem resend_idempotent (anh : addressNonceHandler) (proxy1 proxy2 : Proxy)
    (account1 account2 : Account)
    (hacc1 : proxy1.GetAccount = .ok account1)
    (hacc2 : proxy2.GetAccount = .ok account2)
    (hsame : account1.Nonce = account2.Nonce) :
    (ReSendTransactionsIfRequired (ReSendTransactionsIfRequired anh proxy1).anh proxy2).anh =
      (ReSendTransactionsIfRequired anh proxy1).anh := by
  by_cases heq : account1.Nonce = anh.computedNonce
  · rw [resend_anh_of_eq anh proxy1 account1 hacc1 heq]
    rw [resend_anh_of_eq _ proxy2 account2 hacc2 (by rw [← hsame]; exact heq)]
  · rw [resend_anh_of_ne anh proxy1 account1 hacc1 heq]
    rw [resend_anh_of_ne _ proxy2 account2 hacc2 (by rw [← hsame]; exact heq)]
    simp only [← hsame, List.filter_filter, Bool.and_self]

/-- Witness for C13: stored nonces 10 to 14 and ledger nonce 12, twice. -/
theorem resend_idempotent_witness :
    (ReSendTransactionsIfRequired
      (ReSendTransactionsIfRequired handlerTenToFourteen (stubProxy 12 5)).anh
      (stubProxy 12 5)).anh =
      (ReSendTransactionsIfRequired handlerTenToFourteen (stubProxy 12 5)).anh :=
  resend_idempotent handlerTenToFourteen (stubProxy 12 5) (stubProxy 12 5)
    { Address := "drt1test", Nonce := 12, Balance := "0" }
    { Address := "drt1test", Nonce := 12, Balance := "0" } rfl rfl rfl

/-- C14 (counterexample): a run from a fresh handler in which every ledger nonce is below
`2 ^ 64 - 1`.  The sweep sets `lowestNonce` to 5, the drop makes the next assignment take
the ledger nonce `2 ^ 64 - 2`, and two more assignments wrap the counter to 0, so the run
ends with `lowestNonce` 5 above `computedNonce` 0. -/
theorem lowestNonce_above_counter_after_wrap :
    NewAddressNonceHandler (some (stubProxy 5 5)) (some freshHandler.address) =
      .ok freshHandler ∧
    opsWrapAfterDrop.all (ledgerBelow (uint64Size - 1)) = true ∧
    (run freshHandler opsWrapAfterDrop).2 =
      [5, 18446744073709551614, 18446744073709551615, 18446744073709551614] ∧
    (run freshHandler opsWrapAfterDrop).1.lowestNonce = 5 ∧
    (run freshHandler opsWrapAfterDrop).1.computedNonce = 0 ∧
    ¬ (run freshHandler opsWrapAfterDrop).1.lowestNonce ≤
      (run freshHandler opsWrapAfterDrop).1.computedNonce :=
  ⟨rfl, by decide, by decide, by decide, by decide, by decide⟩

/-- C14 (amended): in every state reached from a freshly constructed handler by a sequence
of `ApplyNonceAndGasPrice`, `SendTransaction`, `ReSendTransactionsIfRequired` and
`DropTransactions` calls, whatever the proxy answers, `lowestNonce ≤ computedNonce` holds,
provided the counter does not wrap during the run (`computedNonce` is below `2 ^ 64 - 1`
whenever a successful assignment increments it). -/
theorem reachable_lowestNonce_le_computedNonce (proxy : Proxy) (address : AddressHandler)
    (anh : addressNonceHandler) (ops : List Op)
    (hnew : NewAddressNonceHandler (some proxy) (some address) = .ok anh)
    (hnw : noWrap anh ops = true) :
    (run anh ops).1.lowestNonce ≤ (run anh ops).1.computedNonce := by
  simp only [NewAddressNonceHandler, Except.ok.injEq] at hnew
  subst hnew
  exact run_lowest_le ops _ (Nat.le_refl 0) hnw

/-- Witness for C14 (amended): a run through all four operations with a moving ledger ends with
`lowestNonce` 12 and `computedNonce` 12. -/
theorem reachable_lowestNonce_le_computedNonce_witness :
    noWrap freshHandler opsMixed = true ∧
    (run freshHandler opsMixed).1.lowestNonce = 12 ∧
    (run freshHandler opsMixed).1.computedNonce = 12 ∧
    (run freshHandler opsMixed).1.lowestNonce ≤ (run freshHandler opsMixed).1.computedNonce :=
  ⟨by decide, by decide, by decide,
   reachable_lowestNonce_le_computedNonce (stubProxy 10 5) freshHandler.address freshHandler
     opsMixed rfl (by decide)⟩

/-- C15 (counterexample): nonce 3 holds a transaction with gas price 5 and the floor is 9.
`SendTransaction` of a transaction with nonce 3 and gas price 4 returns no error, forwards
the transaction to the proxy and replaces the stored record. -/
theorem send_replaces_with_lower_gas_price :
    mapGet handlerStoredBelowFloor.transactions (draftTx 3 4).Nonce = some (draftTx 3 5) ∧
    (draftTx 3 4).GasPrice < (draftTx 3 5).GasPrice ∧
    (draftTx 3 4).GasPrice < handlerStoredBelowFloor.gasPrice ∧
    (SendTransaction handlerStoredBelowFloor (stubProxy 0 9) (draftTx 3 4)).err = none ∧
    (SendTransaction handlerStoredBelowFloor (stubProxy 0 9) (draftTx 3 4)).calls =
      [ProxyCall.SendTransaction (draftTx 3 4)] ∧
    mapGet (SendTransaction handlerStoredBelowFloor (stubProxy 0 9)
      (draftTx 3 4)).anh.transactions 3 = some (draftTx 3 4) := by
  decide

/-- C15 (amended): `SendTransaction` stores the transaction under its nonce, replacing
whatever record was there, whatever the gas prices; it always forwards the transaction to
the proxy and returns the proxy's answer.  It changes nothing else in the handler, and
records under other nonces are kept. -/
theorem send_always_replaces_and_forwards (anh : addressNonceHandler) (proxy : Proxy)
    (tx : FrontendTransaction) :
    mapGet (SendTransaction anh proxy tx).anh.transactions tx.Nonce = some tx ∧
    (∀ n, n ≠ tx.Nonce →
      mapGet (SendTransaction anh proxy tx).anh.transactions n = mapGet anh.transactions n) ∧
    (SendTransaction anh proxy tx).calls = [ProxyCall.SendTransaction tx] ∧
    (∀ h, proxy.SendTransaction tx = .ok h →
      (SendTransaction anh proxy tx).err = none ∧ (SendTransaction anh proxy tx).hash = h) ∧
    (∀ e, proxy.SendTransaction tx = .error e →
      (SendTransaction anh proxy tx).err = some (.external e)) ∧
    (SendTransaction anh proxy tx).anh =
      { anh with transactions := (SendTransaction anh proxy tx).anh.transactions } := by
  refine ⟨?_, ?_, ?_, ?_, ?_, ?_⟩
  · rw [send_transactions]
    exact mapGet_mapSet_same _ _ _
  · intro n hn
    rw [send_transactions]
    exact mapGet_mapSet_other _ _ _ _ hn
  · unfold SendTransaction
    cases proxy.SendTransaction tx <;> rfl
  · intro h hh
    unfold SendTransaction
    rw [hh]
    exact ⟨rfl, rfl⟩
  · intro e he
    unfold SendTransaction
    rw [he]
  · rw [send_frame]

/-- Witness for C15 (amended): the stored record with gas price 5 is replaced by the one
with gas price 4. -/
theorem send_always_replaces_and_forwards_witness :
    mapGet (SendTransaction handlerStoredBelowFloor (stubProxy 0 9)
      (draftTx 3 4)).anh.transactions (draftTx 3 4).Nonce = some (draftTx 3 4) :=
  (send_always_replaces_and_forwards handlerStoredBelowFloor (stubProxy 0 9) (draftTx 3 4)).1

/-- C16 (counterexample): after an assignment on a network whose minimum gas price is the
largest `uint64` the floor is `2 ^ 64 - 1`; `DropTransactions` then leaves the floor at 0,
not at the old value plus 1. -/
theorem drop_gasPrice_wraps :
    handlerMaxGasPrice.gasPrice = 18446744073709551615 ∧
    (DropTransactions handlerMaxGasPrice).gasPrice = 0 ∧
    (DropTransactions handlerMaxGasPrice).gasPrice ≠ handlerMaxGasPrice.gasPrice + 1 := by
  decide

/-- C16 (amended): `DropTransactions` empties the stored transactions, sets
`computedNonceWasSet` to false, increases `gasPrice` by 1 in `uint64` arithmetic (the new
value is the old value plus 1 modulo `2 ^ 64`: the old value plus 1 whenever that fits in a
`uint64`, and 0 when the old value is `2 ^ 64 - 1`), sets `nonceUntilGasIncreased` to the
current `computedNonce`, and leaves `computedNonce`, `lowestNonce` and the address
unchanged. -/
theorem drop_effect (anh : addressNonceHandler) :
    (DropTransactions anh).transactions = [] ∧
    (DropTransactions anh).computedNonceWasSet = false ∧
    (DropTransactions anh).gasPrice = (anh.gasPrice + 1) % uint64Size ∧
    (anh.gasPrice + 1 < uint64Size → (DropTransactions anh).gasPrice = anh.gasPrice + 1) ∧
    (anh.gasPrice + 1 = uint64Size → (DropTransactions anh).gasPrice = 0) ∧
    (DropTransactions anh).nonceUntilGasIncreased = anh.computedNonce ∧
    (DropTransactions anh).computedNonce = anh.computedNonce ∧
    (DropTransactions anh).lowestNonce = anh.lowestNonce ∧
    (DropTransactions anh).address = anh.address :=
  ⟨rfl, rfl, rfl, fun h => Nat.mod_eq_of_lt h,
   fun h => (congrArg (fun n => n % uint64Size) h).trans (Nat.mod_self uint64Size),
   rfl, rfl, rfl, rfl⟩

/-- Witness for C16 (amended): floor 5 becomes 6. -/
theorem drop_effect_witness :
    (DropTransactions handlerTenToFourteen).gasPrice = 6 ∧
    (DropTransactions handlerTenToFourteen).transactions = [] :=
  ⟨((drop_effect handlerTenToFourteen).2.2.2.1 (by decide)).trans (by decide),
   (drop_effect handlerTenToFourteen).1⟩

/-- C17 (counterexample): the counter of a bootstrapped handler stands at the largest
`uint64`.  A successful `ApplyNonceAndGasPrice` leaves `computedNonceWasSet` true and takes
`computedNonce` down to 0. -/
theorem apply_counter_wraps :
    handlerMaxNonce.computedNonceWasSet = true ∧
    handlerMaxNonce.computedNonce = 18446744073709551615 ∧
    (ApplyNonceAndGasPrice handlerMaxNonce (stubProxy 18446744073709551615 5)
      (draftTx 0 0)).err = none ∧
    (ApplyNonceAndGasPrice handlerMaxNonce (stubProxy 18446744073709551615 5)
      (draftTx 0 0)).anh.computedNonceWasSet = true ∧
    (ApplyNonceAndGasPrice handlerMaxNonce (stubProxy 18446744073709551615 5)
      (draftTx 0 0)).anh.computedNonce = 0 ∧
    (ApplyNonceAndGasPrice handlerMaxNonce (stubProxy 18446744073709551615 5)
      (draftTx 0 0)).anh.computedNonce < handlerMaxNonce.computedNonce := by
  decide

/-- C17 (amended): on a handler whose `computedNonceWasSet` is true, a successful
`ApplyNonceAndGasPrice` sets `computedNonce` to the old value plus 1 modulo `2 ^ 64`, and
every other call (`SendTransaction`, `ReSendTransactionsIfRequired`, a failed
`ApplyNonceAndGasPrice`, `DropTransactions`) leaves it unchanged; so no call decreases it
unless the counter stands at `2 ^ 64 - 1`, and `computedNonceWasSet` stays true after
every call other than `DropTransactions`. -/
theorem step_counter_while_set (anh : addressNonceHandler) (op : Op)
    (hset : anh.computedNonceWasSet = true) :
    (∀ n, (step anh op).2 = some n →
      (step anh op).1.computedNonce = (anh.computedNonce + 1) % uint64Size) ∧
    ((step anh op).2 = none → (step anh op).1.computedNonce = anh.computedNonce) ∧
    (anh.computedNonce + 1 < uint64Size →
      anh.computedNonce ≤ (step anh op).1.computedNonce) ∧
    (op.isDrop = false → (step anh op).1.computedNonceWasSet = true) := by
  have hsome : ∀ n, (step anh op).2 = some n →
      (step anh op).1.computedNonce = (anh.computedNonce + 1) % uint64Size ∧
      (step anh op).1.computedNonceWasSet = true := by
    intro n hn
    obtain ⟨proxy, tx, -, hok, -, hst⟩ := step_some_inv anh op n hn
    obtain ⟨account, -, -, hflag, hc, -, -, -, -⟩ := apply_success_spec anh proxy tx hok
    rw [hset] at hc
    rw [hst]
    exact ⟨hc, hflag⟩
  have hnone : (step anh op).2 = none → (step anh op).1.computedNonce = anh.computedNonce := by
    intro hn
    cases hd : op.isDrop with
    | false => exact (step_none_frame anh op hd hn).2
    | true =>
      cases op with
      | DropTransactions => rfl
      | ApplyNonceAndGasPrice proxy tx => simp [Op.isDrop] at hd
      | SendTransaction proxy tx => simp [Op.isDrop] at hd
      | ReSendTransactionsIfRequired proxy => simp [Op.isDrop] at hd
  refine ⟨fun n hn => (hsome n hn).1, hnone, ?_, ?_⟩
  · intro hlt
    cases hs : (step anh op).2 with
    | none => rw [hnone hs]
    | some n =>
      rw [(hsome n hs).1, Nat.mod_eq_of_lt hlt]
      omega
  · intro hd
    cases hs : (step anh op).2 with
    | none => rw [(step_none_frame anh op hd hs).1, hset]
    | some n => exact (hsome n hs).2

/-- Witness for C17 (amended): counter at 10, a successful assignment moves it to 11. -/
theorem step_counter_while_set_witness :
    (step handlerAt10 (.ApplyNonceAndGasPrice (stubProxy 20 5) (draftTx 0 0))).1.computedNonce =
      11 :=
  ((step_counter_while_set handlerAt10 (.ApplyNonceAndGasPrice (stubProxy 20 5) (draftTx 0 0))
      rfl).1 20 (by decide)).trans (by decide)

/-- For a draft that is not a record the map holds: when the account read fails,
`ApplyNonceAndGasPrice` leaves the handler with its stored transactions as it was and,
having made the read, returns the proxy's error, so that a later call behaves as if this
one had not happened; and `ReSendTransactionsIfRequired` returns the proxy's error and
leaves the handler state as it was. -/
theorem failed_account_read_changes_nothing (anh : addressNonceHandler) (proxy : Proxy)
    (tx : FrontendTransaction) (e : String)
    (hacc : proxy.GetAccount = .error e) :
    (ApplyNonceAndGasPrice anh proxy tx).anh = anh ∧
    (ProxyCall.GetAccount ∈ (ApplyNonceAndGasPrice anh proxy tx).calls →
      (ApplyNonceAndGasPrice anh proxy tx).err = some (.external e)) ∧
    (∀ laterProxy laterTx,
      ApplyNonceAndGasPrice (ApplyNonceAndGasPrice anh proxy tx).anh laterProxy laterTx =
        ApplyNonceAndGasPrice anh laterProxy laterTx) ∧
    (ReSendTransactionsIfRequired anh proxy).err = some (.external e) ∧
    (ReSendTransactionsIfRequired anh proxy).anh = anh := by
  have hanh : (ApplyNonceAndGasPrice anh proxy tx).anh = anh := by
    rcases sameNonce_cases anh tx with ⟨oldTx, hold, hrej⟩ | hpass
    · rw [apply_reject anh proxy tx oldTx _ hold hrej]
    · rw [apply_pass anh proxy tx hpass, getNonce_error anh proxy e hacc]
  refine ⟨hanh, ?_, ?_, ?_, ?_⟩
  · rcases sameNonce_cases anh tx with ⟨oldTx, hold, hrej⟩ | hpass
    · rw [apply_reject anh proxy tx oldTx _ hold hrej]
      intro h
      cases h
    · rw [apply_pass anh proxy tx hpass, getNonce_error anh proxy e hacc]
      intro _
      rfl
  · intro laterProxy laterTx
    rw [hanh]
  · rw [resend_of_error anh proxy e hacc]
  · rw [resend_of_error anh proxy e hacc]

/-- C24: in an `ApplyNonceAndGasPrice` that obtains a nonce `n` (the duplicate-nonce rule
lets the draft through and the ledger read reports no gap), the call succeeds whatever the
network configuration request answers; that request is made if and only if
`n == nonceUntilGasIncreased + 1` (in `uint64` arithmetic) or the handler's `gasPrice` was
0 before the call; when it is made and succeeds the floor becomes the network
`MinGasPrice`, when it is made and fails the floor becomes 0, and when it is not made the
floor is unchanged. -/
theorem apply_fetches_gas_price_lazily (anh : addressNonceHandler) (proxy : Proxy)
    (tx : FrontendTransaction) (account : Account)
    (hdup : ∀ oldTx, getOlderTxWithSameNonce anh tx = some oldTx →
      handleTxWithSameNonce anh oldTx tx = none)
    (hacc : proxy.GetAccount = .ok account)
    (hle : anh.lowestNonce ≤ account.Nonce) :
    (ApplyNonceAndGasPrice anh proxy tx).err = none ∧
    (ProxyCall.GetNetworkConfig ∈ (ApplyNonceAndGasPrice anh proxy tx).calls ↔
      ((ApplyNonceAndGasPrice anh proxy tx).tx.Nonce =
          (anh.nonceUntilGasIncreased + 1) % uint64Size ∨ anh.gasPrice = 0)) ∧
    (ProxyCall.GetNetworkConfig ∈ (ApplyNonceAndGasPrice anh proxy tx).calls →
      (∀ cfg, proxy.GetNetworkConfig = .ok cfg →
        (ApplyNonceAndGasPrice anh proxy tx).anh.gasPrice = cfg.MinGasPrice) ∧
      (∀ e, proxy.GetNetworkConfig = .error e →
        (ApplyNonceAndGasPrice anh proxy tx).anh.gasPrice = 0)) ∧
    (ProxyCall.GetNetworkConfig ∉ (ApplyNonceAndGasPrice anh proxy tx).calls →
      (ApplyNonceAndGasPrice anh proxy tx).anh.gasPrice = anh.gasPrice) := by
  obtain ⟨anh1, n, hg, hu, heq⟩ := apply_ok_eq anh proxy tx account hdup hacc hle
  rw [heq]
  simp only
  obtain ⟨hyes, hno⟩ := fetch_cases anh1 proxy n
  rw [hg, hu] at hyes hno
  by_cases hc : n = (anh.nonceUntilGasIncreased + 1) % uint64Size ∨ anh.gasPrice = 0
  · obtain ⟨hcalls, hok, hfail⟩ := hyes hc
    rw [hcalls]
    refine ⟨trivial, ?_, ?_, ?_⟩
    · simp [hc]
    · intro _
      exact ⟨hok, hfail⟩
    · intro h
      simp at h
  · obtain ⟨hcalls, hsame⟩ := hno hc
    rw [hcalls]
    refine ⟨trivial, ?_, ?_, ?_⟩
    · simp [hc]
    · intro h
      simp at h
    · intro _
      exact hsame

/-- Witness for C24: on a fresh handler the floor is 0, so the configuration is requested;
the request fails, the floor stays 0 and nonce 10 is assigned all the same. -/
theorem apply_fetches_gas_price_lazily_witness :
    (ApplyNonceAndGasPrice freshHandler (proxyWithoutConfig 10) (draftTx 0 7)).err = none ∧
    ProxyCall.GetNetworkConfig ∈
      (ApplyNonceAndGasPrice freshHandler (proxyWithoutConfig 10) (draftTx 0 7)).calls ∧
    (ApplyNonceAndGasPrice freshHandler (proxyWithoutConfig 10) (draftTx 0 7)).anh.gasPrice =
      0 :=
  ⟨(apply_fetches_gas_price_lazily freshHandler (proxyWithoutConfig 10) (draftTx 0 7)
      { Address := "drt1test", Nonce := 10, Balance := "0" }
      (by intro oldTx h; cases h) rfl (by decide)).1,
   by decide,
   ((apply_fetches_gas_price_lazily freshHandler (proxyWithoutConfig 10) (draftTx 0 7)
      { Address := "drt1test", Nonce := 10, Balance := "0" }
      (by intro oldTx h; cases h) rfl (by decide)).2.2.1 (by decide)).2
        "network config unavailable" rfl⟩

/-- C25 (counterexample): `lowestNonce` is 13 and the ledger reports 12, so the call fails
with `ErrGapNonce`; the draft entered with nonce 99 and leaves with nonce 12.  With a
failing account read it leaves with nonce 0. -/
theorem apply_error_overwrites_draft_nonce :
    (ApplyNonceAndGasPrice handlerLowest13 (stubProxy 12 9) (draftTx 99 7)).err =
      some .ErrGapNonce ∧
    (draftTx 99 7).Nonce = 99 ∧
    (ApplyNonceAndGasPrice handlerLowest13 (stubProxy 12 9) (draftTx 99 7)).tx.Nonce = 12 ∧
    (ApplyNonceAndGasPrice handlerLowest13 failingProxy (draftTx 99 7)).err =
      some (.external "context canceled") ∧
    (ApplyNonceAndGasPrice handlerLowest13 failingProxy (draftTx 99 7)).tx.Nonce = 0 := by
  decide

/-- C25 (amended): when `ApplyNonceAndGasPrice` returns an error, the draft keeps its
`GasPrice` and every other field except `Nonce`.  The draft is entirely unchanged when the
error is the duplicate-nonce error; on `ErrGapNonce` its `Nonce` is overwritten with the
account nonce read from the ledger, and on a failed ledger read it is overwritten with 0. -/
theorem apply_error_draft_effect (anh : addressNonceHandler) (proxy : Proxy)
    (tx : FrontendTransaction) (err : Error)
    (herr : (ApplyNonceAndGasPrice anh proxy tx).err = some err) :
    (ApplyNonceAndGasPrice anh proxy tx).tx.GasPrice = tx.GasPrice ∧
    (ApplyNonceAndGasPrice anh proxy tx).tx =
      { tx with Nonce := (ApplyNonceAndGasPrice anh proxy tx).tx.Nonce } ∧
    (err = .ErrTxWithSameNonceAndGasPriceAlreadySent →
      (ApplyNonceAndGasPrice anh proxy tx).tx = tx) ∧
    (err = .ErrGapNonce → ∃ account, proxy.GetAccount = .ok account ∧
      (ApplyNonceAndGasPrice anh proxy tx).tx.Nonce = account.Nonce) ∧
    (∀ msg, err = .external msg → (ApplyNonceAndGasPrice anh proxy tx).tx.Nonce = 0) := by
  rcases sameNonce_cases anh tx with ⟨oldTx, hold, hrej⟩ | hpass
  · rw [apply_reject anh proxy tx oldTx _ hold hrej] at herr ⊢
    simp only [Option.some.injEq] at herr
    subst herr
    refine ⟨rfl, rfl, fun _ => rfl, ?_, ?_⟩
    · intro h; cases h
    · intro msg h; cases h
  · rw [apply_pass anh proxy tx hpass] at herr ⊢
    cases hacc : proxy.GetAccount with
    | error e =>
      rw [getNonce_error anh proxy e hacc] at herr ⊢
      simp only [Option.some.injEq] at herr
      subst herr
      refine ⟨rfl, rfl, ?_, ?_, fun _ _ => rfl⟩
      · intro h; cases h
      · intro h; cases h
    | ok account =>
      by_cases hgap : account.Nonce < anh.lowestNonce
      · rw [getNonce_gap anh proxy account hacc hgap] at herr ⊢
        simp only [Option.some.injEq] at herr
        subst herr
        refine ⟨rfl, rfl, ?_, fun _ => ⟨account, rfl, rfl⟩, ?_⟩
        · intro h; cases h
        · intro msg h; cases h
      · have hle : anh.lowestNonce ≤ account.Nonce := by omega
        cases hset : anh.computedNonceWasSet
        · rw [getNonce_first anh proxy account hacc hle hset] at herr
          cases herr
        · rw [getNonce_next anh proxy account hacc hle hset] at herr
          cases herr

/-- Witness for C25 (amended): the gap error leaves the draft's gas price at 7. -/
theorem apply_error_draft_effect_witness :
    (ApplyNonceAndGasPrice handlerLowest13 (stubProxy 12 9) (draftTx 99 7)).tx.GasPrice = 7 :=
  (apply_error_draft_effect handlerLowest13 (stubProxy 12 9) (draftTx 99 7) .ErrGapNonce
    (by decide)).1


/-! ## The handler with transactions behind pointers -/

namespace Pointers

/-- Reading the pointer that was written. -/
theorem write_same (mem : Memory) (p : Nat) (tx : FrontendTransaction) :
    write mem p tx p = tx := by
  simp [write]

/-- Reading another pointer than the one written. -/
theorem write_other (mem : Memory) (p q : Nat) (tx : FrontendTransaction) (h : q ≠ p) :
    write mem p tx q = mem q := by
  simp [write, h]

/-- Looking a nonce up in the map of `view` gives the transaction behind the stored
pointer. -/
theorem lookup_view (l : List (Nat × Nat)) (mem : Memory) (k : Nat) :
    (l.map (fun entry => (entry.1, mem entry.2))).lookup k = (l.lookup k).map mem := by
  induction l with
  | nil => rfl
  | cons e l ih =>
    obtain ⟨a, b⟩ := e
    simp only [List.map_cons, List.lookup_cons]
    cases hk : k == a
    · exact ih
    · rfl

/-- Writing through a pointer the map does not hold leaves the stored transactions as
they were. -/
theorem view_write_of_not_stored (anh : addressNonceHandler) (mem : Memory) (p : Nat)
    (tx : FrontendTransaction) (hp : ∀ entry ∈ anh.transactions, entry.2 ≠ p) :
    view anh (write mem p tx) = view anh mem := by
  unfold view
  congr 1
  apply List.map_congr_left
  intro entry hentry
  rw [write_other mem p entry.2 tx (hp entry hentry)]

/-- The nonce computation does not touch the map. -/
theorem getNonce_transactions (anh : addressNonceHandler) (proxy : Proxy) :
    (getNonceUpdatingCurrent anh proxy).anh.transactions = anh.transactions := by
  unfold getNonceUpdatingCurrent
  split
  · rfl
  · split
    · rfl
    · split <;> rfl

/-- The gas price refresh does not touch the map. -/
theorem fetch_transactions_eq (anh : addressNonceHandler) (proxy : Proxy) (nonce : Nat) :
    (fetchGasPriceIfRequired anh proxy nonce).anh.transactions = anh.transactions := by
  unfold fetchGasPriceIfRequired
  split
  · split <;> rfl
  · rfl

/-- The nonce computation on pointers is the nonce computation on the view. -/
theorem getNonce_view (anh : addressNonceHandler) (mem : Memory) (proxy : Proxy) :
    (NonceHandlerV2.getNonceUpdatingCurrent (view anh mem) proxy).anh =
        view (getNonceUpdatingCurrent anh proxy).anh mem ∧
    (NonceHandlerV2.getNonceUpdatingCurrent (view anh mem) proxy).nonce =
        (getNonceUpdatingCurrent anh proxy).nonce ∧
    (NonceHandlerV2.getNonceUpdatingCurrent (view anh mem) proxy).err =
        (getNonceUpdatingCurrent anh proxy).err := by
  unfold NonceHandlerV2.getNonceUpdatingCurrent getNonceUpdatingCurrent
  cases proxy.GetAccount with
  | error e => exact ⟨rfl, rfl, rfl⟩
  | ok account =>
    simp only [view]
    split
    · exact ⟨rfl, rfl, rfl⟩
    · split <;> exact ⟨rfl, rfl, rfl⟩

/-- The gas price refresh on pointers is the gas price refresh on the view. -/
theorem fetch_view (anh : addressNonceHandler) (mem : Memory) (proxy : Proxy) (nonce : Nat) :
    (NonceHandlerV2.fetchGasPriceIfRequired (view anh mem) proxy nonce).anh =
        view (fetchGasPriceIfRequired anh proxy nonce).anh mem ∧
    (NonceHandlerV2.fetchGasPriceIfRequired (view anh mem) proxy nonce).calls =
        (fetchGasPriceIfRequired anh proxy nonce).calls := by
  unfold NonceHandlerV2.fetchGasPriceIfRequired fetchGasPriceIfRequired
  simp only [view]
  split
  · cases proxy.GetNetworkConfig <;> exact ⟨rfl, rfl⟩
  · exact ⟨rfl, rfl⟩

/-- A second write through a pointer replaces the first. -/
theorem write_write (mem : Memory) (p : Nat) (a b : FrontendTransaction) :
    write (write mem p a) p b = write mem p b := by
  funext q
  unfold write
  split <;> rfl

/-- The duplicate-nonce rule either rejects the draft or lets it through. -/
theorem ptr_sameNonce_cases (anh : addressNonceHandler) (mem : Memory) (tx : Nat) :
    (∃ oldTx, getOlderTxWithSameNonce anh mem tx = some oldTx ∧
      handleTxWithSameNonce anh mem oldTx tx =
        some .ErrTxWithSameNonceAndGasPriceAlreadySent) ∨
    (∀ oldTx, getOlderTxWithSameNonce anh mem tx = some oldTx →
      handleTxWithSameNonce anh mem oldTx tx = none) := by
  cases hold : getOlderTxWithSameNonce anh mem tx with
  | none => right; intro o h; cases h
  | some oldTx =>
    cases hh : handleTxWithSameNonce anh mem oldTx tx with
    | none => right; intro o h; cases h; exact hh
    | some e =>
      left
      refine ⟨oldTx, rfl, ?_⟩
      unfold handleTxWithSameNonce at hh ⊢
      split at hh
      · cases hh
      · split at hh
        · cases hh
        · rename_i h1 h2; simp [h1, h2]

/-- A draft rejected by the duplicate-nonce rule: nothing is read and nothing is
written. -/
theorem ptr_apply_reject (anh : addressNonceHandler) (mem : Memory) (proxy : Proxy)
    (tx oldTx : Nat) (e : Error) (hold : getOlderTxWithSameNonce anh mem tx = some oldTx)
    (hrej : handleTxWithSameNonce anh mem oldTx tx = some e) :
    ApplyNonceAndGasPrice anh mem proxy tx =
      { anh := anh, mem := mem, err := some e, calls := [] } := by
  simp [ApplyNonceAndGasPrice, hold, hrej]

/-- A draft the duplicate-nonce rule lets through: the call continues with the nonce
computation and writes the nonce through the pointer before it looks at the error. -/
theorem ptr_apply_pass (anh : addressNonceHandler) (mem : Memory) (proxy : Proxy) (tx : Nat)
    (hdup : ∀ oldTx, getOlderTxWithSameNonce anh mem tx = some oldTx →
      handleTxWithSameNonce anh mem oldTx tx = none) :
    ApplyNonceAndGasPrice anh mem proxy tx =
      match (getNonceUpdatingCurrent anh proxy).err with
      | some err =>
        { anh := (getNonceUpdatingCurrent anh proxy).anh,
          mem := write mem tx { mem tx with Nonce := (getNonceUpdatingCurrent anh proxy).nonce },
          err := some err, calls := [.GetAccount] }
      | none =>
        { anh := (fetchGasPriceIfRequired (getNonceUpdatingCurrent anh proxy).anh proxy
                    (getNonceUpdatingCurrent anh proxy).nonce).anh,
          mem := write mem tx
            { mem tx with
                Nonce := (getNonceUpdatingCurrent anh proxy).nonce,
                GasPrice := MaxUint64
                  (fetchGasPriceIfRequired (getNonceUpdatingCurrent anh proxy).anh proxy
                    (getNonceUpdatingCurrent anh proxy).nonce).anh.gasPrice (mem tx).GasPrice },
          err := none,
          calls := .GetAccount :: (fetchGasPriceIfRequired (getNonceUpdatingCurrent anh proxy).anh
                    proxy (getNonceUpdatingCurrent anh proxy).nonce).calls } := by
  have hnone : (match getOlderTxWithSameNonce anh mem tx with
      | some oldTx => handleTxWithSameNonce anh mem oldTx tx
      | none => none) = none := by
    cases hold : getOlderTxWithSameNonce anh mem tx with
    | none => rfl
    | some oldTx => exact hdup oldTx hold
  unfold ApplyNonceAndGasPrice
  simp only [hnone]
  split
  · rfl
  · simp only [write_same, write_write]

/-- The nonce computation when the account read fails. -/
theorem ptr_getNonce_error (anh : addressNonceHandler) (proxy : Proxy) (e : String)
    (hacc : proxy.GetAccount = .error e) :
    getNonceUpdatingCurrent anh proxy = { anh := anh, nonce := 0, err := some (.external e) } := by
  simp [getNonceUpdatingCurrent, hacc]

/-- The nonce computation when the ledger is behind `lowestNonce`. -/
theorem ptr_getNonce_gap (anh : addressNonceHandler) (proxy : Proxy) (account : Account)
    (hacc : proxy.GetAccount = .ok account) (hgap : account.Nonce < anh.lowestNonce) :
    getNonceUpdatingCurrent anh proxy =
      { anh := anh, nonce := account.Nonce, err := some .ErrGapNonce } := by
  simp [getNonceUpdatingCurrent, hacc, hgap]

/-- What a successful `ApplyNonceAndGasPrice` wrote: the handler is the one left by the
nonce computation and the gas price refresh, the draft carries the computed nonce, and the
map holds the pointers it held. -/
theorem ptr_apply_success (anh : addressNonceHandler) (mem : Memory) (proxy : Proxy) (tx : Nat)
    (hok : (ApplyNonceAndGasPrice anh mem proxy tx).err = none) :
    (getNonceUpdatingCurrent anh proxy).err = none ∧
    (ApplyNonceAndGasPrice anh mem proxy tx).anh =
      (fetchGasPriceIfRequired (getNonceUpdatingCurrent anh proxy).anh proxy
        (getNonceUpdatingCurrent anh proxy).nonce).anh ∧
    (ApplyNonceAndGasPrice anh mem proxy tx).mem =
      write mem tx
        { mem tx with
            Nonce := (getNonceUpdatingCurrent anh proxy).nonce,
            GasPrice := MaxUint64 (ApplyNonceAndGasPrice anh mem proxy tx).anh.gasPrice
              (mem tx).GasPrice } ∧
    (ApplyNonceAndGasPrice anh mem proxy tx).anh.transactions = anh.transactions := by
  rcases ptr_sameNonce_cases anh mem tx with ⟨oldTx, hold, hrej⟩ | hpass
  · rw [ptr_apply_reject anh mem proxy tx oldTx _ hold hrej] at hok
    cases hok
  · rw [ptr_apply_pass anh mem proxy tx hpass] at hok ⊢
    cases herr : (getNonceUpdatingCurrent anh proxy).err with
    | some e =>
      rw [herr] at hok
      cases hok
    | none =>
      refine ⟨rfl, rfl, rfl, ?_⟩
      show (fetchGasPriceIfRequired (getNonceUpdatingCurrent anh proxy).anh proxy
        (getNonceUpdatingCurrent anh proxy).nonce).anh.transactions = anh.transactions
      rw [fetch_transactions_eq, getNonce_transactions]

/-- On a draft that is not a stored record, `ApplyNonceAndGasPrice` on pointers is
`ApplyNonceAndGasPrice` on the transactions behind them. -/
theorem apply_view (anh : addressNonceHandler) (mem : Memory) (proxy : Proxy) (tx : Nat)
    (hp : ∀ entry ∈ anh.transactions, entry.2 ≠ tx) :
    NonceHandlerV2.ApplyNonceAndGasPrice (view anh mem) proxy (mem tx) =
      { anh := view (ApplyNonceAndGasPrice anh mem proxy tx).anh
                (ApplyNonceAndGasPrice anh mem proxy tx).mem,
        tx := (ApplyNonceAndGasPrice anh mem proxy tx).mem tx,
        err := (ApplyNonceAndGasPrice anh mem proxy tx).err,
        calls := (ApplyNonceAndGasPrice anh mem proxy tx).calls } := by
  have hget : NonceHandlerV2.getOlderTxWithSameNonce (view anh mem) (mem tx) =
      (getOlderTxWithSameNonce anh mem tx).map mem := by
    unfold NonceHandlerV2.getOlderTxWithSameNonce getOlderTxWithSameNonce mapGet view
    exact lookup_view anh.transactions mem (mem tx).Nonce
  have hhandle : ∀ oldTx, NonceHandlerV2.handleTxWithSameNonce (view anh mem) (mem oldTx)
      (mem tx) = handleTxWithSameNonce anh mem oldTx tx := fun _ => rfl
  obtain ⟨hn1, hn2, hn3⟩ := getNonce_view anh mem proxy
  rcases ptr_sameNonce_cases anh mem tx with ⟨oldTx, hold, hrej⟩ | hpass
  · rw [ptr_apply_reject anh mem proxy tx oldTx _ hold hrej]
    exact NonceHandlerV2.apply_reject (view anh mem) proxy (mem tx) (mem oldTx) _
      (by rw [hget, hold]; rfl) (by rw [hhandle]; exact hrej)
  · have hpassV : ∀ oldTx, NonceHandlerV2.getOlderTxWithSameNonce (view anh mem) (mem tx) =
        some oldTx → NonceHandlerV2.handleTxWithSameNonce (view anh mem) oldTx (mem tx) =
          none := by
      intro oldTx hold
      rw [hget] at hold
      cases hptr : getOlderTxWithSameNonce anh mem tx with
      | none => rw [hptr] at hold; cases hold
      | some q =>
        rw [hptr] at hold
        cases hold
        rw [hhandle]
        exact hpass q hptr
    rw [NonceHandlerV2.apply_pass (view anh mem) proxy (mem tx) hpassV,
      ptr_apply_pass anh mem proxy tx hpass, hn1, hn2, hn3]
    cases herr : (getNonceUpdatingCurrent anh proxy).err with
    | some e =>
      simp only [write_same]
      rw [view_write_of_not_stored _ _ _ _
        (by rw [getNonce_transactions]; exact hp)]
    | none =>
      obtain ⟨hf1, hf2⟩ := fetch_view (getNonceUpdatingCurrent anh proxy).anh mem proxy
        (getNonceUpdatingCurrent anh proxy).nonce
      simp only [write_same, hf1, hf2, maxUint64_eq_max]
      rw [view_write_of_not_stored _ _ _ _
        (by rw [fetch_transactions_eq, getNonce_transactions]; exact hp)]
      rfl

/-- Deleting a nonce from the map of pointers and from the map of the view. -/
theorem mapDelete_view (l : List (Nat × Nat)) (mem : Memory) (k : Nat) :
    mapDelete (l.map (fun entry => (entry.1, mem entry.2))) k =
      (l.filter (fun p => p.1 != k)).map (fun entry => (entry.1, mem entry.2)) := by
  unfold mapDelete
  rw [List.filter_map]
  rfl

/-- `SendTransaction` on pointers is `SendTransaction` on the transactions behind them. -/
theorem send_view (anh : addressNonceHandler) (mem : Memory) (proxy : Proxy) (tx : Nat) :
    NonceHandlerV2.SendTransaction (view anh mem) proxy (mem tx) =
      { anh := view (SendTransaction anh mem proxy tx).anh mem,
        hash := (SendTransaction anh mem proxy tx).hash,
        err := (SendTransaction anh mem proxy tx).err,
        calls := (SendTransaction anh mem proxy tx).calls } := by
  unfold NonceHandlerV2.SendTransaction SendTransaction
  have hmap : mapSet (view anh mem).transactions (mem tx).Nonce (mem tx) =
      (((mem tx).Nonce, tx) :: anh.transactions.filter (fun p => p.1 != (mem tx).Nonce)).map
        (fun entry => (entry.1, mem entry.2)) := by
    unfold mapSet view
    simp only [List.map_cons]
    rw [mapDelete_view]
  cases proxy.SendTransaction (mem tx) <;> simp only [hmap] <;> rfl

/-- `DropTransactions` on pointers is `DropTransactions` on the transactions behind
them. -/
theorem drop_view (anh : addressNonceHandler) (mem : Memory) :
    NonceHandlerV2.DropTransactions (view anh mem) = view (DropTransactions anh) mem :=
  rfl

/-- The sweep on pointers is the sweep on the transactions behind them. -/
theorem sweep_view (mem : Memory) (accountNonce : Nat) (l : List (Nat × Nat))
    (st : SweepState) :
    (l.map (fun entry => (entry.1, mem entry.2))).foldl
        (NonceHandlerV2.sweepStep accountNonce)
        { transactions := st.transactions.map (fun entry => (entry.1, mem entry.2)),
          minNonce := st.minNonce, resendableTxs := st.resendableTxs.map mem } =
      { transactions :=
          (l.foldl (sweepStep accountNonce) st).transactions.map
            (fun entry => (entry.1, mem entry.2)),
        minNonce := (l.foldl (sweepStep accountNonce) st).minNonce,
        resendableTxs := (l.foldl (sweepStep accountNonce) st).resendableTxs.map mem } := by
  induction l generalizing st with
  | nil => rfl
  | cons e l ih =>
    simp only [List.map_cons, List.foldl_cons]
    have hstep : NonceHandlerV2.sweepStep accountNonce
        { transactions := st.transactions.map (fun entry => (entry.1, mem entry.2)),
          minNonce := st.minNonce, resendableTxs := st.resendableTxs.map mem }
        (e.1, mem e.2) =
        { transactions := (sweepStep accountNonce st e).transactions.map
            (fun entry => (entry.1, mem entry.2)),
          minNonce := (sweepStep accountNonce st e).minNonce,
          resendableTxs := (sweepStep accountNonce st e).resendableTxs.map mem } := by
      unfold NonceHandlerV2.sweepStep sweepStep
      by_cases hle : e.1 ≤ accountNonce
      · simp only [hle, if_true]
        rw [mapDelete_view]
      · simp only [hle, if_false, List.map_append, List.map_cons, List.map_nil]
    rw [hstep]
    exact ih (sweepStep accountNonce st e)

/-- `ReSendTransactionsIfRequired` on pointers is `ReSendTransactionsIfRequired` on the
transactions behind them. -/
theorem resend_view (anh : addressNonceHandler) (mem : Memory) (proxy : Proxy) :
    NonceHandlerV2.ReSendTransactionsIfRequired (view anh mem) proxy =
      { anh := view (ReSendTransactionsIfRequired anh mem proxy).anh mem,
        err := (ReSendTransactionsIfRequired anh mem proxy).err,
        calls := (ReSendTransactionsIfRequired anh mem proxy).calls } := by
  unfold NonceHandlerV2.ReSendTransactionsIfRequired ReSendTransactionsIfRequired
  cases proxy.GetAccount with
  | error e => rfl
  | ok account =>
    simp only []
    by_cases heq : account.Nonce = anh.computedNonce
    · have h1 : (account.Nonce == anh.computedNonce) = true := by simpa using heq
      have h2 : (account.Nonce == (view anh mem).computedNonce) = true := h1
      simp only [h1, h2, if_true]
      rfl
    · have h1 : (account.Nonce == anh.computedNonce) = false := by simpa using heq
      have h2 : (account.Nonce == (view anh mem).computedNonce) = false := h1
      simp only [h1, h2]
      have hsweep := sweep_view mem account.Nonce anh.transactions
        { transactions := anh.transactions, minNonce := anh.computedNonce,
          resendableTxs := [] }
      simp only [List.map_nil] at hsweep
      have hview : (view anh mem).transactions =
          anh.transactions.map (fun entry => (entry.1, mem entry.2)) := rfl
      have hcn : (view anh mem).computedNonce = anh.computedNonce := rfl
      have haddr : (view anh mem).address = anh.address := rfl
      rw [hview, hcn, haddr, hsweep]
      simp only [List.length_map]
      generalize List.foldl (sweepStep account.Nonce) _ anh.transactions = st
      by_cases hlen : (st.resendableTxs.length == 0) = true
      · rw [if_pos hlen, if_pos hlen]
        rfl
      · rw [if_neg hlen, if_neg hlen]
        cases proxy.SendTransactions (st.resendableTxs.map mem) with
        | error e => rfl
        | ok hashes =>
          cases anh.address.AddressAsBech32String <;> rfl

/-- The stored transaction of pointer 1 is applied again and the call succeeds: the
transaction stored under nonce 10 leaves the call with nonce 12 and gas price 5, the map
still holding it under nonce 10. -/
theorem reapply_rewrites_stored_transaction :
    (ApplyNonceAndGasPrice handlerStoringDraft memoryStoringDraft (stubProxy 10 5) 1).err =
      none ∧
    (view handlerStoringDraft memoryStoringDraft).transactions = [(10, draftTx 10 0)] ∧
    (view (ApplyNonceAndGasPrice handlerStoringDraft memoryStoringDraft (stubProxy 10 5) 1).anh
      (ApplyNonceAndGasPrice handlerStoringDraft memoryStoringDraft (stubProxy 10 5)
        1).mem).transactions = [(10, draftTx 12 5)] := by
  decide

/-- The run `storedDraftRun` ends in the handler `handlerStoringDraft` with the memory
`memoryStoringDraft`: a sent transaction whose gas price is below the floor, in a handler
whose `lowestNonce` is 10. -/
theorem storedDraftRun_state :
    storedDraftRun.1 = handlerStoringDraft ∧
    storedDraftRun.2 1 = memoryStoringDraft 1 ∧
    storedDraftRun.2 2 = memoryStoringDraft 2 ∧
    memoryStoringDraft 1 = draftTx 10 0 ∧
    (view storedDraftRun.1 storedDraftRun.2).transactions = [(10, draftTx 10 0)] :=
  ⟨rfl, by decide, by decide, by decide, by decide⟩

/-- C5 (counterexample): the map holds the sent transaction of pointer 1 under nonce 10,
its gas price 0 is below the floor 5, `lowestNonce` is 10 and the ledger reports 9.  The
call on pointer 1 passes the duplicate-nonce rule and fails with `ErrGapNonce`; the
transaction stored under nonce 10 had nonce 10 before the call and has nonce 9 after it. -/
theorem gap_changes_stored_transaction :
    handlerStoringDraft.lowestNonce = 10 ∧
    getOlderTxWithSameNonce handlerStoringDraft memoryStoringDraft 1 = some 1 ∧
    handleTxWithSameNonce handlerStoringDraft memoryStoringDraft 1 1 = none ∧
    (ApplyNonceAndGasPrice handlerStoringDraft memoryStoringDraft (stubProxy 9 5) 1).err =
      some .ErrGapNonce ∧
    (view handlerStoringDraft memoryStoringDraft).transactions = [(10, draftTx 10 0)] ∧
    (view (ApplyNonceAndGasPrice handlerStoringDraft memoryStoringDraft (stubProxy 9 5) 1).anh
      (ApplyNonceAndGasPrice handlerStoringDraft memoryStoringDraft (stubProxy 9 5)
        1).mem).transactions = [(10, draftTx 9 0)] := by
  decide

/-- C5 (amended): when the account nonce read from the ledger is strictly below
`lowestNonce` and the duplicate-nonce rule does not reject the draft,
`ApplyNonceAndGasPrice` fails with `ErrGapNonce`; the handler (its five scalar fields and
the pointers its map holds) is what it was before the call; the draft's `Nonce` is
overwritten with the account nonce and nothing else is written, so that every stored
transaction other than the draft is unchanged, and all stored transactions are unchanged
when the draft is not one of them. -/
theorem gap_keeps_handler_rewrites_draft (anh : addressNonceHandler) (mem : Memory)
    (proxy : Proxy) (tx : Nat) (account : Account)
    (hacc : proxy.GetAccount = .ok account)
    (hgap : account.Nonce < anh.lowestNonce)
    (hdup : ∀ oldTx, getOlderTxWithSameNonce anh mem tx = some oldTx →
      handleTxWithSameNonce anh mem oldTx tx = none) :
    (ApplyNonceAndGasPrice anh mem proxy tx).err = some .ErrGapNonce ∧
    (ApplyNonceAndGasPrice anh mem proxy tx).anh = anh ∧
    (ApplyNonceAndGasPrice anh mem proxy tx).mem tx = { mem tx with Nonce := account.Nonce } ∧
    (∀ p, p ≠ tx → (ApplyNonceAndGasPrice anh mem proxy tx).mem p = mem p) ∧
    ((∀ entry ∈ anh.transactions, entry.2 ≠ tx) →
      view (ApplyNonceAndGasPrice anh mem proxy tx).anh
        (ApplyNonceAndGasPrice anh mem proxy tx).mem = view anh mem) := by
  rw [ptr_apply_pass anh mem proxy tx hdup, ptr_getNonce_gap anh proxy account hacc hgap]
  refine ⟨rfl, rfl, write_same _ _ _, fun p hp => write_other _ _ _ _ hp, ?_⟩
  intro hp
  exact view_write_of_not_stored anh mem tx _ hp

/-- Witness for C5 (amended): the stored transaction of pointer 1 is applied again while
the ledger reports 9; the transaction behind pointer 2 is untouched. -/
theorem gap_keeps_handler_rewrites_draft_witness :
    (ApplyNonceAndGasPrice handlerStoringDraft memoryStoringDraft (stubProxy 9 5) 1).anh =
      handlerStoringDraft ∧
    (ApplyNonceAndGasPrice handlerStoringDraft memoryStoringDraft (stubProxy 9 5) 1).mem 1 =
      { memoryStoringDraft 1 with Nonce := 9 } ∧
    (ApplyNonceAndGasPrice handlerStoringDraft memoryStoringDraft (stubProxy 9 5) 1).mem 2 =
      memoryStoringDraft 2 :=
  ⟨(gap_keeps_handler_rewrites_draft handlerStoringDraft memoryStoringDraft (stubProxy 9 5) 1
      { Address := "drt1test", Nonce := 9, Balance := "0" } rfl (by decide)
      (by intro oldTx h; cases h; decide)).2.1,
   (gap_keeps_handler_rewrites_draft handlerStoringDraft memoryStoringDraft (stubProxy 9 5) 1
      { Address := "drt1test", Nonce := 9, Balance := "0" } rfl (by decide)
      (by intro oldTx h; cases h; decide)).2.2.1,
   (gap_keeps_handler_rewrites_draft handlerStoringDraft memoryStoringDraft (stubProxy 9 5) 1
      { Address := "drt1test", Nonce := 9, Balance := "0" } rfl (by decide)
      (by intro oldTx h; cases h; decide)).2.2.2.1 2 (by decide)⟩

/-- C9 (counterexample): on a fresh handler with ledger nonce 10 the call succeeds and
writes nonce 10 to the draft, yet the map holds nothing under 10 afterwards. -/
theorem apply_stores_nothing :
    (ApplyNonceAndGasPrice freshHandler draftMemory (stubProxy 10 5) 1).err = none ∧
    ((ApplyNonceAndGasPrice freshHandler draftMemory (stubProxy 10 5) 1).mem 1).Nonce = 10 ∧
    (ApplyNonceAndGasPrice freshHandler draftMemory (stubProxy 10 5) 1).anh.transactions.lookup
      10 = none := by
  decide

/-- C9 (amended): a successful `ApplyNonceAndGasPrice` adds no entry to the map and removes
none: the map holds the pointers it held.  It writes to the draft only, so the stored
transactions are unchanged when the draft is not one of them.  After a later
`SendTransaction` of the draft (whatever the proxy answers to the send) the map holds the
draft under the nonce that was assigned to it. -/
theorem apply_keeps_map_send_records (anh : addressNonceHandler) (mem : Memory)
    (proxy sendProxy : Proxy) (tx : Nat)
    (hok : (ApplyNonceAndGasPrice anh mem proxy tx).err = none) :
    (ApplyNonceAndGasPrice anh mem proxy tx).anh.transactions = anh.transactions ∧
    (∀ p, p ≠ tx → (ApplyNonceAndGasPrice anh mem proxy tx).mem p = mem p) ∧
    ((∀ entry ∈ anh.transactions, entry.2 ≠ tx) →
      (view (ApplyNonceAndGasPrice anh mem proxy tx).anh
        (ApplyNonceAndGasPrice anh mem proxy tx).mem).transactions =
          (view anh mem).transactions) ∧
    ((ApplyNonceAndGasPrice anh mem proxy tx).mem tx).Nonce =
      (getNonceUpdatingCurrent anh proxy).nonce ∧
    (SendTransaction (ApplyNonceAndGasPrice anh mem proxy tx).anh
      (ApplyNonceAndGasPrice anh mem proxy tx).mem sendProxy tx).anh.transactions.lookup
        ((ApplyNonceAndGasPrice anh mem proxy tx).mem tx).Nonce = some tx ∧
    mapGet (view (SendTransaction (ApplyNonceAndGasPrice anh mem proxy tx).anh
      (ApplyNonceAndGasPrice anh mem proxy tx).mem sendProxy tx).anh
      (ApplyNonceAndGasPrice anh mem proxy tx).mem).transactions
        ((ApplyNonceAndGasPrice anh mem proxy tx).mem tx).Nonce =
      some ((ApplyNonceAndGasPrice anh mem proxy tx).mem tx) := by
  obtain ⟨-, -, hmem, htx⟩ := ptr_apply_success anh mem proxy tx hok
  have hsend : ∀ (a : addressNonceHandler) (m : Memory),
      (SendTransaction a m sendProxy tx).anh.transactions.lookup (m tx).Nonce = some tx := by
    intro a m
    unfold SendTransaction
    cases sendProxy.SendTransaction (m tx) <;> simp [List.lookup_cons]
  refine ⟨htx, ?_, ?_, ?_, hsend _ _, ?_⟩
  · intro p hp
    rw [hmem, write_other _ _ _ _ hp]
  · intro hstored
    unfold view
    simp only [htx]
    apply List.map_congr_left
    intro entry hentry
    rw [hmem, write_other _ _ _ _ (hstored entry hentry)]
  · rw [hmem, write_same]
  · unfold mapGet view
    simp only []
    rw [lookup_view, hsend]
    rfl

/-- Witness for C9 (amended): fresh handler, ledger nonce 10; after the send the map
holds pointer 1 under nonce 10. -/
theorem apply_keeps_map_send_records_witness :
    (ApplyNonceAndGasPrice freshHandler draftMemory (stubProxy 10 5) 1).anh.transactions =
      freshHandler.transactions ∧
    (SendTransaction (ApplyNonceAndGasPrice freshHandler draftMemory (stubProxy 10 5) 1).anh
      (ApplyNonceAndGasPrice freshHandler draftMemory (stubProxy 10 5) 1).mem (stubProxy 10 5)
      1).anh.transactions.lookup
        ((ApplyNonceAndGasPrice freshHandler draftMemory (stubProxy 10 5) 1).mem 1).Nonce =
      some 1 :=
  ⟨(apply_keeps_map_send_records freshHandler draftMemory (stubProxy 10 5) (stubProxy 10 5) 1
      (by decide)).1,
   (apply_keeps_map_send_records freshHandler draftMemory (stubProxy 10 5) (stubProxy 10 5) 1
      (by decide)).2.2.2.2.1⟩

/-- C18 (counterexample): the map holds the sent transaction of pointer 1 under nonce 10
and its gas price 0 is below the floor 5.  The call on pointer 1 passes the duplicate-nonce
rule, the account read is cancelled and the call returns that error; the transaction stored
under nonce 10 had nonce 10 before the call and has nonce 0 after it. -/
theorem failed_read_changes_stored_transaction :
    (ApplyNonceAndGasPrice handlerStoringDraft memoryStoringDraft failingProxy 1).err =
      some (.external "context canceled") ∧
    (view handlerStoringDraft memoryStoringDraft).transactions = [(10, draftTx 10 0)] ∧
    (view (ApplyNonceAndGasPrice handlerStoringDraft memoryStoringDraft failingProxy 1).anh
      (ApplyNonceAndGasPrice handlerStoringDraft memoryStoringDraft failingProxy
        1).mem).transactions = [(10, draftTx 0 0)] := by
  decide

/-- C18 (amended): when the account read fails, `ApplyNonceAndGasPrice` leaves the handler
(its five scalar fields and the pointers its map holds) as it was and, having made the
read, returns the proxy's error after writing 0 to the draft's `Nonce`; nothing else is
written, so every stored transaction other than the draft is unchanged, and all stored
transactions are unchanged when the draft is not one of them.  No nonce is consumed: a
later successful call assigns the nonce computed from the handler as it was before the
failed call.  `ReSendTransactionsIfRequired` returns the proxy's error and leaves the
handler as it was. -/
theorem failed_read_keeps_handler_rewrites_draft (anh : addressNonceHandler) (mem : Memory)
    (proxy : Proxy) (tx : Nat) (e : String)
    (hacc : proxy.GetAccount = .error e) :
    (ApplyNonceAndGasPrice anh mem proxy tx).anh = anh ∧
    (ProxyCall.GetAccount ∈ (ApplyNonceAndGasPrice anh mem proxy tx).calls →
      (ApplyNonceAndGasPrice anh mem proxy tx).err = some (.external e) ∧
      (ApplyNonceAndGasPrice anh mem proxy tx).mem tx = { mem tx with Nonce := 0 }) ∧
    (ProxyCall.GetAccount ∉ (ApplyNonceAndGasPrice anh mem proxy tx).calls →
      (ApplyNonceAndGasPrice anh mem proxy tx).err =
        some .ErrTxWithSameNonceAndGasPriceAlreadySent ∧
      (ApplyNonceAndGasPrice anh mem proxy tx).mem = mem) ∧
    (∀ p, p ≠ tx → (ApplyNonceAndGasPrice anh mem proxy tx).mem p = mem p) ∧
    ((∀ entry ∈ anh.transactions, entry.2 ≠ tx) →
      view (ApplyNonceAndGasPrice anh mem proxy tx).anh
        (ApplyNonceAndGasPrice anh mem proxy tx).mem = view anh mem) ∧
    (∀ laterProxy laterTx,
      (ApplyNonceAndGasPrice (ApplyNonceAndGasPrice anh mem proxy tx).anh
        (ApplyNonceAndGasPrice anh mem proxy tx).mem laterProxy laterTx).err = none →
      ((ApplyNonceAndGasPrice (ApplyNonceAndGasPrice anh mem proxy tx).anh
        (ApplyNonceAndGasPrice anh mem proxy tx).mem laterProxy laterTx).mem laterTx).Nonce =
          (getNonceUpdatingCurrent anh laterProxy).nonce ∧
      (ApplyNonceAndGasPrice (ApplyNonceAndGasPrice anh mem proxy tx).anh
        (ApplyNonceAndGasPrice anh mem proxy tx).mem laterProxy laterTx).anh =
          (fetchGasPriceIfRequired (getNonceUpdatingCurrent anh laterProxy).anh laterProxy
            (getNonceUpdatingCurrent anh laterProxy).nonce).anh) ∧
    (ReSendTransactionsIfRequired anh mem proxy).err = some (.external e) ∧
    (ReSendTransactionsIfRequired anh mem proxy).anh = anh := by
  have hresend : ReSendTransactionsIfRequired anh mem proxy =
      { anh := anh, err := some (.external e), calls := [.GetAccount] } := by
    simp [ReSendTransactionsIfRequired, hacc]
  have hanh : (ApplyNonceAndGasPrice anh mem proxy tx).anh = anh := by
    rcases ptr_sameNonce_cases anh mem tx with ⟨oldTx, hold, hrej⟩ | hpass
    · rw [ptr_apply_reject anh mem proxy tx oldTx _ hold hrej]
    · rw [ptr_apply_pass anh mem proxy tx hpass, ptr_getNonce_error anh proxy e hacc]
  refine ⟨hanh, ?_, ?_, ?_, ?_, ?_, by rw [hresend], by rw [hresend]⟩
  · rcases ptr_sameNonce_cases anh mem tx with ⟨oldTx, hold, hrej⟩ | hpass
    · rw [ptr_apply_reject anh mem proxy tx oldTx _ hold hrej]
      intro h
      cases h
    · rw [ptr_apply_pass anh mem proxy tx hpass, ptr_getNonce_error anh proxy e hacc]
      intro _
      exact ⟨rfl, write_same _ _ _⟩
  · rcases ptr_sameNonce_cases anh mem tx with ⟨oldTx, hold, hrej⟩ | hpass
    · rw [ptr_apply_reject anh mem proxy tx oldTx _ hold hrej]
      intro _
      exact ⟨rfl, rfl⟩
    · rw [ptr_apply_pass anh mem proxy tx hpass, ptr_getNonce_error anh proxy e hacc]
      intro h
      exact absurd (List.mem_singleton.mpr rfl) h
  · intro p hp
    rcases ptr_sameNonce_cases anh mem tx with ⟨oldTx, hold, hrej⟩ | hpass
    · rw [ptr_apply_reject anh mem proxy tx oldTx _ hold hrej]
    · rw [ptr_apply_pass anh mem proxy tx hpass, ptr_getNonce_error anh proxy e hacc]
      exact write_other _ _ _ _ hp
  · intro hstored
    rcases ptr_sameNonce_cases anh mem tx with ⟨oldTx, hold, hrej⟩ | hpass
    · rw [ptr_apply_reject anh mem proxy tx oldTx _ hold hrej]
    · rw [ptr_apply_pass anh mem proxy tx hpass, ptr_getNonce_error anh proxy e hacc]
      exact view_write_of_not_stored anh mem tx _ hstored
  · intro laterProxy laterTx hok
    rw [hanh] at hok ⊢
    obtain ⟨-, h2, h3, -⟩ := ptr_apply_success anh _ laterProxy laterTx hok
    refine ⟨?_, h2⟩
    rw [h3, write_same]

/-- Witness for C18 (amended): the account read is cancelled on a call with the stored
transaction of pointer 1; the handler is unchanged, the error is returned and the
transaction behind pointer 2 is untouched. -/
theorem failed_read_keeps_handler_rewrites_draft_witness :
    (ApplyNonceAndGasPrice handlerStoringDraft memoryStoringDraft failingProxy 1).anh =
      handlerStoringDraft ∧
    (ApplyNonceAndGasPrice handlerStoringDraft memoryStoringDraft failingProxy 1).err =
      some (.external "context canceled") ∧
    (ApplyNonceAndGasPrice handlerStoringDraft memoryStoringDraft failingProxy 1).mem 2 =
      memoryStoringDraft 2 ∧
    (ReSendTransactionsIfRequired handlerStoringDraft memoryStoringDraft failingProxy).anh =
      handlerStoringDraft :=
  ⟨(failed_read_keeps_handler_rewrites_draft handlerStoringDraft memoryStoringDraft
      failingProxy 1 "context canceled" rfl).1,
   ((failed_read_keeps_handler_rewrites_draft handlerStoringDraft memoryStoringDraft
      failingProxy 1 "context canceled" rfl).2.1 (by decide)).1,
   (failed_read_keeps_handler_rewrites_draft handlerStoringDraft memoryStoringDraft
      failingProxy 1 "context canceled" rfl).2.2.2.1 2 (by decide),
   (failed_read_keeps_handler_rewrites_draft handlerStoringDraft memoryStoringDraft
      failingProxy 1 "context canceled" rfl).2.2.2.2.2.2.2⟩

end Pointers
end NonceHandlerV2

/-! ## Claims on version 1 -/

namespace NonceHandlerV1

open NonceHandlerV2 (FrontendTransaction Account Proxy Error AddressHandler MaxUint64 uint64Size
  stubProxy draftTx)

/-- C19: on the version 1 handler, `markReFetchNonce` sets `computedNonceWasSet` to false
and changes nothing else; the next `getNonceUpdatingCurrent` whose account read succeeds
returns exactly the ledger's account nonce without error, stores it as `computedNonce` and
sets `computedNonceWasSet`, whatever the previous `computedNonce` was (also when the ledger
nonce is lower). -/
theorem markReFetchNonce_rebootstraps (anh : addressNonceHandler) (proxy : Proxy)
    (account : Account)
    (hacc : proxy.GetAccount = .ok account) :
    (markReFetchNonce anh).computedNonceWasSet = false ∧
    (markReFetchNonce anh).computedNonce = anh.computedNonce ∧
    (markReFetchNonce anh).transactions = anh.transactions ∧
    (markReFetchNonce anh).address = anh.address ∧
    (getNonceUpdatingCurrent (markReFetchNonce anh) proxy).err = none ∧
    (getNonceUpdatingCurrent (markReFetchNonce anh) proxy).nonce = account.Nonce ∧
    (getNonceUpdatingCurrent (markReFetchNonce anh) proxy).anh.computedNonce = account.Nonce ∧
    (getNonceUpdatingCurrent (markReFetchNonce anh) proxy).anh.computedNonceWasSet = true ∧
    (getNonceUpdatingCurrent (markReFetchNonce anh) proxy).anh.transactions =
      anh.transactions := by
  refine ⟨rfl, rfl, rfl, rfl, ?_, ?_, ?_, ?_, ?_⟩ <;>
    simp [getNonceUpdatingCurrent, markReFetchNonce, hacc]

/-- Witness for C19: the counter stood at 40 and the ledger reports 7. -/
theorem markReFetchNonce_rebootstraps_witness :
    handlerAt40.computedNonce = 40 ∧
    (getNonceUpdatingCurrent (markReFetchNonce handlerAt40) (stubProxy 7 5)).nonce = 7 ∧
    (getNonceUpdatingCurrent (markReFetchNonce handlerAt40)
      (stubProxy 7 5)).anh.computedNonce = 7 :=
  ⟨rfl,
   (markReFetchNonce_rebootstraps handlerAt40 (stubProxy 7 5)
      { Address := "drt1test", Nonce := 7, Balance := "0" } rfl).2.2.2.2.2.1,
   (markReFetchNonce_rebootstraps handlerAt40 (stubProxy 7 5)
      { Address := "drt1test", Nonce := 7, Balance := "0" } rfl).2.2.2.2.2.2.1⟩

/-- C26 (counterexample): on a fresh version 1 handler with the ledger at 0 the first
`getNonceUpdatingCurrent` returns 0; `decrementComputedNonce` cannot go below 0, and the
next `getNonceUpdatingCurrent` returns 1. -/
theorem decrement_does_not_undo_at_zero :
    (getNonceUpdatingCurrent freshHandlerV1 (stubProxy 0 5)).err = none ∧
    (getNonceUpdatingCurrent freshHandlerV1 (stubProxy 0 5)).nonce = 0 ∧
    (getNonceUpdatingCurrent
      (decrementComputedNonce (getNonceUpdatingCurrent freshHandlerV1 (stubProxy 0 5)).anh)
      (stubProxy 0 5)).err = none ∧
    (getNonceUpdatingCurrent
      (decrementComputedNonce (getNonceUpdatingCurrent freshHandlerV1 (stubProxy 0 5)).anh)
      (stubProxy 0 5)).nonce = 1 := by
  decide

/-- C26 (amended): on the version 1 handler, after a successful `getNonceUpdatingCurrent`
that returned a nonce `n` above 0, calling `decrementComputedNonce` and then
`getNonceUpdatingCurrent` again (ledger nonce unchanged) returns `n` again; and when the
stored `computedNonce` was above 0 after the first call, the handler state after the second
call is the state after the first call.  (The ledger nonce is a `uint64` value.) -/
theorem decrement_undoes_assignment (anh : addressNonceHandler) (proxy : Proxy)
    (account : Account)
    (hacc : proxy.GetAccount = .ok account)
    (hL : account.Nonce < uint64Size)
    (hpos : 0 < (getNonceUpdatingCurrent anh proxy).nonce) :
    (getNonceUpdatingCurrent anh proxy).err = none ∧
    (getNonceUpdatingCurrent
      (decrementComputedNonce (getNonceUpdatingCurrent anh proxy).anh) proxy).err = none ∧
    (getNonceUpdatingCurrent
      (decrementComputedNonce (getNonceUpdatingCurrent anh proxy).anh) proxy).nonce =
        (getNonceUpdatingCurrent anh proxy).nonce ∧
    (0 < (getNonceUpdatingCurrent anh proxy).anh.computedNonce →
      (getNonceUpdatingCurrent
        (decrementComputedNonce (getNonceUpdatingCurrent anh proxy).anh) proxy).anh =
          (getNonceUpdatingCurrent anh proxy).anh) := by
  cases hset : anh.computedNonceWasSet
  · have h1 : getNonceUpdatingCurrent anh proxy =
        { anh := { anh with computedNonce := account.Nonce, computedNonceWasSet := true },
          nonce := account.Nonce, err := none } := by
      simp [getNonceUpdatingCurrent, hacc, hset]
    rw [h1] at hpos ⊢
    simp only at hpos
    have hmod : (account.Nonce - 1 + 1) % uint64Size = account.Nonce := by
      rw [Nat.sub_add_cancel hpos]
      exact Nat.mod_eq_of_lt hL
    simp [getNonceUpdatingCurrent, decrementComputedNonce, hacc, hpos, hmod,
      NonceHandlerV2.maxUint64_eq_max]
  · have h1 : getNonceUpdatingCurrent anh proxy =
        { anh := { anh with computedNonce := (anh.computedNonce + 1) % uint64Size },
          nonce := max ((anh.computedNonce + 1) % uint64Size) account.Nonce,
          err := none } := by
      simp [getNonceUpdatingCurrent, hacc, hset, NonceHandlerV2.maxUint64_eq_max]
    rw [h1] at hpos ⊢
    simp only at hpos
    have hlt : (anh.computedNonce + 1) % uint64Size < uint64Size :=
      Nat.mod_lt _ (by decide)
    by_cases hc : 0 < (anh.computedNonce + 1) % uint64Size
    · have hmod : ((anh.computedNonce + 1) % uint64Size - 1 + 1) % uint64Size =
          (anh.computedNonce + 1) % uint64Size := by
        rw [Nat.sub_add_cancel hc]
        exact Nat.mod_eq_of_lt hlt
      simp [getNonceUpdatingCurrent, decrementComputedNonce, hacc, hset, hc, hmod,
        NonceHandlerV2.maxUint64_eq_max]
    · have hz : (anh.computedNonce + 1) % uint64Size = 0 := by omega
      have hLpos : 0 < account.Nonce := by
        rw [hz] at hpos
        simpa using hpos
      have h1mod : (0 + 1) % uint64Size = 1 := by decide
      simp [getNonceUpdatingCurrent, decrementComputedNonce, hacc, hset, hz, h1mod,
        NonceHandlerV2.maxUint64_eq_max]
      omega

/-- Witness for C26 (amended): the counter stands at 40 and the ledger at 7; the call
returns 41, and after the decrement it returns 41 again. -/
theorem decrement_undoes_assignment_witness :
    (getNonceUpdatingCurrent handlerAt40 (stubProxy 7 5)).nonce = 41 ∧
    (getNonceUpdatingCurrent
      (decrementComputedNonce (getNonceUpdatingCurrent handlerAt40 (stubProxy 7 5)).anh)
      (stubProxy 7 5)).nonce = (getNonceUpdatingCurrent handlerAt40 (stubProxy 7 5)).nonce :=
  ⟨by decide,
   (decrement_undoes_assignment handlerAt40 (stubProxy 7 5)
      { Address := "drt1test", Nonce := 7, Balance := "0" } rfl (by decide) (by decide)).2.2.1⟩

end NonceHandlerV1

/-! ## Claims on the endpoint providers -/

namespace EndpointProviders

/-- C21: for every shard `s`, nonce `n`, epoch `e` and hash string `h`, the proxy endpoint
provider renders the six endpoints with the shard, nonce and epoch in decimal and the hash
as it is, and the node endpoint provider's results do not depend on the shard. -/
theorem endpoints_rendered (s s' n e : Nat) (h : String) :
    proxyEndpointProvider.GetNodeStatus s = "network/status/" ++ toString s ∧
    proxyEndpointProvider.GetRawBlockByHash s h =
      "internal/" ++ toString s ++ "/raw/block/by-hash/" ++ h ∧
    proxyEndpointProvider.GetRawBlockByNonce s n =
      "internal/" ++ toString s ++ "/raw/block/by-nonce/" ++ toString n ∧
    proxyEndpointProvider.GetRawMiniBlockByHash s h e =
      "internal/" ++ toString s ++ "/raw/miniblock/by-hash/" ++ h ++ "/epoch/" ++ toString e ∧
    proxyEndpointProvider.GetBlockByNonce s n =
      "block/" ++ toString s ++ "/by-nonce/" ++ toString n ∧
    proxyEndpointProvider.GetBlockByHash s h = "block/" ++ toString s ++ "/by-hash/" ++ h ∧
    nodeEndpointProvider.GetNodeStatus s = nodeEndpointProvider.GetNodeStatus s' ∧
    nodeEndpointProvider.GetRawBlockByHash s h = nodeEndpointProvider.GetRawBlockByHash s' h ∧
    nodeEndpointProvider.GetRawBlockByNonce s n =
      nodeEndpointProvider.GetRawBlockByNonce s' n ∧
    nodeEndpointProvider.GetRawMiniBlockByHash s h e =
      nodeEndpointProvider.GetRawMiniBlockByHash s' h e ∧
    nodeEndpointProvider.GetBlockByNonce s n = nodeEndpointProvider.GetBlockByNonce s' n ∧
    nodeEndpointProvider.GetBlockByHash s h = nodeEndpointProvider.GetBlockByHash s' h := by
  refine ⟨?_, ?_, ?_, ?_, ?_, ?_, rfl, rfl, rfl, rfl, rfl, rfl⟩
  · apply String.ext
    simp [proxyEndpointProvider.GetNodeStatus, Sprintf, proxyGetNodeStatus, sprintfChars,
      String.toList]
  · apply String.ext
    simp [proxyEndpointProvider.GetRawBlockByHash, Sprintf, proxyRawBlockByHash, sprintfChars,
      String.toList]
  · apply String.ext
    simp [proxyEndpointProvider.GetRawBlockByNonce, Sprintf, proxyRawBlockByNonce,
      sprintfChars, String.toList]
  · apply String.ext
    simp [proxyEndpointProvider.GetRawMiniBlockByHash, Sprintf, proxyRawMiniBlockByHash,
      sprintfChars, String.toList]
  · apply String.ext
    simp [proxyEndpointProvider.GetBlockByNonce, Sprintf, proxyBlockByNonce, sprintfChars,
      String.toList]
  · apply String.ext
    simp [proxyEndpointProvider.GetBlockByHash, Sprintf, proxyBlockByHash, sprintfChars,
      String.toList]

/-- Witness for C21: the values of the package's tests, the metachain shard being
4294967295. -/
theorem endpoints_rendered_witness :
    proxyEndpointProvider.GetNodeStatus 4294967295 = "network/status/4294967295" ∧
    proxyEndpointProvider.GetRawMiniBlockByHash 2 "hex" 4 =
      "internal/2/raw/miniblock/by-hash/hex/epoch/4" ∧
    nodeEndpointProvider.GetRawBlockByNonce 2 3 = "internal/raw/block/by-nonce/3" :=
  ⟨(endpoints_rendered 4294967295 0 3 4 "hex").1.trans (by decide),
   (endpoints_rendered 2 0 3 4 "hex").2.2.2.1.trans (by decide),
   by decide⟩

end EndpointProviders

/-! ## Claims on the move-balance workflow -/

namespace Workflows

open NonceHandlerV2 (FrontendTransaction NetworkConfig uint64Size)

/-- Below `2 ^ 63` the conversion to `int64` keeps the value. -/
theorem toInt64_of_lt (x : Nat) (h : x < 2 ^ 63) : toInt64 x = (x : Int) := by
  have hx : x % uint64Size = x := Nat.mod_eq_of_lt (by unfold uint64Size; omega)
  unfold toInt64
  rw [hx]
  rw [if_pos h]

/-- With empty data the fee is the product of the two `int64` conversions. -/
theorem computeTxFee_no_data (cfg : NetworkConfig) (tx : FrontendTransaction)
    (hdata : tx.Data = []) :
    computeTxFee cfg tx = toInt64 tx.GasPrice * toInt64 cfg.MinGasLimit := by
  unfold computeTxFee
  simp only [hdata, List.length_nil, Nat.zero_mul, Nat.zero_mod, Nat.add_zero]
  congr 1
  unfold toInt64
  simp

/-- C22 (the code at the failing input): the proxy proposes gas price `2 ^ 63`, the
minimum gas limit is 50000 and the available balance is `10 ^ 30`, above the threshold.
One transaction is added, with value `10 ^ 30 + 2 ^ 63 * 50000`; the value the claim states
is `10 ^ 30 - 2 ^ 63 * 50000`. -/
theorem moveBalance_fee_sign_flips :
    (generateTransaction (testHandler 1000)
      (testEnv 9223372036854775808 1000000000000000000000000000000) "drt1tracked").err = none ∧
    (generateTransaction (testHandler 1000)
      (testEnv 9223372036854775808 1000000000000000000000000000000) "drt1tracked").added =
      [{ defaultTx 9223372036854775808 with
          Data := [], Receiver := "drt1hot", Signature := "sig",
          Value := "1000000461168601842738790400000" }] ∧
    toString ((1000000000000000000000000000000 : Int) - 9223372036854775808 * 50000) =
      "999999538831398157261209600000" := by
  decide

/-- C30 (counterexample): the threshold is 0 and the available balance is 0; with gas price
1000000000 and minimum gas limit 50000 the handler adds a transaction whose value is
-50000000000000. -/
theorem moveBalance_negative_value :
    (generateTransaction (testHandler 0) (testEnv 1000000000 0) "drt1tracked").err = none ∧
    (generateTransaction (testHandler 0) (testEnv 1000000000 0) "drt1tracked").added =
      [{ defaultTx 1000000000 with
          Data := [], Receiver := "drt1hot", Signature := "sig",
          Value := "-50000000000000" }] := by
  decide

/-- C30 (amended): whenever `generateTransaction` adds a transaction (gas price and minimum
gas limit below `2 ^ 63`), the available balance is at least `MinimumBalance` and the
transaction is the signed form of the proposed transaction with empty data, the configured
receiver and value `availableBalance - fee`, where `fee = GasPrice * MinGasLimit` as exact
integers.  That value is non-negative exactly when the available balance covers the fee,
which is guaranteed when `MinimumBalance` itself is at least the fee. -/
theorem moveBalance_value (mbh : moveBalanceHandler) (env : Collaborators) (address : String)
    (cfg : NetworkConfig) (tx signedTx : FrontendTransaction) (balanceString : String)
    (balance : Int)
    (hcfg : mbh.cachedNetConfigs = some cfg)
    (hargs : env.GetDefaultTransactionArguments address cfg = .ok (tx, balanceString))
    (hparse : env.SetString balanceString = some balance)
    (hadd : (generateTransaction mbh env address).added = [signedTx])
    (hprice : tx.GasPrice < 2 ^ 63) (hlimit : cfg.MinGasLimit < 2 ^ 63) :
    mbh.minimumBalance ≤ balance ∧
    env.ApplyUserSignature
      { tx with
          Data := [], Receiver := mbh.receiverAddress,
          Value := toString (balance - (tx.GasPrice : Int) * (cfg.MinGasLimit : Int)) } =
        .ok signedTx ∧
    (0 ≤ balance - (tx.GasPrice : Int) * (cfg.MinGasLimit : Int) ↔
      (tx.GasPrice : Int) * (cfg.MinGasLimit : Int) ≤ balance) ∧
    ((tx.GasPrice : Int) * (cfg.MinGasLimit : Int) ≤ mbh.minimumBalance →
      0 ≤ balance - (tx.GasPrice : Int) * (cfg.MinGasLimit : Int)) := by
  have hfee : computeTxFee cfg { tx with Data := [], Receiver := mbh.receiverAddress } =
      (tx.GasPrice : Int) * (cfg.MinGasLimit : Int) := by
    rw [computeTxFee_no_data cfg _ rfl, toInt64_of_lt _ hlimit]
    show toInt64 tx.GasPrice * _ = _
    rw [toInt64_of_lt _ hprice]
  unfold generateTransaction at hadd
  cases haddr : env.NewAddressFromBech32String address with
  | error e => simp [haddr] at hadd
  | ok u =>
    simp only [haddr, hcfg, hargs, hparse] at hadd
    by_cases hlt : balance < mbh.minimumBalance
    · simp [hlt] at hadd
    · simp only [hlt, if_false, hfee] at hadd
      cases hkey : env.NewCryptoComponentsHolder (env.PrivateKeyOfBech32Address address) with
      | error e => simp [hkey] at hadd
      | ok holder =>
        simp only [hkey] at hadd
        cases hsign : env.ApplyUserSignature
            { tx with
                Data := [], Receiver := mbh.receiverAddress,
                Value := toString (balance - (tx.GasPrice : Int) * (cfg.MinGasLimit : Int)) } with
        | error e => simp [hsign] at hadd
        | ok s =>
          simp only [hsign, List.cons.injEq, and_true] at hadd
          subst hadd
          refine ⟨by omega, rfl, by omega, ?_⟩
          intro h
          omega

/-- Witness for C30 (amended): balance 60000000000000 and fee 50000000000000 leave the
value 10000000000000. -/
theorem moveBalance_value_witness :
    (generateTransaction (testHandler 0) (testEnv 1000000000 60000000000000)
      "drt1tracked").added =
      [{ defaultTx 1000000000 with
          Data := [], Receiver := "drt1hot", Signature := "sig",
          Value := "10000000000000" }] ∧
    (testEnv 1000000000 60000000000000).ApplyUserSignature
      { defaultTx 1000000000 with
          Data := [], Receiver := (testHandler 0).receiverAddress,
          Value := toString ((60000000000000 : Int) -
            ((defaultTx 1000000000).GasPrice : Int) * (testConfig.MinGasLimit : Int)) } =
      .ok { defaultTx 1000000000 with
          Data := [], Receiver := "drt1hot", Signature := "sig",
          Value := "10000000000000" } :=
  ⟨by decide,
   (moveBalance_value (testHandler 0) (testEnv 1000000000 60000000000000) "drt1tracked"
      testConfig (defaultTx 1000000000)
      { defaultTx 1000000000 with
          Data := [], Receiver := "drt1hot", Signature := "sig",
          Value := "10000000000000" }
      (toString (60000000000000 : Int)) 60000000000000 rfl rfl (by decide) (by decide)
      (by decide) (by decide)).2.1⟩

end Workflows

/-! ## Claims on the price notifee -/

namespace Notifees

open NonceHandlerV2 (FrontendTransaction NetworkConfig uint64Size AddressHandler)

/-- The path of `PriceChanged` after the data, the configuration and the address were
obtained: the transaction built, the requests made and the error returned. -/
theorem priceChanged_success_path (en : drtNotifee) (env : Collaborators)
    (priceChanges : List ArgsPriceChanged) (txData : List Nat) (cfg : NetworkConfig)
    (receiver : String)
    (hdata : env.prepareTxData priceChanges = .ok txData)
    (hcfg : env.GetNetworkConfig = .ok cfg)
    (haddr : en.contractAddress.AddressAsBech32String = .ok receiver) :
    ∃ tx : FrontendTransaction,
      tx = { Nonce := 0, Value := "0", Receiver := receiver, Sender := "",
             GasPrice := cfg.MinGasPrice,
             GasLimit := (en.baseGasLimit +
               (priceChanges.length * en.gasLimitForEach) % uint64Size) % uint64Size,
             Data := txData, Signature := "", ChainID := cfg.ChainID, Version := 1,
             Options := 0 } ∧
      (en.baseGasLimit + priceChanges.length * en.gasLimitForEach < uint64Size →
        tx.GasLimit = en.baseGasLimit + priceChanges.length * en.gasLimitForEach) ∧
      (PriceChanged en env priceChanges).calls.take 2 =
        [Call.GetNetworkConfig, Call.ApplyNonceAndGasPrice tx] ∧
      (∀ e, (env.ApplyNonceAndGasPrice tx).2 = some e →
        PriceChanged en env priceChanges =
          { err := some e, calls := [.GetNetworkConfig, .ApplyNonceAndGasPrice tx] }) ∧
      (∀ e, (env.ApplyNonceAndGasPrice tx).2 = none →
        (env.ApplyUserSignature (env.ApplyNonceAndGasPrice tx).1).2 = some e →
        PriceChanged en env priceChanges =
          { err := some e,
            calls := [.GetNetworkConfig, .ApplyNonceAndGasPrice tx,
                      .ApplyUserSignature (env.ApplyNonceAndGasPrice tx).1] }) ∧
      ((env.ApplyNonceAndGasPrice tx).2 = none →
        (env.ApplyUserSignature (env.ApplyNonceAndGasPrice tx).1).2 = none →
        (PriceChanged en env priceChanges).calls =
          [.GetNetworkConfig, .ApplyNonceAndGasPrice tx,
           .ApplyUserSignature (env.ApplyNonceAndGasPrice tx).1,
           .SendTransaction (env.ApplyUserSignature (env.ApplyNonceAndGasPrice tx).1).1] ∧
        (∀ e, env.SendTransaction (env.ApplyUserSignature (env.ApplyNonceAndGasPrice tx).1).1 =
            .error e → (PriceChanged en env priceChanges).err = some e) ∧
        (∀ h, env.SendTransaction (env.ApplyUserSignature (env.ApplyNonceAndGasPrice tx).1).1 =
            .ok h → (PriceChanged en env priceChanges).err = none)) := by
  refine ⟨_, rfl, ?_, ?_, ?_, ?_, ?_⟩
  · intro hfit
    have h1 : priceChanges.length * en.gasLimitForEach < uint64Size := by omega
    simp only [Nat.mod_eq_of_lt h1, Nat.mod_eq_of_lt hfit]
  · unfold PriceChanged
    simp only [hdata, hcfg, haddr, zeroString, txVersion]
    split
    · rfl
    · split
      · rfl
      · split <;> rfl
  · intro e he
    unfold PriceChanged
    simp only [hdata, hcfg, haddr, zeroString, txVersion, he]
  · intro e hn hs
    unfold PriceChanged
    simp only [hdata, hcfg, haddr, zeroString, txVersion, hn, hs]
  · intro hn hs
    unfold PriceChanged
    simp only [hdata, hcfg, haddr, zeroString, txVersion, hn, hs]
    refine ⟨?_, ?_, ?_⟩
    · split <;> rfl
    · intro e he
      simp only [he]
    · intro h hh
      simp only [hh]

/-- The early failures of `PriceChanged`: an error of the data builder, of the
configuration request or of the address rendering is returned as it is, and the
transaction is neither handed to the nonce handler nor sent. -/
theorem priceChanged_early_errors (en : drtNotifee) (env : Collaborators)
    (priceChanges : List ArgsPriceChanged) :
    (∀ e, env.prepareTxData priceChanges = .error e →
      PriceChanged en env priceChanges = { err := some e, calls := [] }) ∧
    (∀ txData e, env.prepareTxData priceChanges = .ok txData →
      env.GetNetworkConfig = .error e →
      PriceChanged en env priceChanges = { err := some e, calls := [.GetNetworkConfig] }) ∧
    (∀ txData cfg e, env.prepareTxData priceChanges = .ok txData →
      env.GetNetworkConfig = .ok cfg → en.contractAddress.AddressAsBech32String = .error e →
      PriceChanged en env priceChanges = { err := some e, calls := [.GetNetworkConfig] }) := by
  refine ⟨?_, ?_, ?_⟩
  · intro e he
    unfold PriceChanged
    simp only [he]
  · intro txData e hd he
    unfold PriceChanged
    simp only [hd, he]
  · intro txData cfg e hd hc he
    unfold PriceChanged
    simp only [hd, hc, he]

/-- C23 (counterexample): with the version 2 nonce handler whose floor was raised to 11,
two price changes and the fetched minimum gas price 10, the call succeeds and the
transaction handed to `SendTransaction` has gas price 11 (and the nonce, sender and
signature written by the collaborators).  With base gas limit `2 ^ 64 - 1` and 30 per price
change the transaction handed to the nonce handler has gas limit 59, not
`2 ^ 64 - 1 + 2 * 30`. -/
theorem priceChanged_sent_differs :
    (PriceChanged testNotifee handlerCollaborators twoPriceChanges).err = none ∧
    (PriceChanged testNotifee handlerCollaborators twoPriceChanges).calls.take 2 =
      [Call.GetNetworkConfig,
       Call.ApplyNonceAndGasPrice
        { Nonce := 0, Value := "0", Receiver := "drt1contract", Sender := "", GasPrice := 10,
          GasLimit := 2060, Data := [115, 117, 98], Signature := "", ChainID := "test",
          Version := 1, Options := 0 }] ∧
    (PriceChanged testNotifee handlerCollaborators twoPriceChanges).calls.getLast? =
      some (Call.SendTransaction
        { Nonce := 50, Value := "0", Receiver := "drt1contract", Sender := "drt1sender",
          GasPrice := 11, GasLimit := 2060, Data := [115, 117, 98], Signature := "sig",
          ChainID := "test", Version := 1, Options := 0 }) ∧
    (PriceChanged maxBaseNotifee testCollaborators twoPriceChanges).calls.take 2 =
      [Call.GetNetworkConfig,
       Call.ApplyNonceAndGasPrice
        { Nonce := 0, Value := "0", Receiver := "drt1contract", Sender := "", GasPrice := 10,
          GasLimit := 59, Data := [115, 117, 98], Signature := "", ChainID := "test",
          Version := 1, Options := 0 }] ∧
    maxBaseNotifee.baseGasLimit + twoPriceChanges.length * maxBaseNotifee.gasLimitForEach =
      18446744073709551675 := by
  decide

/-- C23 (amended): when the `n` price changes encode to `txData`, the configuration is
fetched and the contract address renders in bech32, `PriceChanged` hands to the nonce
handler the transaction with `GasLimit = baseGasLimit + n * gasLimitForEach` in `uint64`
arithmetic (the sum modulo `2 ^ 64`, which is the sum itself when it is below `2 ^ 64`),
`Value` "0", `Version` 1, the contract address as `Receiver`, `GasPrice` and `ChainID` of
the fetched configuration and `txData` as data; what it sends is that transaction as the
nonce handler and then the transaction builder left it.  When building the data, fetching
the configuration, rendering the address, applying the nonce or signing fails, that error
is returned and `SendTransaction` is not called. -/
theorem priceChanged_builds_and_sends (en : drtNotifee) (env : Collaborators)
    (priceChanges : List ArgsPriceChanged) :
    (∀ e, env.prepareTxData priceChanges = .error e →
      PriceChanged en env priceChanges = { err := some e, calls := [] }) ∧
    (∀ txData e, env.prepareTxData priceChanges = .ok txData →
      env.GetNetworkConfig = .error e →
      PriceChanged en env priceChanges = { err := some e, calls := [.GetNetworkConfig] }) ∧
    (∀ txData cfg e, env.prepareTxData priceChanges = .ok txData →
      env.GetNetworkConfig = .ok cfg → en.contractAddress.AddressAsBech32String = .error e →
      PriceChanged en env priceChanges = { err := some e, calls := [.GetNetworkConfig] }) ∧
    (∀ txData cfg receiver, env.prepareTxData priceChanges = .ok txData →
      env.GetNetworkConfig = .ok cfg →
      en.contractAddress.AddressAsBech32String = .ok receiver →
      ∃ tx : FrontendTransaction,
        tx = { Nonce := 0, Value := "0", Receiver := receiver, Sender := "",
               GasPrice := cfg.MinGasPrice,
               GasLimit := (en.baseGasLimit +
                 (priceChanges.length * en.gasLimitForEach) % uint64Size) % uint64Size,
               Data := txData, Signature := "", ChainID := cfg.ChainID, Version := 1,
               Options := 0 } ∧
        (en.baseGasLimit + priceChanges.length * en.gasLimitForEach < uint64Size →
          tx.GasLimit = en.baseGasLimit + priceChanges.length * en.gasLimitForEach) ∧
        (PriceChanged en env priceChanges).calls.take 2 =
          [Call.GetNetworkConfig, Call.ApplyNonceAndGasPrice tx] ∧
        (∀ e, (env.ApplyNonceAndGasPrice tx).2 = some e →
          PriceChanged en env priceChanges =
            { err := some e, calls := [.GetNetworkConfig, .ApplyNonceAndGasPrice tx] }) ∧
        (∀ e, (env.ApplyNonceAndGasPrice tx).2 = none →
          (env.ApplyUserSignature (env.ApplyNonceAndGasPrice tx).1).2 = some e →
          PriceChanged en env priceChanges =
            { err := some e,
              calls := [.GetNetworkConfig, .ApplyNonceAndGasPrice tx,
                        .ApplyUserSignature (env.ApplyNonceAndGasPrice tx).1] }) ∧
        ((env.ApplyNonceAndGasPrice tx).2 = none →
          (env.ApplyUserSignature (env.ApplyNonceAndGasPrice tx).1).2 = none →
          (PriceChanged en env priceChanges).calls =
            [.GetNetworkConfig, .ApplyNonceAndGasPrice tx,
             .ApplyUserSignature (env.ApplyNonceAndGasPrice tx).1,
             .SendTransaction (env.ApplyUserSignature (env.ApplyNonceAndGasPrice tx).1).1] ∧
          (∀ e, env.SendTransaction (env.ApplyUserSignature (env.ApplyNonceAndGasPrice tx).1).1 =
              .error e → (PriceChanged en env priceChanges).err = some e) ∧
          (∀ h, env.SendTransaction (env.ApplyUserSignature (env.ApplyNonceAndGasPrice tx).1).1 =
              .ok h → (PriceChanged en env priceChanges).err = none))) := by
  obtain ⟨h1, h2, h3⟩ := priceChanged_early_errors en env priceChanges
  exact ⟨h1, h2, h3, fun txData cfg receiver hdata hcfg haddr =>
    priceChanged_success_path en env priceChanges txData cfg receiver hdata hcfg haddr⟩

/-- Witness for C23 (amended): two price changes with base gas limit 2000 and 30 per price change
give gas limit 2060; the transaction sent carries nonce 43, the sender and the signature
set by the collaborators. -/
theorem priceChanged_builds_and_sends_witness :
    (PriceChanged testNotifee testCollaborators twoPriceChanges).err = none ∧
    (PriceChanged testNotifee testCollaborators twoPriceChanges).calls.take 2 =
      [Call.GetNetworkConfig,
       Call.ApplyNonceAndGasPrice
        { Nonce := 0, Value := "0", Receiver := "drt1contract", Sender := "", GasPrice := 10,
          GasLimit := 2060, Data := [115, 117, 98], Signature := "", ChainID := "test",
          Version := 1, Options := 0 }] :=
  ⟨by decide,
   ((priceChanged_builds_and_sends testNotifee testCollaborators twoPriceChanges).2.2.2
      [115, 117, 98]
      { ChainID := "test", GasPerDataByte := 1500, MinGasLimit := 50000, MinGasPrice := 10,
        MinTransactionVersion := 1 } "drt1contract" rfl rfl rfl).elim
      (fun _ h => (h.2.2.1).trans (by rw [h.1]; decide))⟩

end Notifees

/-! ## Claims on the native authentication client -/

namespace NativeAuth

/-- A call made while the stored expiry instant is set and not passed returns the cached
token, changes nothing and makes no request. -/
theorem getAccessToken_cached (nac : authClient) (env : Collaborators) (now clock : Int)
    (hset : nac.tokenExpire ≠ 0) (hnow : now ≤ nac.tokenExpire) :
    GetAccessToken nac env now clock =
      { nac := nac, token := nac.token, err := none, calls := [] } := by
  unfold GetAccessToken
  have h1 : decide (nac.tokenExpire = 0) = false := by simpa using hset
  have h2 : decide (now > nac.tokenExpire) = false := by simpa using hnow
  simp only [h1, h2, Bool.or_self, Bool.false_eq_true, if_false]

/-- Whatever `createNewToken` does, it starts by asking the proxy for the latest
hyperblock. -/
theorem createNewToken_first_call (nac : authClient) (env : Collaborators) (clock : Int) :
    (createNewToken nac env clock).calls.head? = some Call.GetLatestHyperBlockNonce := by
  unfold createNewToken
  split
  · rfl
  · split
    · rfl
    · dsimp only
      split
      · rfl
      · split <;> rfl

/-- A call made after the stored expiry instant asks the proxy for the latest hyperblock,
that is, it sets out to create a new token. -/
theorem getAccessToken_expired (nac : authClient) (env : Collaborators) (now clock : Int)
    (hnow : nac.tokenExpire < now) :
    (GetAccessToken nac env now clock).calls.head? = some Call.GetLatestHyperBlockNonce := by
  unfold GetAccessToken
  have h2 : decide (now > nac.tokenExpire) = true := by simpa using hnow
  simp only [h2, Bool.or_true, if_true]
  split <;> exact createNewToken_first_call nac env clock

/-- The expiry instant stored by a successful `createNewToken` is the reading of the clock
plus `tokenExpiryInSeconds` nanoseconds. -/
theorem createNewToken_expiry (nac : authClient) (env : Collaborators) (clock : Int)
    (hok : (createNewToken nac env clock).err = none) :
    (createNewToken nac env clock).nac.tokenExpire = clock + nac.tokenExpiryInSeconds := by
  revert hok
  unfold createNewToken
  split
  · intro h; simp at h
  · split
    · intro h; simp at h
    · dsimp only
      split
      · intro h; simp at h
      · split
        · intro h; simp at h
        · intro _; rfl

/-- C27 fails on the code: a client configured with `TokenExpiryInSeconds` 3600 creates a
token at an instant t; the stored expiry instant is t plus 3600 nanoseconds, not seconds,
so the call made one second later, well inside the 3600 seconds, asks the proxy and the
signer again and returns a new token. -/
theorem token_recreated_within_expiry :
    (GetAccessToken hourClient (envAtBlock 5) creationInstant creationInstant).err = none ∧
    (GetAccessToken hourClient (envAtBlock 5) creationInstant creationInstant).token =
      "drt1user.hash5" ∧
    (GetAccessToken hourClient (envAtBlock 5) creationInstant creationInstant).nac.tokenExpire =
      creationInstant + 3600 ∧
    creationInstant ≤ creationInstant + Second ∧
    creationInstant + Second ≤ creationInstant + hourClient.tokenExpiryInSeconds * Second ∧
    (GetAccessToken
        (GetAccessToken hourClient (envAtBlock 5) creationInstant creationInstant).nac
        (envAtBlock 6) (creationInstant + Second) (creationInstant + Second)).calls =
      [Call.GetLatestHyperBlockNonce, Call.GetHyperBlockByNonce 6, Call.SignMessage [1, 2, 3]] ∧
    (GetAccessToken
        (GetAccessToken hourClient (envAtBlock 5) creationInstant creationInstant).nac
        (envAtBlock 6) (creationInstant + Second) (creationInstant + Second)).token =
      "drt1user.hash6" := by
  decide

end NativeAuth

/-! ## Claims on the price fetcher -/

namespace Fetchers

/-- A call of `FetchPrice` ends outside the decoded price list exactly when the pair is
supported, the getter answered and the decoded list is empty; in every other case it
returns a strictly positive price or an error. -/
theorem fetchPrice_outcomes (x : DharitriX) (base quote : String) :
    (∃ price, 0 < price ∧ FetchPrice x base quote = .ok price) ∨
    (∃ err, FetchPrice x base quote = .error err) ∨
    (FetchPrice x base quote = .indexOutOfRange ∧
      ∃ pair vars resp, x.hasPair base quote = true ∧
        fetchDharitriXTokensPair x base quote = some pair ∧
        x.Marshal { BasePrice := pair.Base, QuotePrice := pair.Quote } = .ok vars ∧
        x.Query dataApiUrl query vars = .ok resp ∧
        x.Unmarshal resp = some { Price := [] }) := by
  unfold FetchPrice
  split
  · exact Or.inr (Or.inl ⟨_, rfl⟩)
  · rename_i hp
    split
    · exact Or.inr (Or.inl ⟨_, rfl⟩)
    · rename_i pair hpair
      split
      · exact Or.inr (Or.inl ⟨_, rfl⟩)
      · rename_i vars hvars
        split
        · exact Or.inr (Or.inl ⟨_, rfl⟩)
        · rename_i resp hresp
          split
          · exact Or.inr (Or.inl ⟨_, rfl⟩)
          · rename_i graphqlResp hdec
            split
            · rename_i hnone
              refine Or.inr (Or.inr ⟨rfl, pair, vars, resp, by simpa using hp, hpair, hvars,
                hresp, ?_⟩)
              have hnil : graphqlResp.Price = [] := by
                cases hl : graphqlResp.Price with
                | nil => rfl
                | cons a l => rw [hl] at hnone; simp at hnone
              rw [hdec]
              cases graphqlResp
              simp_all
            · dsimp only
              split
              · exact Or.inr (Or.inl ⟨_, rfl⟩)
              · rename_i hpos
                exact Or.inl ⟨_, lt_of_not_ge hpos, rfl⟩

/-- C28 fails on the code: for the supported pair DRT-USDC and the well-formed response
body whose price list is empty, `FetchPrice` reads the first element of the empty decoded
list and ends in the run-time error "index out of range"; it returns neither a price nor
an error. -/
theorem fetchPrice_empty_price_list :
    (fetcherAnswering emptyPriceBody).hasPair "DRT" "USDC" = true ∧
    (fetcherAnswering emptyPriceBody).Unmarshal emptyPriceBody = some { Price := [] } ∧
    FetchPrice (fetcherAnswering emptyPriceBody) "DRT" "USDC" = .indexOutOfRange ∧
    (∀ price, FetchPrice (fetcherAnswering emptyPriceBody) "DRT" "USDC" ≠ .ok price) ∧
    (∀ err, FetchPrice (fetcherAnswering emptyPriceBody) "DRT" "USDC" ≠ .error err) := by
  have h : FetchPrice (fetcherAnswering emptyPriceBody) "DRT" "USDC" = .indexOutOfRange := by
    decide
  refine ⟨by decide, by decide, h, ?_, ?_⟩
  · intro price; rw [h]; exact fun hh => Outcome.noConfusion hh
  · intro err; rw [h]; exact fun hh => Outcome.noConfusion hh

end Fetchers

/-! ## Claims on the transaction signature check -/

namespace TxCheck

open NonceHandlerV2 (FrontendTransaction)

/-- When every argument is present and the signature is not empty, `checkParams` returns
no error. -/
theorem checkParams_pass (t : FrontendTransaction) (k : PublicKey) (signature : List Nat)
    (v : Signer) (m : Marshaller) (h : Hasher) (hsig : signature ≠ []) :
    checkParams (some t) (some k) signature (some v) (some m) (some h) = none := by
  have hlen : ¬ signature.length = 0 := fun hl => hsig (List.length_eq_zero.mp hl)
  simp [checkParams, hlen]

/-- When marshalling the unsigned transaction fails, `VerifyTransactionSignature` returns
that error and does not call the verifier. -/
theorem verify_marshal_error (toUnsigned : FrontendTransaction → FrontendTransaction)
    (mask : Nat) (t : FrontendTransaction) (k : PublicKey) (signature : List Nat) (v : Signer)
    (m : Marshaller) (h : Hasher) (e : String) (hsig : signature ≠ [])
    (hm : m.Marshal (toUnsigned t) = .error e) :
    VerifyTransactionSignature toUnsigned mask (some t) (some k) signature (some v) (some m)
        (some h) =
      { err := some (.external e), calls := [.Marshal (toUnsigned t)] } := by
  unfold VerifyTransactionSignature
  simp only [checkParams_pass t k signature v m h hsig, hm]

/-- C29: the parameter checks of `VerifyTransactionSignature` return, in this order of
precedence, `ErrNilTransaction`, `ErrNilSignature` for an empty signature, `ErrNilPubKey`,
`ErrNilSignatureVerifier`, `ErrNilMarshaller` and `ErrNilHasher`, and nothing is called.
When they pass and the unsigned transaction, which has the version and the options of the
transaction, marshals to `bytes`, the hasher is called exactly when the version is at least
2 and the options have a bit of `MaskSignedWithHash`; the verifier is then handed the hash
of `bytes`, otherwise `bytes` themselves, and in both cases the result of the verifier is
what the function returns. -/
theorem verify_hands_hash_or_bytes (toUnsigned : FrontendTransaction → FrontendTransaction)
    (mask : Nat) (tx : Option FrontendTransaction) (pk : Option PublicKey)
    (signature : List Nat) (verifier : Option Signer) (marshaller : Option Marshaller)
    (hasher : Option Hasher) :
    (tx = none →
      VerifyTransactionSignature toUnsigned mask tx pk signature verifier marshaller hasher =
        { err := some .ErrNilTransaction, calls := [] }) ∧
    (tx ≠ none → signature = [] →
      VerifyTransactionSignature toUnsigned mask tx pk signature verifier marshaller hasher =
        { err := some .ErrNilSignature, calls := [] }) ∧
    (tx ≠ none → signature ≠ [] → pk = none →
      VerifyTransactionSignature toUnsigned mask tx pk signature verifier marshaller hasher =
        { err := some .ErrNilPubKey, calls := [] }) ∧
    (tx ≠ none → signature ≠ [] → pk ≠ none → verifier = none →
      VerifyTransactionSignature toUnsigned mask tx pk signature verifier marshaller hasher =
        { err := some .ErrNilSignatureVerifier, calls := [] }) ∧
    (tx ≠ none → signature ≠ [] → pk ≠ none → verifier ≠ none → marshaller = none →
      VerifyTransactionSignature toUnsigned mask tx pk signature verifier marshaller hasher =
        { err := some .ErrNilMarshaller, calls := [] }) ∧
    (tx ≠ none → signature ≠ [] → pk ≠ none → verifier ≠ none → marshaller ≠ none →
      hasher = none →
      VerifyTransactionSignature toUnsigned mask tx pk signature verifier marshaller hasher =
        { err := some .ErrNilHasher, calls := [] }) ∧
    (∀ t k v m h bytes, tx = some t → pk = some k → signature ≠ [] → verifier = some v →
      marshaller = some m → hasher = some h →
      (toUnsigned t).Version = t.Version → (toUnsigned t).Options = t.Options →
      m.Marshal (toUnsigned t) = .ok bytes →
      (Call.Compute bytes ∈
          (VerifyTransactionSignature toUnsigned mask tx pk signature verifier marshaller
            hasher).calls ↔
        (t.Version ≥ 2 ∧ t.Options &&& mask > 0)) ∧
      ((t.Version ≥ 2 ∧ t.Options &&& mask > 0) →
        VerifyTransactionSignature toUnsigned mask tx pk signature verifier marshaller hasher =
          { err := (v.VerifyByteSlice (h.Compute bytes) k signature).map .external,
            calls := [.Marshal (toUnsigned t), .Compute bytes,
                      .VerifyByteSlice (h.Compute bytes) k signature] }) ∧
      (¬ (t.Version ≥ 2 ∧ t.Options &&& mask > 0) →
        VerifyTransactionSignature toUnsigned mask tx pk signature verifier marshaller hasher =
          { err := (v.VerifyByteSlice bytes k signature).map .external,
            calls := [.Marshal (toUnsigned t), .VerifyByteSlice bytes k signature] })) := by
  have hlen : signature ≠ [] → ¬ signature.length = 0 :=
    fun hs hl => hs (List.length_eq_zero.mp hl)
  refine ⟨?_, ?_, ?_, ?_, ?_, ?_, ?_⟩
  · intro h1
    subst h1
    simp [VerifyTransactionSignature, checkParams]
  · intro h1 h2
    obtain ⟨t, rfl⟩ := Option.ne_none_iff_exists'.mp h1
    subst h2
    simp [VerifyTransactionSignature, checkParams]
  · intro h1 h2 h3
    obtain ⟨t, rfl⟩ := Option.ne_none_iff_exists'.mp h1
    subst h3
    simp [VerifyTransactionSignature, checkParams, hlen h2]
  · intro h1 h2 h3 h4
    obtain ⟨t, rfl⟩ := Option.ne_none_iff_exists'.mp h1
    obtain ⟨k, rfl⟩ := Option.ne_none_iff_exists'.mp h3
    subst h4
    simp [VerifyTransactionSignature, checkParams, hlen h2]
  · intro h1 h2 h3 h4 h5
    obtain ⟨t, rfl⟩ := Option.ne_none_iff_exists'.mp h1
    obtain ⟨k, rfl⟩ := Option.ne_none_iff_exists'.mp h3
    obtain ⟨v, rfl⟩ := Option.ne_none_iff_exists'.mp h4
    subst h5
    simp [VerifyTransactionSignature, checkParams, hlen h2]
  · intro h1 h2 h3 h4 h5 h6
    obtain ⟨t, rfl⟩ := Option.ne_none_iff_exists'.mp h1
    obtain ⟨k, rfl⟩ := Option.ne_none_iff_exists'.mp h3
    obtain ⟨v, rfl⟩ := Option.ne_none_iff_exists'.mp h4
    obtain ⟨m, rfl⟩ := Option.ne_none_iff_exists'.mp h5
    subst h6
    simp [VerifyTransactionSignature, checkParams, hlen h2]
  · intro t k v m h bytes h1 h2 hsig h4 h5 h6 hV hO hm
    subst h1 h2 h4 h5 h6
    have hyes : (t.Version ≥ 2 ∧ t.Options &&& mask > 0) →
        VerifyTransactionSignature toUnsigned mask (some t) (some k) signature (some v)
            (some m) (some h) =
          { err := (v.VerifyByteSlice (h.Compute bytes) k signature).map .external,
            calls := [.Marshal (toUnsigned t), .Compute bytes,
                      .VerifyByteSlice (h.Compute bytes) k signature] } := by
      intro hc
      unfold VerifyTransactionSignature
      simp only [checkParams_pass t k signature v m h hsig, hm, hV, hO]
      have hb : (decide (t.Version ≥ 2) && decide (t.Options &&& mask > 0)) = true := by
        simpa using hc
      rw [if_pos hb]
    have hno : ¬ (t.Version ≥ 2 ∧ t.Options &&& mask > 0) →
        VerifyTransactionSignature toUnsigned mask (some t) (some k) signature (some v)
            (some m) (some h) =
          { err := (v.VerifyByteSlice bytes k signature).map .external,
            calls := [.Marshal (toUnsigned t), .VerifyByteSlice bytes k signature] } := by
      intro hc
      unfold VerifyTransactionSignature
      simp only [checkParams_pass t k signature v m h hsig, hm, hV, hO]
      have hb : ¬ (decide (t.Version ≥ 2) && decide (t.Options &&& mask > 0)) = true := by
        simpa using hc
      rw [if_neg hb]
    refine ⟨?_, hyes, hno⟩
    by_cases hc : t.Version ≥ 2 ∧ t.Options &&& mask > 0
    · rw [hyes hc]
      simp [hc]
    · rw [hno hc]
      simp [hc]

/-- Witness for C29: a transaction of version 2 with the hash option is verified on the
hash of its marshalled bytes, and the verifier's acceptance is returned. -/
theorem verify_hands_hash_or_bytes_witness :
    VerifyTransactionSignature clearSignature 1 (some (signedTx 2 1)) (some testKey) [10]
        (some testVerifier) (some testMarshaller) (some testHasher) =
      { err := none,
        calls := [.Marshal (clearSignature (signedTx 2 1)), .Compute [7, 2, 1],
                  .VerifyByteSlice [10] testKey [10]] } :=
  ((verify_hands_hash_or_bytes clearSignature 1 (some (signedTx 2 1)) (some testKey) [10]
      (some testVerifier) (some testMarshaller) (some testHasher)).2.2.2.2.2.2
    (signedTx 2 1) testKey testVerifier testMarshaller testHasher [7, 2, 1] rfl rfl (by decide)
    rfl rfl rfl rfl rfl rfl).2.1 (by decide)

end TxCheck
